import Mathlib

/-!
# urulink message service: session, presence and routing engine

A shallow embedding of the Go sources of `message_service` (handlers, db, redis,
rabbitmq, helper, env, middleware) and of the upload path of `file_service`
(handlers, helper, storage), and statements about them.

Modelling conventions

* The external collaborators (Redis, MySQL through gorm, RabbitMQ, the file
  service reached over HTTP, the file system, the client socket, the clock,
  `encoding/json`) are not code of the repository.  Their *state* is a field of
  `World`; every answer they can give that the Go code distinguishes is chosen
  by an `Oracle`, indexed by the number of external calls made so far, so a
  theorem quantified over all oracles holds for every behaviour of the
  collaborators.
* Every call to a collaborator appends an `Event` to `World.trace`, whether the
  call succeeds or not.
* A Go function returning `(T, error)` becomes `Except String T`; a Go function
  returning `error` becomes `Except String Unit`.  A run-time panic is
  `Outcome.panicked`; the world reached when the panic started is kept.
* `helper.LogInfo` and `helper.LogError` only write to the log sink and are
  left out.
* The file service has its own collaborators (MinIO, the random source): their
  state is `FileService.Store`, their answers are a `FileService.Behaviour`.
* The jobs channel and the read loop are also given as a step system
  (`pumpStep`, `workerReceive`) to speak about a send that blocks.
-/

namespace Urulink

/-! ## Data model: `message_service/models/models.go` -/

/-- The identity returned by the auth service (`models.ClientsLoginResponse`). -/
structure ClientsLoginResponse where
  Uid : String
  Username : String
deriving DecidableEq, Repr

/-- A client frame (`models.DirectMessageInput`). -/
structure DirectMessageInput where
  ContentType : String
  Content : String
deriving DecidableEq, Repr

/-- The persisted entity (`models.DirectMessage`). -/
structure DirectMessage where
  SenderID : String
  ReceiverID : String
  Content : String
  ContentType : String
  FilePath : String
  Status : Int
  CreatedAt : Int
deriving DecidableEq, Repr

/-- The Go zero value `models.DirectMessage{}`. -/
def DirectMessage.zero : DirectMessage :=
  { SenderID := "", ReceiverID := "", Content := "", ContentType := "",
    FilePath := "", Status := 0, CreatedAt := 0 }

/-- The configuration record (`env.EnvManger`). -/
structure EnvManger where
  FilesServiceUrl : String
  RabbitMQHost : String
  RabbitMQUser : String
  RabbitMQPassword : String
  RabbitMQPort : String
  RabbitMQExchangeName : String
  RabbitMQQueueName : String
  DBHost : String
  DBUser : String
  DBPassword : String
  DBName : String
  DBPort : String
  RedisHost : String
  RedisPort : String
  RedisPassword : String
deriving DecidableEq, Repr

/-- The part of `handlers.Handler` that is data; the clients it holds
(`Database`, `RedisClient`, `RabbitMQClient`) are the `World`. -/
structure Handler where
  EnvManger : EnvManger
  MaxWorkers : Nat
deriving DecidableEq, Repr

/-- A `context.Context` as the callee sees it: cancelled or not. -/
structure Context where
  cancelled : Bool
deriving DecidableEq, Repr

/-- A `*fiber.Ctx` that is not nil: the request headers it gives access to. -/
structure FiberCtx where
  headers : List (String × String)
deriving DecidableEq, Repr

/-! ## External calls, state of the collaborators -/

/-- One part of a multipart form. -/
structure FormPart where
  fieldName : String
  fileName : String
  content : String
deriving DecidableEq, Repr

/-- An outgoing HTTP request built with the fiber agent. -/
structure HttpRequest where
  method : String
  url : String
  headers : List (String × String)
  parts : List FormPart
deriving DecidableEq, Repr

/-- A message handed to `channel.Publish`. -/
structure Publishing where
  exchange : String
  routingKey : String
  mandatory : Bool
  immediate : Bool
  contentType : String
  body : String
deriving DecidableEq, Repr

/-- An active consumer on the channel: its tag and the socket its handler
writes to. -/
structure Consumer where
  tag : String
  conn : Nat
deriving DecidableEq, Repr

/-- Calls to the external collaborators, in the order they are issued. -/
inductive Event where
  | redisGet (key : String)
  | redisSet (key value : String) (ttl : Nat)
  | redisDel (key : String)
  | dbBegin
  | dbInsert (m : DirectMessage)
  | dbCommit
  | dbRollback
  | dbSelect (a b : String)
  | brokerPublish (p : Publishing)
  | brokerConsume (queue tag : String)
  | brokerCancel (tag : String)
  | brokerAck (body : String)
  | brokerNack (body : String) (requeue : Bool)
  | osOpen (path : String)
  | httpSend (req : HttpRequest)
  | wsWriteJSON (conn : Nat) (obj : List (String × String))
  | wsWriteMessage (conn : Nat) (payload : String)
  | wsReadJSON (conn : Nat)
  | wsClose (conn : Nat)
  | goWorker (conn : Nat) (senderId receiverId : String)
  | goListen (conn : Nat) (tag : String)
  | jobsSend (conn : Nat) (input : DirectMessageInput)
deriving DecidableEq, Repr

/-- The state of the shared collaborators and the record of calls. -/
structure World where
  redis : List (String × String)
  table : List DirectMessage
  published : List Publishing
  consumers : List Consumer
  trace : List Event
deriving DecidableEq, Repr

/-- The number of external calls made so far; the index at which the oracle is
asked. -/
def World.time (w : World) : Nat := w.trace.length

/-- Record a call. -/
def World.log (w : World) (e : Event) : World := { w with trace := w.trace ++ [e] }

/-- The result of a Go call: a normal return, or a run-time panic. -/
inductive Outcome (α : Type) where
  | ret (a : α)
  | panicked (msg : String)
deriving DecidableEq, Repr

/-- What opening and reading a local file can give. -/
inductive FileResult where
  | openError (e : String)
  | readError (e : String)
  | content (bytes : String)
deriving DecidableEq, Repr

/-- What the insert inside the transaction can do. -/
inductive InsertResult where
  | ok
  | error (e : String)
  | panics (msg : String)
deriving DecidableEq, Repr

/-- The behaviour of the external collaborators.  The first argument of the
time-dependent fields is `World.time` at the call. -/
structure Oracle where
  /-- Value of `time.Now().Unix()`. -/
  now : Nat → Int
  /-- Raw output of the random generator: call time, draw number. -/
  rand : Nat → Nat → Nat
  /-- Result of `os.Open` followed by reading the file. -/
  file : Nat → String → FileResult
  /-- Boundary chosen by `multipart.NewWriter`. -/
  boundary : Nat → String
  /-- Result of `agent.Bytes()`: the transport errors, or status and body. -/
  http : Nat → HttpRequest → Except String (Int × String)
  /-- What `(*fiber.Ctx).Get` does when the receiver is nil (library code). -/
  ctxGetNil : String → Outcome String
  /-- Decoding by `json.Unmarshal` into a `string`. -/
  decodeString : String → Except String String
  /-- Decoding by `json.Unmarshal` into a `models.DirectMessage`. -/
  decodeDirectMessage : String → Except String DirectMessage
  /-- Encoding by `json.Marshal` of a `models.DirectMessage`. -/
  encodeDirectMessage : DirectMessage → Except String String
  /-- Failure of a Redis command (other than a missing key): call time,
  whether the context passed is cancelled. -/
  redisFault : Nat → Bool → Option String
  /-- Outcome of `tx.Table("direct_message").Create(&msg)`; a failed `Begin`
  surfaces here as an error. -/
  dbInsert : Nat → DirectMessage → InsertResult
  /-- Failure of `tx.Commit()`. -/
  dbCommitFault : Nat → Option String
  /-- Failure of the history query. -/
  dbSelectFault : Nat → Option String
  /-- Failure of a channel operation (publish, consume, cancel). -/
  brokerFault : Nat → Option String
  /-- Failure of a write on the socket. -/
  wsWriteFault : Nat → Nat → Option String

/-- A Go computation: from a world to an outcome and the world reached. -/
def Go (α : Type) : Type := World → Outcome α × World

/-- Normal return. -/
def Go.pure {α : Type} (a : α) : Go α := fun w => (Outcome.ret a, w)

/-- Sequencing; a panic skips the rest. -/
def Go.bind {α β : Type} (x : Go α) (f : α → Go β) : Go β := fun w =>
  match x w with
  | (Outcome.ret a, w1) => f a w1
  | (Outcome.panicked m, w1) => (Outcome.panicked m, w1)

instance : Monad Go where
  pure := Go.pure
  bind := Go.bind

/-- Run `body`, then run the deferred `cleanup` whether `body` returned or
panicked (a Go `defer` whose function does not recover). -/
def Go.defer {α : Type} (cleanup : Go Unit) (body : Go α) : Go α := fun w =>
  match body w with
  | (r, w1) =>
    match cleanup w1 with
    | (Outcome.ret _, w2) => (r, w2)
    | (Outcome.panicked m, w2) => (Outcome.panicked m, w2)

/-! ## Helpers: `message_service/helper/generate_info.go` -/

/-- The alphabet of connection ids (`numericChars`). -/
def numericChars : String := "0123456789abcdefghijklmnopqrstuvwxyz"

/-- The loop of `generateRandomString`: `i` is the loop counter, `n` the
number of iterations left, `result` the string built so far.  `rand.Intn`
panics when its argument is not positive. -/
def generateRandomStringLoop (o : Oracle) (t : Nat) (chars : String) :
    Nat → Nat → String → Outcome String
  | 0, _, result => Outcome.ret result
  | n + 1, i, result =>
    if chars.length = 0 then Outcome.panicked "invalid argument to Intn"
    else
      let index := o.rand t i % chars.length
      generateRandomStringLoop o t chars n (i + 1)
        (result ++ String.singleton (chars.toList.getD index ' '))

/-- Go `generateRandomString(chars, length)` for an ASCII alphabet. -/
def generateRandomString (o : Oracle) (t : Nat) (chars : String) (length : Nat) :
    Outcome String :=
  generateRandomStringLoop o t chars length 0 ""

/-- Go `GenerateConnId()`. -/
def GenerateConnId (o : Oracle) (t : Nat) : Outcome String :=
  generateRandomString o t numericChars 14

/-! ## Presence registry: `message_service/redis/connectio_manager.go` -/

/-- The go-redis command `Get`: a missing key is the error `redis: nil`. -/
def redisGet (o : Oracle) (ctx : Context) (key : String) : Go (Except String String) :=
  fun w =>
    match o.redisFault w.time ctx.cancelled with
    | some e => (Outcome.ret (Except.error e), w.log (Event.redisGet key))
    | none =>
      match w.redis.lookup key with
      | some v => (Outcome.ret (Except.ok v), w.log (Event.redisGet key))
      | none => (Outcome.ret (Except.error "redis: nil"), w.log (Event.redisGet key))

/-- The go-redis command `Set` with expiration `ttl` (0: no expiry). -/
def redisSet (o : Oracle) (ctx : Context) (key value : String) (ttl : Nat) :
    Go (Except String Unit) :=
  fun w =>
    match o.redisFault w.time ctx.cancelled with
    | some e => (Outcome.ret (Except.error e), w.log (Event.redisSet key value ttl))
    | none =>
      (Outcome.ret (Except.ok ()),
        { w.log (Event.redisSet key value ttl) with
          redis := (key, value) :: w.redis.filter (fun kv => kv.1 ≠ key) })

/-- The go-redis command `Del`. -/
def redisDel (o : Oracle) (ctx : Context) (key : String) : Go (Except String Unit) :=
  fun w =>
    match o.redisFault w.time ctx.cancelled with
    | some e => (Outcome.ret (Except.error e), w.log (Event.redisDel key))
    | none =>
      (Outcome.ret (Except.ok ()),
        { w.log (Event.redisDel key) with
          redis := w.redis.filter (fun kv => kv.1 ≠ key) })

/-- Go `(*RedisManager).AddClient`. -/
def AddClient (o : Oracle) (ctx : Context) (userId : String) : Go (Except String Unit) :=
  fun w =>
    match GenerateConnId o w.time with
    | Outcome.panicked m => (Outcome.panicked m, w)
    | Outcome.ret connectionID =>
      let connKey := "user:" ++ userId
      redisSet o ctx connKey connectionID 0 w

/-- Go `(*RedisManager).IsClientConnected`: `err == nil` of the `Get`. -/
def IsClientConnected (o : Oracle) (ctx : Context) (userId : String) : Go Bool := do
  let connKey := "user:" ++ userId
  let r ← redisGet o ctx connKey
  match r with
  | Except.ok _ => pure true
  | Except.error _ => pure false

/-- Go `(*RedisManager).RemoveClient`. -/
def RemoveClient (o : Oracle) (ctx : Context) (userId : String) : Go (Except String Unit) :=
  let connKey := "user:" ++ userId
  redisDel o ctx connKey

/-! ## Broker gateway: `message_service/rabbitmq/connection_manager.go` -/

/-- Go `(*RabbitMQManager).PublishMessage`. -/
def PublishMessage (o : Oracle) (_ctx : Context) (userId messageBody : String)
    (envManager : EnvManger) : Go (Except String Unit) :=
  fun w =>
    let p : Publishing :=
      { exchange := envManager.RabbitMQExchangeName, routingKey := userId,
        mandatory := true, immediate := false,
        contentType := "application/json", body := messageBody }
    match o.brokerFault w.time with
    | some e => (Outcome.ret (Except.error e), w.log (Event.brokerPublish p))
    | none =>
      (Outcome.ret (Except.ok ()),
        { w.log (Event.brokerPublish p) with published := w.published ++ [p] })

/-- Go `(*RabbitMQManager).CancelConsume`: `channel.Cancel(consumerTag, false)`. -/
def CancelConsume (o : Oracle) (consumerTag : String) : Go (Except String Unit) :=
  fun w =>
    match o.brokerFault w.time with
    | some e =>
      (Outcome.ret (Except.error
          ("[CancelConsume] Failed to cancel consumer " ++ consumerTag ++ ": " ++ e)),
        w.log (Event.brokerCancel consumerTag))
    | none =>
      (Outcome.ret (Except.ok ()),
        { w.log (Event.brokerCancel consumerTag) with
          consumers := w.consumers.filter (fun c => c.tag ≠ consumerTag) })

/-- The subscription step of Go `(*RabbitMQManager).ListenForMessages`:
`channel.Consume` with the user id as tag; `conn` is the socket the handler
closure writes to.  The result tells whether the delivery pump was started. -/
def ListenForMessages (o : Oracle) (_ctx : Context) (userId : String) (conn : Nat)
    (envManager : EnvManger) : Go Bool :=
  fun w =>
    match o.brokerFault w.time with
    | some _ => (Outcome.ret false, w.log (Event.brokerConsume envManager.RabbitMQQueueName userId))
    | none =>
      (Outcome.ret true,
        { w.log (Event.brokerConsume envManager.RabbitMQQueueName userId) with
          consumers := w.consumers ++ [{ tag := userId, conn := conn }] })

/-! ## Message store: `message_service/db/db.go` -/

/-- Go `Database.GetMessageByReceiverId`: the rows between the two users,
ordered by `created_at` ascending. -/
def GetMessageByReceiverId (o : Oracle) (senderId receiverId : String) :
    Go (Except String (List DirectMessage)) :=
  fun w =>
    match o.dbSelectFault w.time with
    | some e => (Outcome.ret (Except.error e), w.log (Event.dbSelect senderId receiverId))
    | none =>
      let rows := w.table.filter (fun m =>
        (m.SenderID = senderId ∧ m.ReceiverID = receiverId) ∨
        (m.SenderID = receiverId ∧ m.ReceiverID = senderId))
      (Outcome.ret (Except.ok
          (rows.insertionSort (fun a b => a.CreatedAt ≤ b.CreatedAt))),
        w.log (Event.dbSelect senderId receiverId))

/-- Go `Database.CreateNewMsg`.  A panic inside the transaction is recovered by
the deferred function, which rolls back; the function then returns the zero
value of its result, a nil error. -/
def CreateNewMsg (o : Oracle) (msg : DirectMessage) : Go (Except String Unit) :=
  fun w =>
    let w1 := w.log Event.dbBegin
    let w2 := w1.log (Event.dbInsert msg)
    match o.dbInsert w1.time msg with
    | InsertResult.panics _ => (Outcome.ret (Except.ok ()), w2.log Event.dbRollback)
    | InsertResult.error e => (Outcome.ret (Except.error e), w2.log Event.dbRollback)
    | InsertResult.ok =>
      let w3 := w2.log Event.dbCommit
      match o.dbCommitFault w2.time with
      | some e => (Outcome.ret (Except.error e), w3.log Event.dbRollback)
      | none => (Outcome.ret (Except.ok ()), { w3 with table := w3.table ++ [msg] })

/-! ## Attachment uploader: `message_service/helper/agent_helper.go` -/

/-- Go `(*fiber.Ctx).Get(key)`: the request header, the empty string when the
header is not set; through a nil pointer, what the library does. -/
def ctxGet (o : Oracle) (c : Option FiberCtx) (key : String) : Outcome String :=
  match c with
  | some ctx => Outcome.ret ((ctx.headers.lookup key).getD "")
  | none => o.ctxGetNil key

/-- The request `AgentSendFile` builds (lines 85-110): a POST to `url` whose
body is a multipart form with the single part `file`, named after the path and
holding the bytes of the file, with the headers `Authorization` and
`Content-Type`. -/
def uploadRequest (url filePath authorization boundary bytes : String) : HttpRequest :=
  { method := "POST", url := url,
    headers := [("Authorization", authorization),
      ("Content-Type", "multipart/form-data; boundary=" ++ boundary)],
    parts := [{ fieldName := "file", fileName := filePath, content := bytes }] }

/-- Go `AgentSendFile(c, url, filePath)`.  Writing the form into the in-memory
buffer does not fail. -/
def AgentSendFile (o : Oracle) (c : Option FiberCtx) (url filePath : String) :
    Go (Except String (Int × String)) :=
  fun w =>
    let w1 := w.log (Event.osOpen filePath)
    match o.file w.time filePath with
    | FileResult.openError e =>
      (Outcome.ret (Except.error ("failed to open file: " ++ e)), w1)
    | FileResult.readError e =>
      (Outcome.ret (Except.error ("failed to copy file content: " ++ e)), w1)
    | FileResult.content bytes =>
      match ctxGet o c "Authorization" with
      | Outcome.panicked m => (Outcome.panicked m, w1)
      | Outcome.ret authorization =>
        let req := uploadRequest url filePath authorization (o.boundary w.time) bytes
        match o.http w1.time req with
        | Except.error e =>
          (Outcome.ret (Except.error ("failed to send request: " ++ e)),
            w1.log (Event.httpSend req))
        | Except.ok (statusCode, respBody) =>
          (Outcome.ret (Except.ok (statusCode, respBody)), w1.log (Event.httpSend req))

/-- Go `AgentResponse[string](c, body)`. -/
def AgentResponse (o : Oracle) (body : String) : Except String String :=
  match o.decodeString body with
  | Except.ok model => Except.ok model
  | Except.error e => Except.error ("failed to Unmarshal request: " ++ e)

/-! ## Ingress pipeline: `message_service/handlers/websocket.go` -/

/-- The `if msgInput.ContentType == "files"` block of `createMessage`
(lines 179-197): the value of `msg` after it, or the error returned from it.
`c` is the local `var c *fiber.Ctx`, never assigned, hence nil. -/
def createMessageUpload (o : Oracle) (h : Handler) (msgInput : DirectMessageInput)
    (msg : DirectMessage) : Go (Except String DirectMessage) :=
  let c : Option FiberCtx := none
  if msgInput.ContentType = "files" then do
    let r ← AgentSendFile o c (h.EnvManger.FilesServiceUrl ++ "/upload") msgInput.Content
    match r with
    | Except.error _ => pure (Except.error "failed to upload files")
    | Except.ok (statusCode, body) =>
      if statusCode ≠ 200 then pure (Except.error "file upload failed")
      else
        match AgentResponse o body with
        | Except.error _ => pure (Except.error "failed to decode file response")
        | Except.ok filePath => pure (Except.ok { msg with FilePath := filePath })
  else pure (Except.ok msg)

/-- Go `Handler.createMessage`.  After the upload block the variable `msg` is
assigned a composite literal that does not name `FilePath`, so the field is
the zero value. -/
def createMessage (o : Oracle) (h : Handler) (msgInput : DirectMessageInput)
    (msgStatus : Int) (userId receiverId : String) : Go (Except String DirectMessage) := do
  let msg : DirectMessage := DirectMessage.zero
  let r ← createMessageUpload o h msgInput msg
  match r with
  | Except.error e => pure (Except.error e)
  | Except.ok _msg =>
    fun w =>
      let msg : DirectMessage :=
        { SenderID := userId, ReceiverID := receiverId, Content := msgInput.Content,
          ContentType := msgInput.ContentType, FilePath := "", Status := msgStatus,
          CreatedAt := o.now w.time }
      match CreateNewMsg o msg w with
      | (Outcome.ret (Except.error _), w1) =>
        (Outcome.ret (Except.error "failed to save message in database"), w1)
      | (Outcome.ret (Except.ok _), w1) => (Outcome.ret (Except.ok msg), w1)
      | (Outcome.panicked m, w1) => (Outcome.panicked m, w1)

/-- Go `Handler.processMessage`. -/
def processMessage (o : Oracle) (h : Handler) (ctx : Context)
    (msgInput : DirectMessageInput) (senderId receiverId : String) : Go Unit := do
  let isOnline ← IsClientConnected o ctx receiverId
  let msgStatus : Int := if isOnline then 1 else 2
  let r ← createMessage o h msgInput msgStatus senderId receiverId
  match r with
  | Except.error _ => pure ()
  | Except.ok msg =>
    match o.encodeDirectMessage msg with
    | Except.error _ => pure ()
    | Except.ok msgBytes => do
      let _ ← PublishMessage o ctx receiverId msgBytes h.EnvManger
      pure ()

/-- Go `Handler.worker` on the inputs it receives from the jobs channel before
the channel is closed. -/
def worker (o : Oracle) (h : Handler) (ctx : Context) :
    List DirectMessageInput → String → String → Go Unit
  | [], _, _ => pure ()
  | msgInput :: jobs, senderId, receiverId => do
    processMessage o h ctx msgInput senderId receiverId
    worker o h ctx jobs senderId receiverId

/-! ## Session engine: `message_service/handlers/websocket.go`,
`message_service/response/response.go` -/

/-- An upgraded connection as `WebSocketHandler` receives it: the identity of
the socket, the local `userJwtInfo` stored by the auth middleware (absent when
nothing was stored), the query parameter `receiver_id` (empty when absent) and
the frames `ReadJSON` yields before its first failure. -/
structure Conn where
  id : Nat
  userJwtInfo : Option ClientsLoginResponse
  receiver_id : String
  incoming : List DirectMessageInput
deriving DecidableEq, Repr

/-- Go `c.WriteJSON(obj)` for a map of strings. -/
def wsWriteJSON (o : Oracle) (conn : Nat) (obj : List (String × String)) :
    Go (Except String Unit) :=
  fun w =>
    match o.wsWriteFault w.time conn with
    | some e => (Outcome.ret (Except.error e), w.log (Event.wsWriteJSON conn obj))
    | none => (Outcome.ret (Except.ok ()), w.log (Event.wsWriteJSON conn obj))

/-- Go `c.WriteMessage(websocket.TextMessage, payload)`. -/
def wsWriteMessage (o : Oracle) (conn : Nat) (payload : String) :
    Go (Except String Unit) :=
  fun w =>
    match o.wsWriteFault w.time conn with
    | some e => (Outcome.ret (Except.error e), w.log (Event.wsWriteMessage conn payload))
    | none => (Outcome.ret (Except.ok ()), w.log (Event.wsWriteMessage conn payload))

/-- Go `c.Close()`. -/
def wsClose (conn : Nat) : Go Unit :=
  fun w => (Outcome.ret (), w.log (Event.wsClose conn))

/-- Go `response.HandleWebSocketError`: one JSON frame with the key `error`. -/
def HandleWebSocketError (o : Oracle) (c : Conn) (errMsg : String) :
    Go (Except String Unit) :=
  wsWriteJSON o c.id [("error", errMsg)]

/-- The handler closure passed to `ListenForMessages` (lines 97-111): parse
the delivery, forward it to the socket when it is addressed to `userId`. -/
def egressHandler (o : Oracle) (c : Conn) (userId : String) (message : String) :
    Go (Except String Unit) :=
  match o.decodeDirectMessage message with
  | Except.error e => pure (Except.error e)
  | Except.ok msg =>
    if msg.ReceiverID = userId then do
      let r ← wsWriteMessage o c.id message
      match r with
      | Except.error e => pure (Except.error e)
      | Except.ok _ => pure (Except.ok ())
    else pure (Except.ok ())

/-- The acknowledgement of one delivery in `ListenForMessages` (lines 69-79):
`msg.Nack(false, true)` when the handler returned an error, `msg.Ack(false)`
otherwise. -/
def acknowledge (body : String) (r : Except String Unit) : Go Unit :=
  match r with
  | Except.error _ => fun w => (Outcome.ret (), w.log (Event.brokerNack body true))
  | Except.ok _ => fun w => (Outcome.ret (), w.log (Event.brokerAck body))

/-- The delivery pump of `ListenForMessages` (the inner goroutine) on the
deliveries it receives: call the handler, then nack with requeue or ack. -/
def deliveryPump (handler : String → Go (Except String Unit)) : List String → Go Unit
  | [] => pure ()
  | body :: msgs => do
    let r ← handler body
    acknowledge body r
    deliveryPump handler msgs

/-- The goroutine started at lines 96-112: subscribe with the user id as tag,
then pump the deliveries through the egress handler. -/
def egressSubscriber (o : Oracle) (h : Handler) (ctx : Context) (c : Conn)
    (userId : String) (deliveries : List String) : Go Unit := do
  let started ← ListenForMessages o ctx userId c.id h.EnvManger
  if started then deliveryPump (egressHandler o c userId) deliveries
  else pure ()

/-- The deferred function of lines 52-56: cancel the context, then remove the
presence mark (with the context just cancelled), then cancel the consumer. -/
def teardown (o : Oracle) (userId : String) : Go Unit := do
  let ctx : Context := { cancelled := true }
  let _ ← RemoveClient o ctx userId
  let _ ← CancelConsume o userId
  pure ()

/-- The history loop of lines 78-85; the error of `json.Marshal` is dropped, so
a failed encoding sends an empty payload.  The result tells whether every frame
was sent. -/
def historyFlush (o : Oracle) (c : Conn) : List DirectMessage → Go Bool
  | [] => pure true
  | msg :: messages => do
    let messageData : String :=
      match o.encodeDirectMessage msg with
      | Except.ok data => data
      | Except.error _ => ""
    let r ← wsWriteMessage o c.id messageData
    match r with
    | Except.error _ => do
      let _ ← HandleWebSocketError o c "Failed to send historical messages"
      pure false
    | Except.ok _ => historyFlush o c messages

/-- Lines 58-61 of `WebSocketHandler`, the takeover check: when the user is
already marked present, cancel the consumer with the user id as tag; the
result of the cancel is dropped. -/
def takeoverCheck (o : Oracle) (ctx : Context) (userId : String) : Go Unit := do
  let connected ← IsClientConnected o ctx userId
  if connected then do
    let _ ← CancelConsume o userId
    pure ()
  else pure ()

/-- Lines 58-85 of `WebSocketHandler`: takeover check, presence publish,
history flush.  The result tells whether the handler goes on to the steady
state (`true`) or returns (`false`). -/
def sessionOpen (o : Oracle) (c : Conn) (ctx : Context) (userId receiverId : String) :
    Go Bool := do
  takeoverCheck o ctx userId
  let r ← AddClient o ctx userId
  match r with
  | Except.error _ => do
    let _ ← HandleWebSocketError o c "Failed to add client"
    pure false
  | Except.ok _ => do
    let q ← GetMessageByReceiverId o userId receiverId
    match q with
    | Except.error _ => do
      let _ ← HandleWebSocketError o c "Failed to retrieve message history"
      pure false
    | Except.ok messages => historyFlush o c messages

/-- The worker launch loop of lines 91-93, each `go` statement recorded. -/
def startWorkers (c : Conn) (userId receiverId : String) : Nat → Go Unit
  | 0 => pure ()
  | n + 1 => do
    (fun w => (Outcome.ret (), w.log (Event.goWorker c.id userId receiverId)) : Go Unit)
    startWorkers c userId receiverId n

/-- The read loop of lines 115-123: every frame read is sent on the jobs
channel; the read that fails ends the loop. -/
def readLoop (c : Conn) : List DirectMessageInput → Go Unit
  | [] => fun w => (Outcome.ret (), w.log (Event.wsReadJSON c.id))
  | msgInput :: frames => do
    (fun w => (Outcome.ret (), w.log (Event.wsReadJSON c.id)) : Go Unit)
    (fun w => (Outcome.ret (), w.log (Event.jobsSend c.id msgInput)) : Go Unit)
    readLoop c frames

/-- Lines 87-123 of `WebSocketHandler` as run by the handler goroutine itself:
the `go` statements are recorded, their bodies are `worker` and
`egressSubscriber`. -/
def sessionSteady (h : Handler) (c : Conn) (userId receiverId : String) : Go Unit := do
  startWorkers c userId receiverId h.MaxWorkers
  (fun w => (Outcome.ret (), w.log (Event.goListen c.id userId)) : Go Unit)
  readLoop c c.incoming

/-- Go `Handler.WebSocketHandler`, the handler goroutine. -/
def WebSocketHandler (o : Oracle) (h : Handler) (c : Conn) : Go Unit :=
  Go.defer (wsClose c.id)
    (match c.userJwtInfo with
     | none => fun w => (Outcome.panicked "interface conversion: interface is nil", w)
     | some userJwtInfo =>
       let userId := userJwtInfo.Uid
       let receiverId := c.receiver_id
       if receiverId = "" then do
         let _ ← HandleWebSocketError o c "Receiver ID is required"
         pure ()
       else
         let ctx : Context := { cancelled := false }
         Go.defer (teardown o userId) (do
           let proceed ← sessionOpen o c ctx userId receiverId
           if proceed then sessionSteady h c userId receiverId
           else pure ()))

/-! ## Concrete behaviours of the collaborators, used to run the code -/

/-- A JSON rendering of a message whose strings need no escaping. -/
def renderDirectMessage (m : DirectMessage) : String :=
  "\x7b\"sender_id\":\"" ++ m.SenderID ++ "\",\"receiver_id\":\"" ++ m.ReceiverID ++
  "\",\"content\":\"" ++ m.Content ++ "\",\"content_type\":\"" ++ m.ContentType ++
  "\",\"file_path\":\"" ++ m.FilePath ++ "\",\"status\":" ++ toString m.Status ++
  ",\"created_at\":" ++ toString m.CreatedAt ++ "\x7d"

/-- Decoding of a JSON string literal without escapes. -/
def unquote (body : String) : Except String String :=
  match body.toList with
  | '"' :: rest =>
    match rest.getLast? with
    | some '"' => Except.ok (String.mk rest.dropLast)
    | _ => Except.error "unexpected end of JSON input"
  | _ => Except.error "cannot unmarshal into Go value of type string"

/-- A behaviour of the collaborators in which no infrastructure call fails:
Redis, MySQL, RabbitMQ and the socket answer, the clock ticks from
1700000000, the local files are those of `files`, the file service answers
`reply`, `(*fiber.Ctx).Get` through nil does `nilGet`, and the JSON decoder of
messages knows the renderings of `known`. -/
def Oracle.calm (files : List (String × String)) (reply : Except String (Int × String))
    (nilGet : Outcome String) (known : List DirectMessage) : Oracle :=
  { now := fun t => 1700000000 + (t : Int)
    rand := fun t i => 7 * t + 11 * i
    file := fun _ path =>
      match files.lookup path with
      | some bytes => FileResult.content bytes
      | none => FileResult.openError "no such file or directory"
    boundary := fun _ => "boundary"
    http := fun _ _ => reply
    ctxGetNil := fun _ => nilGet
    decodeString := unquote
    decodeDirectMessage := fun body =>
      match known.find? (fun m => renderDirectMessage m = body) with
      | some m => Except.ok m
      | none => Except.error "invalid character"
    encodeDirectMessage := fun m => Except.ok (renderDirectMessage m)
    redisFault := fun _ _ => none
    dbInsert := fun _ _ => InsertResult.ok
    dbCommitFault := fun _ => none
    dbSelectFault := fun _ => none
    brokerFault := fun _ => none
    wsWriteFault := fun _ _ => none }

/-- The behaviour of `Oracle.calm` with the Go semantics of a method that reads
a field through its nil receiver: a run-time panic. -/
def Oracle.goNil (files : List (String × String)) (reply : Except String (Int × String))
    (known : List DirectMessage) : Oracle :=
  Oracle.calm files reply
    (Outcome.panicked "runtime error: invalid memory address or nil pointer dereference")
    known

/-- The behaviour of `Oracle.goNil` in which every insert is refused. -/
def Oracle.insertRefused : Oracle :=
  { Oracle.goNil [] (Except.error "connection refused") [] with
    dbInsert := fun _ _ => InsertResult.error "Error 1205: Lock wait timeout exceeded" }

/-- The file service would accept the upload of `/tmp/x.png`; `(*fiber.Ctx).Get`
through nil panics, as a Go method reading a field of its nil receiver does. -/
def Oracle.uploadNil : Oracle :=
  Oracle.goNil [("/tmp/x.png", "PNG")] (Except.ok (200, "\"obj.png\"")) []

/-- Redis honours the context: a command issued with a cancelled context fails
with `context canceled`; nothing else fails. -/
def Oracle.ctxAware : Oracle :=
  { Oracle.goNil [] (Except.error "connection refused") [] with
    redisFault := fun _ cancelled => if cancelled then some "context canceled" else none }

/-- RabbitMQ is unreachable: every channel operation fails; nothing else does. -/
def Oracle.brokerDown : Oracle :=
  { Oracle.goNil [] (Except.error "connection refused") [] with
    brokerFault := fun _ => some "Exception (504) Reason: \"channel/connection is not open\"" }

/-- The configuration `NewEnv` yields in a deployment: `FilesServiceUrl` is
never loaded. -/
def sampleEnv : EnvManger :=
  { FilesServiceUrl := "", RabbitMQHost := "mq", RabbitMQUser := "guest",
    RabbitMQPassword := "guest", RabbitMQPort := "5672",
    RabbitMQExchangeName := "urulink", RabbitMQQueueName := "messages",
    DBHost := "db", DBUser := "root", DBPassword := "pw", DBName := "urulink",
    DBPort := "3306", RedisHost := "redis", RedisPort := "6379", RedisPassword := "" }

/-- The handler `Init` builds: ten workers. -/
def sampleHandler : Handler := { EnvManger := sampleEnv, MaxWorkers := 10 }

/-- A message as stored after an online relay from A to B. -/
def sampleMessage : DirectMessage :=
  { SenderID := "A", ReceiverID := "B", Content := "hi", ContentType := "text",
    FilePath := "", Status := 1, CreatedAt := 1700000001 }

/-- An authenticated connection of user A to the peer `receiver` on socket
`id`, whose client sends `frames` and then disconnects. -/
def connOfA (id : Nat) (receiver : String) (frames : List DirectMessageInput) : Conn :=
  { id := id, userJwtInfo := some { Uid := "A", Username := "alice" },
    receiver_id := receiver, incoming := frames }

/-- The world before any session: nothing stored, nothing subscribed. -/
def World.empty : World :=
  { redis := [], table := [], published := [], consumers := [], trace := [] }

/-- A table with three rows: B to A at time 1, A to C at time 2, A to B at
time 3, stored in the order A to B, B to A, A to C. -/
def World.chat : World :=
  { redis := [], published := [], consumers := [], trace := [],
    table := [DirectMessage.mk "A" "B" "hello" "text" "" 2 3,
              DirectMessage.mk "B" "A" "hi" "text" "" 2 1,
              DirectMessage.mk "A" "C" "yo" "text" "" 2 2] }

/-- A world in which user A is marked present and a consumer tagged A is
active on socket 1. -/
def World.withSessionOfA : World :=
  { redis := [("user:A", "7it4fq1cny9kv6")], table := [], published := [],
    consumers := [Consumer.mk "A" 1], trace := [] }

/-! ## Schedules of several sessions -/

/-- The takeover schedule on one engine instance for a user with two
connections: the first session opens and its egress goroutine subscribes, then
the second session opens (takeover) and its egress goroutine subscribes.  The
first session is then still blocked in its read loop. -/
def takeoverSchedule (o : Oracle) (h : Handler) (c1 c2 : Conn) (userId : String) :
    Go Unit := do
  let _ ← sessionOpen o c1 (Context.mk false) userId c1.receiver_id
  egressSubscriber o h (Context.mk false) c1 userId []
  let _ ← sessionOpen o c2 (Context.mk false) userId c2.receiver_id
  egressSubscriber o h (Context.mk false) c2 userId []

/-- A run of a session in which the egress goroutine runs as soon as it is
started, before the handler goroutine reads its first frame, and receives
`deliveries` before its delivery channel ends. -/
def sessionWithEgress (o : Oracle) (h : Handler) (c : Conn) (userId : String)
    (deliveries : List String) : Go Unit :=
  Go.defer (wsClose c.id)
    (Go.defer (teardown o userId) (do
      let proceed ← sessionOpen o c (Context.mk false) userId c.receiver_id
      if proceed then do
        startWorkers c userId c.receiver_id h.MaxWorkers
        (fun w => (Outcome.ret (), w.log (Event.goListen c.id userId)) : Go Unit)
        egressSubscriber o h (Context.mk false) c userId deliveries
        readLoop c c.incoming
      else pure ()))

/-- A run of a session whose workers are slower than its client: the handler
goroutine runs to its end while the frames it read wait on the jobs channel,
and only then a worker, still ranging over the channel, receives them; the
context the worker was started with is cancelled by then. -/
def drainAfterTeardown (o : Oracle) (h : Handler) (c : Conn) (userId : String) :
    Go Unit := do
  WebSocketHandler o h c
  worker o h (Context.mk true) c.incoming userId c.receiver_id


/-! ## Predicates used in the statements -/

/-- Two worlds that differ at most in the record of calls: the presence
registry, the message table, the broker's published messages and its consumers
are the same. -/
def SameStores (w w1 : World) : Prop :=
  w1.redis = w.redis ∧ w1.table = w.table ∧ w1.published = w.published ∧
    w1.consumers = w.consumers

/-- The message `createMessage` builds at lines 200-207 when the clock reads
`createdAt`. -/
def builtMessage (msgInput : DirectMessageInput) (msgStatus : Int)
    (userId receiverId : String) (createdAt : Int) : DirectMessage :=
  { SenderID := userId, ReceiverID := receiverId, Content := msgInput.Content,
    ContentType := msgInput.ContentType, FilePath := "", Status := msgStatus,
    CreatedAt := createdAt }

/-- The status `processMessage` computes at lines 136-140: 1 when the presence
query for the receiver returned `true`, 2 otherwise. -/
def statusOf (o : Oracle) (ctx : Context) (receiverId : String) (w : World) : Int :=
  if (IsClientConnected o ctx receiverId w).1 = Outcome.ret true then 1 else 2

/-- The publishing `PublishMessage` hands to the channel for a body. -/
def publishingOf (h : Handler) (receiverId body : String) : Publishing :=
  { exchange := h.EnvManger.RabbitMQExchangeName, routingKey := receiverId,
    mandatory := true, immediate := false, contentType := "application/json",
    body := body }

/-- The calls of the history phase on socket `conn`: the history query and the
writes on that socket. -/
def Event.isHistoryStep (conn : Nat) : Event → Bool
  | Event.dbSelect _ _ => true
  | Event.wsWriteMessage c _ => c == conn
  | Event.wsWriteJSON c _ => c == conn
  | _ => false

/-- The upload made for a `files` input at world `w` ends in a failure: an
error from `AgentSendFile` (file not opened or read, transport error), a status
other than 200, or a body that does not decode to a string. -/
def uploadFails (o : Oracle) (h : Handler) (inp : DirectMessageInput) (w : World) : Prop :=
  match (AgentSendFile o none (h.EnvManger.FilesServiceUrl ++ "/upload") inp.Content w).1 with
  | Outcome.ret (Except.error _) => True
  | Outcome.ret (Except.ok (statusCode, body)) =>
    statusCode ≠ 200 ∨ ∃ e, o.decodeString body = Except.error e
  | Outcome.panicked _ => False

/-- The insert or the commit of the transaction `CreateNewMsg` runs from world
`w` for `msg` fails: the insert returns an error, or the insert succeeds and the
commit returns an error. -/
def persistFails (o : Oracle) (msg : DirectMessage) (w : World) : Prop :=
  (∃ e, o.dbInsert (w.time + 1) msg = InsertResult.error e) ∨
  (o.dbInsert (w.time + 1) msg = InsertResult.ok ∧ ∃ e, o.dbCommitFault (w.time + 2) = some e)

/-- The delivery an acknowledgement action answers: the body of an ack or of
a nack, nothing for any other call. -/
def Event.ackedBody : Event → Option String
  | Event.brokerAck body => some body
  | Event.brokerNack body _ => some body
  | _ => none

/-- A handler that returns normally and itself issues no acknowledgement
action, whatever the delivery and the world. -/
def QuietHandler (handler : String → Go (Except String Unit)) : Prop :=
  ∀ (body : String) (w : World), ∃ r w1 evs,
    handler body w = (Outcome.ret r, w1) ∧ w1.trace = w.trace ++ evs ∧
    ∀ e ∈ evs, Event.ackedBody e = none

/-- The calls of the open phase on socket `conn`: presence query, cancel,
presence write, history query and writes on that socket. -/
def Event.isOpenStep (conn : Nat) : Event → Bool
  | Event.redisGet _ => true
  | Event.brokerCancel _ => true
  | Event.redisSet _ _ _ => true
  | Event.dbSelect _ _ => true
  | Event.wsWriteMessage c _ => c == conn
  | Event.wsWriteJSON c _ => c == conn
  | _ => false

/-- The calls of the read loop for the frames the client sends: each frame is
read and sent on the jobs channel; a last read fails. -/
def readEvents (c : Conn) : List DirectMessageInput → List Event
  | [] => [Event.wsReadJSON c.id]
  | f :: frames => Event.wsReadJSON c.id :: Event.jobsSend c.id f :: readEvents c frames

/-- The rows the spec's `history(a, b)` selects from a table: those sent by `a`
to `b` or by `b` to `a`, in table order. -/
def historyRows (table : List DirectMessage) (a b : String) : List DirectMessage :=
  table.filter (fun m =>
    (m.SenderID = a ∧ m.ReceiverID = b) ∨ (m.SenderID = b ∧ m.ReceiverID = a))

/-- The payload of the history frame for a message (lines 79-80): its encoding,
the empty payload when the encoding fails. -/
def historyPayload (o : Oracle) (m : DirectMessage) : String :=
  match o.encodeDirectMessage m with
  | Except.ok data => data
  | Except.error _ => ""

/-- The calls of the egress goroutine of socket `conn` after its subscription:
writes of frames on that socket and acknowledgement actions. -/
def Event.isPumpStep (conn : Nat) : Event → Bool
  | Event.wsWriteMessage c _ => c == conn
  | Event.brokerAck _ => true
  | Event.brokerNack _ _ => true
  | _ => false

/-- A write of a frame (history or live) on socket `conn`. -/
def Event.isFrameWrite (conn : Nat) : Event → Bool
  | Event.wsWriteMessage c _ => c == conn
  | _ => false

/-- The start of the egress side of socket `conn`: the `go` statement of its
subscriber or a subscription call. -/
def Event.startsEgress (conn : Nat) : Event → Bool
  | Event.goListen c _ => c == conn
  | Event.brokerConsume _ _ => true
  | _ => false

/-- The calls of the open phase on socket `conn` other than the error frame:
presence query, cancel, presence write, history query and writes of history
frames on that socket. -/
def Event.isOpenCall (conn : Nat) : Event → Bool
  | Event.redisGet _ => true
  | Event.brokerCancel _ => true
  | Event.redisSet _ _ _ => true
  | Event.dbSelect _ _ => true
  | Event.wsWriteMessage c _ => c == conn
  | _ => false

/-- The calls of the steady state: a `go` statement of a worker or of the
egress subscriber, a subscription, a read of a client frame, a send on the
jobs channel. -/
def Event.isSteadyStep : Event → Bool
  | Event.goWorker _ _ _ => true
  | Event.goListen _ _ => true
  | Event.brokerConsume _ _ => true
  | Event.wsReadJSON _ => true
  | Event.jobsSend _ _ => true
  | _ => false

/-- The presence write of the open phase started at `w` returns an error. -/
def presenceWriteFails (o : Oracle) (ctx : Context) (userId : String) (w : World) : Prop :=
  ∃ e w3, AddClient o ctx userId (takeoverCheck o ctx userId w).2 =
    (Outcome.ret (Except.error e), w3)

/-- The open phase started at `w` meets a failure: the presence write returns
an error; or it succeeds and the history query returns an error; or both
succeed and the socket refuses a write at one of the times the history frames
are written. -/
def openFails (o : Oracle) (c : Conn) (ctx : Context) (userId receiverId : String)
    (w : World) : Prop :=
  match AddClient o ctx userId (takeoverCheck o ctx userId w).2 with
  | (Outcome.ret (Except.error _), _) => True
  | (Outcome.ret (Except.ok _), w3) =>
    match GetMessageByReceiverId o userId receiverId w3 with
    | (Outcome.ret (Except.error _), _) => True
    | (Outcome.ret (Except.ok messages), w4) =>
      ∃ k, k < messages.length ∧ ∃ e, o.wsWriteFault (w4.time + k) c.id = some e
    | (Outcome.panicked _, _) => False
  | (Outcome.panicked _, _) => False

/-- Redis is unreachable: every command fails; nothing else does. -/
def Oracle.redisDown : Oracle :=
  { Oracle.goNil [] (Except.error "connection refused") [] with
    redisFault := fun _ _ => some "dial tcp: connect: connection refused" }

/-- The client socket is gone: every write on it fails; nothing else does. -/
def Oracle.socketBroken : Oracle :=
  { Oracle.goNil [] (Except.error "connection refused") [] with
    wsWriteFault := fun _ _ => some "write: broken pipe" }

/-! ## Configuration: `message_service/env/env.go` -/

/-- The Go zero value of `EnvManger`: the composite literal with no field set. -/
def EnvManger.zero : EnvManger :=
  { FilesServiceUrl := "", RabbitMQHost := "", RabbitMQUser := "", RabbitMQPassword := "",
    RabbitMQPort := "", RabbitMQExchangeName := "", RabbitMQQueueName := "", DBHost := "",
    DBUser := "", DBPassword := "", DBName := "", DBPort := "", RedisHost := "",
    RedisPort := "", RedisPassword := "" }

/-- The closure `loadEnv` of `NewEnv`: `environ` is `os.LookupEnv`, `target`
the field the pointer argument designates.  `log.Fatalf` ends the process; the
message it prints is the error. -/
def loadEnv (environ : String → Option String) (envVar : String)
    (target : EnvManger → String → EnvManger) (env : EnvManger) : Except String EnvManger :=
  match environ envVar with
  | none => Except.error ("Environment variable " ++ envVar ++ " not found")
  | some value => Except.ok (target env value)

/-- Go `NewEnv()`. -/
def NewEnv (environ : String → Option String) : Except String EnvManger := do
  let env : EnvManger := EnvManger.zero
  let env ← loadEnv environ "RABBITMQ_HOST" (fun e v => { e with RabbitMQHost := v }) env
  let env ← loadEnv environ "RABBITMQ_USER" (fun e v => { e with RabbitMQUser := v }) env
  let env ← loadEnv environ "RABBITMQ_PASSWORD" (fun e v => { e with RabbitMQPassword := v }) env
  let env ← loadEnv environ "RABBITMQ_PORT" (fun e v => { e with RabbitMQPort := v }) env
  let env ← loadEnv environ "RABBITMQ_EXCHANGE_NAME"
    (fun e v => { e with RabbitMQExchangeName := v }) env
  let env ← loadEnv environ "RABBITMQ_QUEUE_NAME"
    (fun e v => { e with RabbitMQQueueName := v }) env
  let env ← loadEnv environ "URULINK_FILES_SERVICE" (fun e v => { e with DBHost := v }) env
  let env ← loadEnv environ "DB_HOST" (fun e v => { e with DBHost := v }) env
  let env ← loadEnv environ "DB_USER" (fun e v => { e with DBUser := v }) env
  let env ← loadEnv environ "DB_PASSWORD" (fun e v => { e with DBPassword := v }) env
  let env ← loadEnv environ "DB_NAME" (fun e v => { e with DBName := v }) env
  let env ← loadEnv environ "DB_PORT" (fun e v => { e with DBPort := v }) env
  let env ← loadEnv environ "REDIS_HOST" (fun e v => { e with RedisHost := v }) env
  let env ← loadEnv environ "REDIS_PASSWORD" (fun e v => { e with RedisPassword := v }) env
  let env ← loadEnv environ "REDIS_PORT" (fun e v => { e with RedisPort := v }) env
  pure env

/-- The `loadEnv` calls of `NewEnv` in program order: variable and target. -/
def NewEnv.steps : List (String × (EnvManger → String → EnvManger)) :=
  [("RABBITMQ_HOST", fun e v => { e with RabbitMQHost := v }),
   ("RABBITMQ_USER", fun e v => { e with RabbitMQUser := v }),
   ("RABBITMQ_PASSWORD", fun e v => { e with RabbitMQPassword := v }),
   ("RABBITMQ_PORT", fun e v => { e with RabbitMQPort := v }),
   ("RABBITMQ_EXCHANGE_NAME", fun e v => { e with RabbitMQExchangeName := v }),
   ("RABBITMQ_QUEUE_NAME", fun e v => { e with RabbitMQQueueName := v }),
   ("URULINK_FILES_SERVICE", fun e v => { e with DBHost := v }),
   ("DB_HOST", fun e v => { e with DBHost := v }),
   ("DB_USER", fun e v => { e with DBUser := v }),
   ("DB_PASSWORD", fun e v => { e with DBPassword := v }),
   ("DB_NAME", fun e v => { e with DBName := v }),
   ("DB_PORT", fun e v => { e with DBPort := v }),
   ("REDIS_HOST", fun e v => { e with RedisHost := v }),
   ("REDIS_PASSWORD", fun e v => { e with RedisPassword := v }),
   ("REDIS_PORT", fun e v => { e with RedisPort := v })]

/-- The variables `NewEnv` loads. -/
def loadedVariables : List String :=
  ["RABBITMQ_HOST", "RABBITMQ_USER", "RABBITMQ_PASSWORD", "RABBITMQ_PORT",
   "RABBITMQ_EXCHANGE_NAME", "RABBITMQ_QUEUE_NAME", "URULINK_FILES_SERVICE", "DB_HOST",
   "DB_USER", "DB_PASSWORD", "DB_NAME", "DB_PORT", "REDIS_HOST", "REDIS_PASSWORD",
   "REDIS_PORT"]

/-- An environment of a deployment in which every loaded variable is set. -/
def sampleEnviron (name : String) : Option String :=
  [("RABBITMQ_HOST", "mq"), ("RABBITMQ_USER", "guest"), ("RABBITMQ_PASSWORD", "guest"),
   ("RABBITMQ_PORT", "5672"), ("RABBITMQ_EXCHANGE_NAME", "urulink"),
   ("RABBITMQ_QUEUE_NAME", "messages"), ("URULINK_FILES_SERVICE", "http://files:8082"),
   ("URULINK_AUTH_SERVICE", "http://auth:8081"),
   ("DB_HOST", "db"), ("DB_USER", "root"), ("DB_PASSWORD", "pw"), ("DB_NAME", "urulink"),
   ("DB_PORT", "3306"), ("REDIS_HOST", "redis"), ("REDIS_PASSWORD", ""),
   ("REDIS_PORT", "6379")].lookup name

/-! ## Auth middleware: `message_service/middleware/check_auth.go` -/

/-- What the middleware does with a request: it returns the error
`fiber.ErrUpgradeRequired`, or it sends a response and returns, or it stores
the locals `userJwtInfo` and `allowed` and calls the next handler. -/
inductive MiddlewareResult where
  | upgradeRequired
  | respond (status : Nat) (body : String)
  | next (userJwtInfo : ClientsLoginResponse) (allowed : Bool)
deriving DecidableEq, Repr

/-- The request the middleware sends to the auth service (lines 50-52). -/
def checkLoginRequest (authUrl accessToken : String) : HttpRequest :=
  { method := "POST", url := authUrl ++ "/check-login",
    headers := [("Authorization", accessToken)], parts := [] }

/-- Go `AgentResponse[models.ClientsLoginResponse](c, body)`; `decodeLogin` is
`json.Unmarshal` into a `models.ClientsLoginResponse`. -/
def AgentResponse.login (decodeLogin : String → Except String ClientsLoginResponse)
    (body : String) : Except String ClientsLoginResponse :=
  match decodeLogin body with
  | Except.ok model => Except.ok model
  | Except.error e => Except.error ("failed to Unmarshal request: " ++ e)

/-- The handler returned by Go `WebSocketConnection(h)`.  `isUpgrade` is
`websocket.IsWebSocketUpgrade(c)`, `environ` is `os.LookupEnv`, `authCall` is
`agent.Bytes()`: status code, body and the list of transport errors. -/
def WebSocketConnection (environ : String → Option String)
    (authCall : HttpRequest → Int × String × List String)
    (decodeLogin : String → Except String ClientsLoginResponse)
    (isUpgrade : Bool) (c : FiberCtx) : Outcome MiddlewareResult :=
  if !isUpgrade then Outcome.ret MiddlewareResult.upgradeRequired
  else
    match environ "URULINK_AUTH_SERVICE" with
    | none => Outcome.panicked "URULINK_AUTH_SERVICE Env not found !"
    | some authUrl =>
      let accessToken := (c.headers.lookup "Authorization").getD ""
      match authCall (checkLoginRequest authUrl accessToken) with
      | (statusCode, body, errs) =>
        if errs.length > 0 ∨ statusCode ≠ 200 then
          Outcome.ret (MiddlewareResult.respond 401 "Unauthorized requests 1")
        else
          match AgentResponse.login decodeLogin body with
          | Except.error _ =>
            Outcome.ret (MiddlewareResult.respond 401 "Unauthorized requests 2")
          | Except.ok userJwtInfo =>
            Outcome.ret (MiddlewareResult.next userJwtInfo true)

/-- A decoder of the auth service's answer that knows the rendering of one
identity. -/
def decodeAlice (body : String) : Except String ClientsLoginResponse :=
  if body = "\x7b\"uid\":\"A\",\"username\":\"alice\"\x7d" then
    Except.ok { Uid := "A", Username := "alice" }
  else Except.error "invalid character"

/-- An upgrade request carrying a bearer token. -/
def sampleUpgrade : FiberCtx :=
  { headers := [("Upgrade", "websocket"), ("Authorization", "Bearer t0k3n")] }

/-! ## The jobs channel and the read loop as a step system:
`message_service/handlers/websocket.go`, lines 87-123 -/

/-- The capacity of the jobs channel: `make(chan models.DirectMessageInput, 100)`. -/
def jobsCapacity : Nat := 100

/-- Where the handler goroutine stands in the loop of lines 115-123: about to
call `ReadJSON`, about to send the frame it read on the jobs channel, or
returned. -/
inductive PumpAt where
  | read
  | send (msgInput : DirectMessageInput)
  | returned
deriving DecidableEq, Repr

/-- The ingress side of a session: the position of the handler goroutine, the
frames the client has sent that are not read yet, the buffer of the jobs
channel (oldest first) and the number of `ReadJSON` calls that returned a
frame. -/
structure Ingress where
  pc : PumpAt
  unread : List DirectMessageInput
  jobs : List DirectMessageInput
  reads : Nat
deriving DecidableEq, Repr

/-- The state when the read loop is entered: nothing read, the channel empty. -/
def Ingress.start (frames : List DirectMessageInput) : Ingress :=
  { pc := PumpAt.read, unread := frames, jobs := [], reads := 0 }

/-- One step of the handler goroutine while no worker is waiting to receive;
`none` when it cannot move.  `ReadJSON` returns the next frame, or fails when
the client has sent no more (the loop ends); the send `jobs <- msgInput`
proceeds when the buffer is not full and blocks otherwise. -/
def pumpStep (s : Ingress) : Option Ingress :=
  match s.pc with
  | PumpAt.read =>
    match s.unread with
    | msgInput :: rest =>
      some { s with pc := PumpAt.send msgInput, unread := rest, reads := s.reads + 1 }
    | [] => some { s with pc := PumpAt.returned }
  | PumpAt.send msgInput =>
    if s.jobs.length < jobsCapacity then
      some { s with pc := PumpAt.read, jobs := s.jobs ++ [msgInput] }
    else none
  | PumpAt.returned => none

/-- A worker receives from the jobs channel (`for msgInput := range jobs`):
the oldest input leaves the buffer; `none` when the buffer is empty. -/
def workerReceive (s : Ingress) : Option (DirectMessageInput × Ingress) :=
  match s.jobs with
  | msgInput :: rest => some (msgInput, { s with jobs := rest })
  | [] => none

/-- The handler goroutine run for at most `fuel` steps while every worker is
stalled: it stops where it cannot move. -/
def pumpRun : Nat → Ingress → Ingress
  | 0, s => s
  | fuel + 1, s =>
    match pumpStep s with
    | none => s
    | some s1 => pumpRun fuel s1

/-- A client that has sent 102 text frames. -/
def manyFrames : List DirectMessageInput :=
  List.replicate 102 (DirectMessageInput.mk "text" "hi")

/-! ## File service: `file_service/models/models.go`,
`file_service/helper/files_helper.go`, `file_service/helper/generate_info.go` -/

namespace FileService

/-- The entry of the upload response (`models.FileSender`). -/
structure FileSender where
  FileName : String
  FileUrl : String
deriving DecidableEq, Repr

/-- The configuration of a file type (`models.FileTypeConfig`). -/
structure FileTypeConfig where
  Dir : String
  MaxSize : Int
deriving DecidableEq, Repr

/-- A `multipart.FileHeader`: the name and the size the part announces, and
what `Open` gives: an error, or the bytes of the file. -/
structure FileHeader where
  Filename : String
  Size : Int
  content : Except String String

/-- The constant `ImageLimit`. -/
def ImageLimit : Int := 20 * 1024 * 1024

/-- The constant `VideoLimit`. -/
def VideoLimit : Int := 100 * 1024 * 1024

/-- The constant `FileLimit`. -/
def FileLimit : Int := 50 * 1024 * 1024

/-- The map `fileTypeMap`. -/
def fileTypeMap : List (String × FileTypeConfig) :=
  [(".jpeg", { Dir := "", MaxSize := ImageLimit }),
   (".jpg", { Dir := "", MaxSize := ImageLimit }),
   (".png", { Dir := "", MaxSize := ImageLimit }),
   (".mp4", { Dir := "", MaxSize := VideoLimit }),
   (".pdf", { Dir := "", MaxSize := FileLimit }),
   (".txt", { Dir := "", MaxSize := FileLimit }),
   (".zip", { Dir := "", MaxSize := FileLimit })]

/-- The loop of Go `filepath.Ext` (standard library) on a Unix path, over the
characters from the last one backwards; `suffix` is what follows the character
looked at. -/
def extScan : List Char → List Char → String
  | [], _ => ""
  | ch :: before, suffix =>
    if ch = '/' then ""
    else if ch = '.' then String.mk ('.' :: suffix)
    else extScan before (ch :: suffix)

/-- Go `filepath.Ext(path)`: the suffix beginning at the final dot in the final
element of the path, empty when there is no dot. -/
def filepathExt (path : String) : String :=
  extScan path.toList.reverse []

/-- Go `ValidateFile`. -/
def ValidateFile (fileHeader : FileHeader) : Except String Unit :=
  let fileExt := filepathExt fileHeader.Filename
  let fileSize := fileHeader.Size
  match fileTypeMap.lookup fileExt with
  | none => Except.error "file type is unsupported"
  | some fileConfig =>
    if fileSize > fileConfig.MaxSize then
      Except.error "file size exceeds the allowed limit"
    else Except.ok ()

/-- The alphabet of object names (`number`). -/
def number : String := "0123456789abcdefghijklmnobqsrwxyz"

/-- The loop of `generateRandomString`: `i` is the loop counter, `n` the
number of iterations left, `result` the string built so far, `rand` the raw
output of the random generator per draw.  `rand.Intn` panics when its argument
is not positive. -/
def generateRandomStringLoop (rand : Nat → Nat) (chars : String) :
    Nat → Nat → String → Outcome String
  | 0, _, result => Outcome.ret result
  | n + 1, i, result =>
    if chars.length = 0 then Outcome.panicked "invalid argument to Intn"
    else
      let index := rand i % chars.length
      generateRandomStringLoop rand chars n (i + 1)
        (result ++ String.singleton (chars.toList.getD index ' '))

/-- Go `generateRandomString(chars, length)` for an ASCII alphabet. -/
def generateRandomString (rand : Nat → Nat) (chars : String) (length : Nat) :
    Outcome String :=
  generateRandomStringLoop rand chars length 0 ""

/-- Go `GenerateFilesName()`. -/
def GenerateFilesName (rand : Nat → Nat) : Outcome String :=
  generateRandomString rand number 20

end FileService

/-! ## File service: `file_service/storage/storage_manager.go`,
`file_service/handlers/upload_file.go` -/

namespace FileService

/-- A parsed `multipart.Form`: the map `File` from field names to the file
headers under that name. -/
structure Form where
  File : List (String × List FileHeader)

/-- Calls to the MinIO client, in the order they are issued; `expiry` is a
`time.Duration`, in nanoseconds. -/
inductive StorageCall where
  | putObject (objectName : String) (fileSize : Int)
  | presignedGetObject (objectName : String) (expiry : Nat)
deriving DecidableEq, Repr

/-- The bucket: the objects it holds and the record of calls made to it. -/
structure Store where
  objects : List (String × String)
  calls : List StorageCall
deriving DecidableEq, Repr

/-- The number of calls made so far; the index at which the behaviour is
asked. -/
def Store.time (s : Store) : Nat := s.calls.length

/-- The behaviour of the collaborators of the file service: the raw output of
the random generator (call time, draw number), the failure of `PutObject`
(call time, object name) and the result of `PresignedGetObject` (call time,
object name, expiry). -/
structure Behaviour where
  rand : Nat → Nat → Nat
  putFault : Nat → String → Option String
  presign : Nat → String → Nat → Except String String

/-- The constant `time.Hour` of the standard library, in nanoseconds. -/
def timeHour : Nat := 60 * 60 * 1000000000

/-- Go `MinioStorage.UploadFile`. -/
def MinioStorage.UploadFile (b : Behaviour) (fileData objectName : String) (fileSize : Int)
    (s : Store) : Except String Unit × Store :=
  match b.putFault s.time objectName with
  | some e =>
    (Except.error e, { s with calls := s.calls ++ [StorageCall.putObject objectName fileSize] })
  | none =>
    (Except.ok (),
      { objects := (objectName, fileData) :: s.objects.filter (fun kv => kv.1 ≠ objectName),
        calls := s.calls ++ [StorageCall.putObject objectName fileSize] })

/-- Go `MinioStorage.GeneratePresignedURL`. -/
def MinioStorage.GeneratePresignedURL (b : Behaviour) (objectName : String) (expiry : Nat)
    (s : Store) : Except String String × Store :=
  match b.presign s.time objectName expiry with
  | Except.error e =>
    (Except.error e,
      { s with calls := s.calls ++ [StorageCall.presignedGetObject objectName expiry] })
  | Except.ok presignedURL =>
    (Except.ok presignedURL,
      { s with calls := s.calls ++ [StorageCall.presignedGetObject objectName expiry] })

/-- The body of a response: a string sent with `SendString`, or data sent as
JSON. -/
inductive Body where
  | text (s : String)
  | json (data : List FileSender)
deriving DecidableEq, Repr

/-- The response written to the client. -/
structure Response where
  status : Nat
  body : Body
deriving DecidableEq, Repr

/-- Modelled from the spec: `response.HandleInformation` of the file service,
whose package is not among the sources (the function of that name in the
message service sets the status and sends the data as JSON): the response
with the given status that carries the data as JSON. -/
def HandleInformation (statusCode : Nat) (data : List FileSender) : Response :=
  { status := statusCode, body := Body.json data }

/-- The loop of `UploadFile` (lines 49-86) over the files left, with the
entries collected so far. -/
def uploadLoop (b : Behaviour) :
    List FileHeader → List FileSender → Store → Outcome Response × Store
  | [], filesInfo, s => (Outcome.ret (HandleInformation 200 filesInfo), s)
  | file :: files, filesInfo, s =>
    match ValidateFile file with
    | Except.error e => (Outcome.ret { status := 405, body := Body.text e }, s)
    | Except.ok _ =>
      match GenerateFilesName (b.rand s.time) with
      | Outcome.panicked p => (Outcome.panicked p, s)
      | Outcome.ret name =>
        let randomFileName := name ++ filepathExt file.Filename
        match file.content with
        | Except.error e => (Outcome.ret { status := 500, body := Body.text e }, s)
        | Except.ok fileData =>
          match MinioStorage.UploadFile b fileData randomFileName file.Size s with
          | (Except.error e, s1) =>
            (Outcome.ret { status := 500, body := Body.text e }, s1)
          | (Except.ok _, s1) =>
            match MinioStorage.GeneratePresignedURL b randomFileName (48 * timeHour) s1 with
            | (Except.error e, s2) =>
              (Outcome.ret { status := 400, body := Body.text e }, s2)
            | (Except.ok presignedURL, s2) =>
              uploadLoop b files
                (filesInfo ++ [{ FileName := randomFileName, FileUrl := presignedURL }]) s2

/-- Go `Handler.UploadFile`; `form` is the result of `c.MultipartForm()`. -/
def UploadFile (b : Behaviour) (form : Except String Form) (s : Store) :
    Outcome Response × Store :=
  match form with
  | Except.error e => (Outcome.ret { status := 400, body := Body.text e }, s)
  | Except.ok form =>
    let files := (form.File.lookup "files").getD []
    if files.length = 0 then
      (Outcome.ret { status := 400, body := Body.text "files not found" }, s)
    else uploadLoop b files [] s

/-- The file header a part of a request gives. -/
def headerOf (p : FormPart) : FileHeader :=
  { Filename := p.fileName, Size := (p.content.utf8ByteSize : Int),
    content := Except.ok p.content }

/-- Add a part to a form: under its field name, after the parts already
there. -/
def Form.add (form : Form) (p : FormPart) : Form :=
  match form.File.lookup p.fieldName with
  | some _ =>
    { File := form.File.map (fun kv =>
        if kv.1 = p.fieldName then (kv.1, kv.2 ++ [headerOf p]) else kv) }
  | none => { File := form.File ++ [(p.fieldName, [headerOf p])] }

/-- The form `c.MultipartForm()` yields for a multipart request with these
file parts: the parts grouped by field name, in the order of the request. -/
def formOf (parts : List FormPart) : Form :=
  parts.foldl Form.add { File := [] }

/-- The calls `UploadFile` makes for one file: the upload of the object, then
the request of the presigned URL. -/
def callsFor (file : FileHeader) (entry : FileSender) (expiry : Nat) : List StorageCall :=
  [StorageCall.putObject entry.FileName file.Size,
   StorageCall.presignedGetObject entry.FileName expiry]

/-- The calls `UploadFile` makes for the files of a request with the entries it
returns, in order. -/
def callsForAll : List FileHeader → List FileSender → Nat → List StorageCall
  | file :: files, entry :: entries, expiry =>
    callsFor file entry expiry ++ callsForAll files entries expiry
  | _, _, _ => []

/-- The entry for a file is well formed: its name is a string of 20 characters
of the alphabet `number` followed by the extension of the name of the file. -/
def EntryFor (file : FileHeader) (entry : FileSender) : Prop :=
  ∃ name : String, name.length = 20 ∧ (∀ ch ∈ name.toList, ch ∈ number.toList) ∧
    entry.FileName = name ++ filepathExt file.Filename

/-- A MinIO that stores every object and signs the URL
`https://minio/files/<name>?X-Amz-Expires=<seconds>`. -/
def Behaviour.calm : Behaviour :=
  { rand := fun t i => 5 * t + 3 * i
    putFault := fun _ _ => none
    presign := fun _ name expiry =>
      Except.ok ("https://minio/files/" ++ name ++ "?X-Amz-Expires=" ++
        toString (expiry / 1000000000)) }

/-- A store holding nothing. -/
def Store.empty : Store := { objects := [], calls := [] }

/-- A request with two files under the field `files`. -/
def sampleForm : Form :=
  { File := [("files",
      [{ Filename := "cat.png", Size := 3, content := Except.ok "PNG" },
       { Filename := "notes.txt", Size := 5, content := Except.ok "hello" }])] }

end FileService

namespace FileService

/-- The response to `sampleForm` from a storage that accepts everything. -/
def sampleUploadResponse : Response :=
  { status := 200,
    body := Body.json
      [{ FileName := "0369cfilosx0369cfilo.png",
         FileUrl := "https://minio/files/0369cfilosx0369cfilo.png?X-Amz-Expires=172800" },
       { FileName := "adgjmbry147adgjmbry1.txt",
         FileUrl := "https://minio/files/adgjmbry147adgjmbry1.txt?X-Amz-Expires=172800" }] }

/-- The storage after the upload of `sampleForm` into the empty store. -/
def sampleUploadStore : Store :=
  { objects := [("adgjmbry147adgjmbry1.txt", "hello"), ("0369cfilosx0369cfilo.png", "PNG")],
    calls := [StorageCall.putObject "0369cfilosx0369cfilo.png" 3,
      StorageCall.presignedGetObject "0369cfilosx0369cfilo.png" 172800000000000,
      StorageCall.putObject "adgjmbry147adgjmbry1.txt" 5,
      StorageCall.presignedGetObject "adgjmbry147adgjmbry1.txt" 172800000000000] }

end FileService

/-! ## Basic facts about the embedding -/

theorem bind_run {α β : Type} (x : Go α) (f : α → Go β) (w : World) :
    (x >>= f) w = match x w with
      | (Outcome.ret a, w1) => f a w1
      | (Outcome.panicked m, w1) => (Outcome.panicked m, w1) := rfl

theorem pure_run {α : Type} (a : α) (w : World) :
    (pure a : Go α) w = (Outcome.ret a, w) := rfl

theorem SameStores.refl (w : World) : SameStores w w := ⟨rfl, rfl, rfl, rfl⟩

theorem SameStores.trans {a b c : World} (h1 : SameStores a b) (h2 : SameStores b c) :
    SameStores a c :=
  ⟨h2.1.trans h1.1, h2.2.1.trans h1.2.1, h2.2.2.1.trans h1.2.2.1,
    h2.2.2.2.trans h1.2.2.2⟩

theorem SameStores.log (w : World) (e : Event) : SameStores w (w.log e) :=
  ⟨rfl, rfl, rfl, rfl⟩

/-- The presence query returns `true` exactly when Redis answers and holds the
key; it only adds the call to the record. -/
theorem IsClientConnected_eq (o : Oracle) (ctx : Context) (u : String) (w : World) :
    IsClientConnected o ctx u w =
      (Outcome.ret (match o.redisFault w.time ctx.cancelled with
          | some _ => false
          | none => (w.redis.lookup ("user:" ++ u)).isSome),
        w.log (Event.redisGet ("user:" ++ u))) := by
  simp only [IsClientConnected, bind_run, redisGet]
  cases o.redisFault w.time ctx.cancelled with
  | some e => simp [pure_run]
  | none =>
    cases hl : w.redis.lookup ("user:" ++ u) <;> simp [pure_run, hl]

theorem World.log_trace (w : World) (e : Event) : (w.log e).trace = w.trace ++ [e] := rfl

theorem generateRandomStringLoop_ret (o : Oracle) (t : Nat) (chars : String)
    (hc : chars.length ≠ 0) :
    ∀ (n i : Nat) (result : String),
      ∃ s, generateRandomStringLoop o t chars n i result = Outcome.ret s := by
  intro n
  induction n with
  | zero => intro i result; exact ⟨result, rfl⟩
  | succ k ih =>
    intro i result
    unfold generateRandomStringLoop
    simp only [hc, if_false]
    exact ih _ _

theorem GenerateConnId_ret (o : Oracle) (t : Nat) :
    ∃ connId, GenerateConnId o t = Outcome.ret connId :=
  generateRandomStringLoop_ret o t numericChars (by decide) 14 0 ""

theorem wsWriteMessage_run (o : Oracle) (conn : Nat) (p : String) (w : World) :
    ∃ res, wsWriteMessage o conn p w = (Outcome.ret res, w.log (Event.wsWriteMessage conn p)) := by
  unfold wsWriteMessage
  cases o.wsWriteFault w.time conn with
  | some e => exact ⟨_, rfl⟩
  | none => exact ⟨_, rfl⟩

theorem wsWriteJSON_run (o : Oracle) (conn : Nat) (obj : List (String × String)) (w : World) :
    ∃ res, wsWriteJSON o conn obj w = (Outcome.ret res, w.log (Event.wsWriteJSON conn obj)) := by
  unfold wsWriteJSON
  cases o.wsWriteFault w.time conn with
  | some e => exact ⟨_, rfl⟩
  | none => exact ⟨_, rfl⟩

theorem CancelConsume_run (o : Oracle) (u : String) (w : World) :
    ∃ res w1, CancelConsume o u w = (Outcome.ret res, w1) ∧
      w1.trace = w.trace ++ [Event.brokerCancel u] := by
  unfold CancelConsume
  cases o.brokerFault w.time with
  | some e => exact ⟨_, _, rfl, rfl⟩
  | none => exact ⟨_, _, rfl, rfl⟩

theorem AddClient_run (o : Oracle) (ctx : Context) (u : String) (w : World) :
    ∃ connId res w1, AddClient o ctx u w = (Outcome.ret res, w1) ∧
      w1.trace = w.trace ++ [Event.redisSet ("user:" ++ u) connId 0] := by
  obtain ⟨connId, hid⟩ := GenerateConnId_ret o w.time
  refine ⟨connId, ?_⟩
  unfold AddClient
  simp only [hid, redisSet]
  cases o.redisFault w.time ctx.cancelled with
  | some e => exact ⟨_, _, rfl, rfl⟩
  | none => exact ⟨_, _, rfl, rfl⟩

theorem GetMessageByReceiverId_run (o : Oracle) (a b : String) (w : World) :
    ∃ res, GetMessageByReceiverId o a b w = (Outcome.ret res, w.log (Event.dbSelect a b)) := by
  unfold GetMessageByReceiverId
  cases o.dbSelectFault w.time with
  | some e => exact ⟨_, rfl⟩
  | none => exact ⟨_, rfl⟩

theorem historyFlush_trace (o : Oracle) (c : Conn) :
    ∀ (msgs : List DirectMessage) (w : World),
      ∃ tail b w1, historyFlush o c msgs w = (Outcome.ret b, w1) ∧
        w1.trace = w.trace ++ tail ∧
        ∀ e ∈ tail, Event.isHistoryStep c.id e = true := by
  intro msgs
  induction msgs with
  | nil =>
    intro w
    exact ⟨[], true, w, rfl, by simp, by simp⟩
  | cons m ms ih =>
    intro w
    simp only [historyFlush, bind_run]
    generalize (match o.encodeDirectMessage m with
        | Except.ok data => data
        | Except.error _ => "") = payload
    obtain ⟨res, hw⟩ := wsWriteMessage_run o c.id payload w
    simp only [hw]
    cases res with
    | error e =>
      obtain ⟨res2, hj⟩ := wsWriteJSON_run o c.id
        [("error", "Failed to send historical messages")]
        (w.log (Event.wsWriteMessage c.id payload))
      simp only [HandleWebSocketError, bind_run, hj, pure_run]
      refine ⟨[Event.wsWriteMessage c.id payload,
        Event.wsWriteJSON c.id [("error", "Failed to send historical messages")]],
        false, _, rfl, ?_, ?_⟩
      · simp [World.log_trace]
      · simp [Event.isHistoryStep]
    | ok v =>
      simp only
      obtain ⟨tail, b, w1, h1, h2, h3⟩ := ih (w.log (Event.wsWriteMessage c.id payload))
      refine ⟨Event.wsWriteMessage c.id payload :: tail, b, w1, h1, ?_, ?_⟩
      · rw [h2]; simp [World.log_trace]
      · intro e he
        rcases List.mem_cons.mp he with rfl | he
        · simp [Event.isHistoryStep]
        · exact h3 e he

theorem AgentSendFile_stores (o : Oracle) (c : Option FiberCtx) (url p : String)
    (w : World) : SameStores w (AgentSendFile o c url p w).2 := by
  unfold AgentSendFile
  cases o.file w.time p with
  | openError e => exact SameStores.log _ _
  | readError e => exact SameStores.log _ _
  | content bytes =>
    cases ctxGet o c "Authorization" with
    | panicked m => exact SameStores.log _ _
    | ret a =>
      simp only
      split
      · exact (SameStores.log _ _).trans (SameStores.log _ _)
      · exact (SameStores.log _ _).trans (SameStores.log _ _)

theorem createMessageUpload_stores (o : Oracle) (h : Handler) (inp : DirectMessageInput)
    (msg : DirectMessage) (w : World) :
    SameStores w (createMessageUpload o h inp msg w).2 := by
  unfold createMessageUpload
  by_cases hf : inp.ContentType = "files"
  · simp only [hf, if_true, bind_run]
    have hs := AgentSendFile_stores o none (h.EnvManger.FilesServiceUrl ++ "/upload")
      inp.Content w
    rcases hr : AgentSendFile o none (h.EnvManger.FilesServiceUrl ++ "/upload")
      inp.Content w with ⟨r1, w1⟩
    rw [hr] at hs
    cases r1 with
    | panicked m => exact hs
    | ret a =>
      cases a with
      | error e => exact hs
      | ok v =>
        obtain ⟨statusCode, body⟩ := v
        simp only
        by_cases h200 : statusCode = 200
        · simp only [h200, ne_eq, not_true_eq_false, if_false]
          cases AgentResponse o body <;> exact hs
        · simp only [ne_eq, h200, not_false_eq_true, if_true]
          exact hs
  · simp only [hf, if_false]
    exact SameStores.refl w

/-- The three ways `CreateNewMsg` ends: an error with the stores untouched, a
nil error with the row appended, or (recovered panic) a nil error with the
stores untouched. It never panics itself. -/
theorem CreateNewMsg_cases (o : Oracle) (msg : DirectMessage) (w : World) :
    (∃ e w1, CreateNewMsg o msg w = (Outcome.ret (Except.error e), w1) ∧ SameStores w w1) ∨
    (∃ w1, CreateNewMsg o msg w = (Outcome.ret (Except.ok ()), w1) ∧
      w1.redis = w.redis ∧ w1.published = w.published ∧ w1.consumers = w.consumers ∧
      (w1.table = w.table ∨ w1.table = w.table ++ [msg])) := by
  unfold CreateNewMsg
  simp only []
  cases o.dbInsert (w.log Event.dbBegin).time msg with
  | panics m =>
    exact Or.inr ⟨_, rfl, rfl, rfl, rfl, Or.inl rfl⟩
  | error e =>
    exact Or.inl ⟨e, _, rfl, rfl, rfl, rfl, rfl⟩
  | ok =>
    simp only
    cases o.dbCommitFault ((w.log Event.dbBegin).log (Event.dbInsert msg)).time with
    | some e => exact Or.inl ⟨e, _, rfl, rfl, rfl, rfl, rfl⟩
    | none => exact Or.inr ⟨_, rfl, rfl, rfl, rfl, Or.inr rfl⟩

/-- The ways `createMessage` ends.  A returned message is the literal of lines
200-207, built after the upload block. -/
theorem createMessage_cases (o : Oracle) (h : Handler) (inp : DirectMessageInput)
    (st : Int) (s r : String) (w : World) :
    (∃ e w1, createMessage o h inp st s r w = (Outcome.ret (Except.error e), w1) ∧
      SameStores w w1) ∨
    (∃ p w1, createMessage o h inp st s r w = (Outcome.panicked p, w1) ∧
      SameStores w w1) ∨
    (∃ t w1, createMessage o h inp st s r w =
        (Outcome.ret (Except.ok (builtMessage inp st s r t)), w1) ∧
      w1.redis = w.redis ∧ w1.published = w.published ∧ w1.consumers = w.consumers ∧
      (w1.table = w.table ∨ w1.table = w.table ++ [builtMessage inp st s r t])) := by
  unfold createMessage
  simp only [bind_run]
  have hs := createMessageUpload_stores o h inp DirectMessage.zero w
  rcases hu : createMessageUpload o h inp DirectMessage.zero w with ⟨r1, w1⟩
  rw [hu] at hs
  cases r1 with
  | panicked p => exact Or.inr (Or.inl ⟨p, w1, rfl, hs⟩)
  | ret a =>
    cases a with
    | error e => exact Or.inl ⟨e, w1, rfl, hs⟩
    | ok m0 =>
      simp only
      rcases CreateNewMsg_cases o (builtMessage inp st s r (o.now w1.time)) w1 with
        ⟨e, w2, hc, hs2⟩ | ⟨w2, hc, h1, h2, h3, h4⟩
      · refine Or.inl ⟨"failed to save message in database", w2, ?_, hs.trans hs2⟩
        simp only [builtMessage] at hc
        simp only [hc]
      · refine Or.inr (Or.inr ⟨o.now w1.time, w2, ?_, h1.trans hs.1, h2.trans hs.2.2.1,
          h3.trans hs.2.2.2, ?_⟩)
        · simp only [builtMessage] at hc
          simp only [hc, builtMessage]
        · rw [← hs.2.1]
          exact h4

theorem processMessage_unfold (o : Oracle) (h : Handler) (ctx : Context)
    (inp : DirectMessageInput) (s r : String) (w : World) :
    processMessage o h ctx inp s r w =
      match createMessage o h inp (statusOf o ctx r w) s r
          (w.log (Event.redisGet ("user:" ++ r))) with
      | (Outcome.panicked p, w1) => (Outcome.panicked p, w1)
      | (Outcome.ret (Except.error _), w1) => (Outcome.ret (), w1)
      | (Outcome.ret (Except.ok msg), w1) =>
        match o.encodeDirectMessage msg with
        | Except.error _ => (Outcome.ret (), w1)
        | Except.ok msgBytes =>
          (Outcome.ret (), (PublishMessage o ctx r msgBytes h.EnvManger w1).2) := by
  have hst : statusOf o ctx r w =
      if (match o.redisFault w.time ctx.cancelled with
          | some _ => false
          | none => (w.redis.lookup ("user:" ++ r)).isSome) = true then 1 else 2 := by
    simp [statusOf, IsClientConnected_eq]
  rw [hst]
  simp only [processMessage, bind_run, IsClientConnected_eq]
  rcases createMessage o h inp _ s r (w.log (Event.redisGet ("user:" ++ r))) with ⟨r1, w1⟩
  cases r1 with
  | panicked p => rfl
  | ret a =>
    cases a with
    | error e => rfl
    | ok m =>
      simp only
      cases o.encodeDirectMessage m with
      | error e => rfl
      | ok b =>
        simp only [bind_run, PublishMessage]
        cases o.brokerFault w1.time <;> rfl

theorem PublishMessage_cases (o : Oracle) (h : Handler) (ctx : Context) (r body : String)
    (w : World) :
    SameStores w (PublishMessage o ctx r body h.EnvManger w).2 ∨
    ((PublishMessage o ctx r body h.EnvManger w).2.redis = w.redis ∧
     (PublishMessage o ctx r body h.EnvManger w).2.table = w.table ∧
     (PublishMessage o ctx r body h.EnvManger w).2.consumers = w.consumers ∧
     (PublishMessage o ctx r body h.EnvManger w).2.published =
        w.published ++ [publishingOf h r body]) := by
  unfold PublishMessage
  simp only []
  cases o.brokerFault w.time with
  | some e => exact Or.inl ⟨rfl, rfl, rfl, rfl⟩
  | none => exact Or.inr ⟨rfl, rfl, rfl, rfl⟩

theorem processMessage_cases (o : Oracle) (h : Handler) (ctx : Context)
    (inp : DirectMessageInput) (s r : String) (w : World) :
    SameStores w (processMessage o h ctx inp s r w).2 ∨
    ∃ t,
      ((processMessage o h ctx inp s r w).2.table = w.table ∨
        (processMessage o h ctx inp s r w).2.table =
          w.table ++ [builtMessage inp (statusOf o ctx r w) s r t]) ∧
      ((processMessage o h ctx inp s r w).2.published = w.published ∨
        ∃ body, o.encodeDirectMessage (builtMessage inp (statusOf o ctx r w) s r t) =
            Except.ok body ∧
          (processMessage o h ctx inp s r w).2.published =
            w.published ++ [publishingOf h r body]) ∧
      (processMessage o h ctx inp s r w).2.redis = w.redis ∧
      (processMessage o h ctx inp s r w).2.consumers = w.consumers := by
  rw [processMessage_unfold]
  have hl := SameStores.log w (Event.redisGet ("user:" ++ r))
  rcases createMessage_cases o h inp (statusOf o ctx r w) s r
      (w.log (Event.redisGet ("user:" ++ r))) with
    ⟨e, w1, hc, hs⟩ | ⟨p, w1, hc, hs⟩ | ⟨t, w1, hc, h1, h2, h3, h4⟩
  · rw [hc]; exact Or.inl (hl.trans hs)
  · rw [hc]; exact Or.inl (hl.trans hs)
  · rw [hc]
    refine Or.inr ⟨t, ?_⟩
    simp only
    cases he : o.encodeDirectMessage (builtMessage inp (statusOf o ctx r w) s r t) with
    | error e =>
      exact ⟨h4, Or.inl h2, h1, h3⟩
    | ok body =>
      simp only
      rcases PublishMessage_cases o h ctx r body w1 with hp | ⟨p1, p2, p3, p4⟩
      · exact ⟨by rw [hp.2.1]; exact h4, Or.inl (by rw [hp.2.2.1]; exact h2),
          by rw [hp.1]; exact h1, by rw [hp.2.2.2]; exact h3⟩
      · exact ⟨by rw [p2]; exact h4, Or.inr ⟨body, rfl, by rw [p4, h2]; rfl⟩,
          by rw [p1]; exact h1, by rw [p3]; exact h3⟩

theorem World.log_time (w : World) (e : Event) : (w.log e).time = w.time + 1 := by
  simp [World.time, World.log]

theorem AgentSendFile_trace (o : Oracle) (c : Option FiberCtx) (url p : String) (w : World) :
    (AgentSendFile o c url p w).2.trace = w.trace ++ [Event.osOpen p] ∨
    ∃ req, (AgentSendFile o c url p w).2.trace =
      w.trace ++ [Event.osOpen p, Event.httpSend req] := by
  unfold AgentSendFile
  simp only []
  cases o.file w.time p with
  | openError e => exact Or.inl rfl
  | readError e => exact Or.inl rfl
  | content bytes =>
    cases ctxGet o c "Authorization" with
    | panicked m => exact Or.inl rfl
    | ret a =>
      simp only
      split
      · exact Or.inr ⟨uploadRequest url p a (o.boundary w.time) bytes,
          by simp [World.log_trace]⟩
      · exact Or.inr ⟨uploadRequest url p a (o.boundary w.time) bytes,
          by simp [World.log_trace]⟩

theorem createMessage_upload_failed (o : Oracle) (h : Handler) (inp : DirectMessageInput)
    (st : Int) (s r : String) (w : World)
    (hfiles : inp.ContentType = "files") (hfail : uploadFails o h inp w) :
    ∃ e, createMessage o h inp st s r w =
      (Outcome.ret (Except.error e),
        (AgentSendFile o none (h.EnvManger.FilesServiceUrl ++ "/upload") inp.Content w).2) := by
  unfold uploadFails at hfail
  unfold createMessage createMessageUpload
  simp only [hfiles, if_true, bind_run]
  rcases hr : AgentSendFile o none (h.EnvManger.FilesServiceUrl ++ "/upload")
    inp.Content w with ⟨r1, w1⟩
  rw [hr] at hfail
  cases r1 with
  | panicked m => exact absurd hfail (by simp)
  | ret a =>
    cases a with
    | error e => exact ⟨_, rfl⟩
    | ok v =>
      obtain ⟨statusCode, body⟩ := v
      simp only at hfail ⊢
      by_cases h200 : statusCode = 200
      · rcases hfail with hne | ⟨e, he⟩
        · exact absurd h200 hne
        · simp only [h200, ne_eq, not_true_eq_false, if_false, AgentResponse, he, pure_run]
          exact ⟨_, rfl⟩
      · simp only [ne_eq, h200, not_false_eq_true, if_true, pure_run]
        exact ⟨_, rfl⟩

theorem CreateNewMsg_error_iff (o : Oracle) (msg : DirectMessage) (w : World) :
    (∃ e, (CreateNewMsg o msg w).1 = Outcome.ret (Except.error e)) ↔ persistFails o msg w := by
  unfold CreateNewMsg persistFails
  simp only [World.log_time]
  cases hi : o.dbInsert (w.time + 1) msg with
  | panics m => simp
  | error e => simp
  | ok =>
    simp only
    cases hc : o.dbCommitFault (w.time + 1 + 1) with
    | some e => simp [hc]
    | none => simp [hc]

theorem CreateNewMsg_rollback (o : Oracle) (msg : DirectMessage) (w : World)
    (hf : persistFails o msg w) :
    SameStores w (CreateNewMsg o msg w).2 ∧
    (CreateNewMsg o msg w).2.trace.getLast? = some Event.dbRollback := by
  unfold persistFails at hf
  unfold CreateNewMsg
  simp only [World.log_time]
  rcases hf with ⟨e, he⟩ | ⟨hok, e, he⟩
  · simp only [he]
    exact ⟨⟨rfl, rfl, rfl, rfl⟩, by simp [World.log_trace]⟩
  · simp only [hok, he]
    exact ⟨⟨rfl, rfl, rfl, rfl⟩, by simp [World.log_trace]⟩

theorem createMessage_text (o : Oracle) (h : Handler) (inp : DirectMessageInput)
    (st : Int) (s r : String) (w : World) (hnf : inp.ContentType ≠ "files")
    (hins : o.dbInsert (w.time + 1) (builtMessage inp st s r (o.now w.time)) = InsertResult.ok)
    (hcom : o.dbCommitFault (w.time + 2) = none) :
    ∃ w1, createMessage o h inp st s r w =
        (Outcome.ret (Except.ok (builtMessage inp st s r (o.now w.time))), w1) ∧
      w1.table = w.table ++ [builtMessage inp st s r (o.now w.time)] ∧
      w1.published = w.published := by
  simp only [builtMessage] at hins
  simp only [createMessage, createMessageUpload, hnf, if_false, bind_run, pure_run,
    CreateNewMsg, World.log_time, hins, hcom, builtMessage]
  exact ⟨_, rfl, rfl, rfl⟩

theorem startWorkers_trace (c : Conn) (u r : String) :
    ∀ (n : Nat) (w : World),
      (startWorkers c u r n w).2.trace =
        w.trace ++ List.replicate n (Event.goWorker c.id u r) := by
  intro n
  induction n with
  | zero => intro w; simp [startWorkers, pure_run]
  | succ k ih =>
    intro w
    simp only [startWorkers, bind_run, ih, World.log_trace, List.replicate_succ,
      List.append_assoc, List.singleton_append]

theorem worker_rows (o : Oracle) (h : Handler) (ctx : Context) (s r : String) :
    ∀ (jobs : List DirectMessageInput) (w : World),
      ∃ added, (worker o h ctx jobs s r w).2.table = w.table ++ added ∧
        ∀ m ∈ added, m.SenderID = s ∧ m.ReceiverID = r := by
  intro jobs
  induction jobs with
  | nil => intro w; exact ⟨[], by simp [worker, pure_run], by simp⟩
  | cons inp jobs ih =>
    intro w
    simp only [worker, bind_run]
    have hrow : ∃ added, (processMessage o h ctx inp s r w).2.table = w.table ++ added ∧
        ∀ m ∈ added, m.SenderID = s ∧ m.ReceiverID = r := by
      rcases processMessage_cases o h ctx inp s r w with hs | ⟨t, ht, _, _, _⟩
      · exact ⟨[], by simp [hs.2.1], by simp⟩
      · rcases ht with ht | ht
        · exact ⟨[], by simp [ht], by simp⟩
        · exact ⟨[_], ht, by simp [builtMessage]⟩
    obtain ⟨a1, h1, h2⟩ := hrow
    rcases hp : processMessage o h ctx inp s r w with ⟨r1, w1⟩
    rw [hp] at h1
    cases r1 with
    | panicked m => exact ⟨a1, h1, h2⟩
    | ret a =>
      obtain ⟨a2, h3, h4⟩ := ih w1
      refine ⟨a1 ++ a2, ?_, ?_⟩
      · simp only [h3]; simp only at h1; rw [h1, List.append_assoc]
      · intro m hm
        rcases List.mem_append.mp hm with hm | hm
        · exact h2 m hm
        · exact h4 m hm

/-! ## Ingress pipeline: status, addressing -/

/-- C1. Status correctness: whatever the input and the state of the presence
registry, a row that `processMessage` adds to the table and a message it
publishes is one message `m` whose status is 1 when the presence query for the
receiver returned `true` and 2 otherwise; at most one row is added and at most
one message (the encoding of `m`, routed to the receiver) is published. -/
theorem C1_status_correctness (o : Oracle) (h : Handler) (ctx : Context)
    (inp : DirectMessageInput) (s r : String) (w : World) :
    ∃ m : DirectMessage,
      m.Status = (if (IsClientConnected o ctx r w).1 = Outcome.ret true then 1 else 2) ∧
      (m.Status = 1 ∨ m.Status = 2) ∧
      ((processMessage o h ctx inp s r w).2.table = w.table ∨
        (processMessage o h ctx inp s r w).2.table = w.table ++ [m]) ∧
      ((processMessage o h ctx inp s r w).2.published = w.published ∨
        ∃ body, o.encodeDirectMessage m = Except.ok body ∧
          (processMessage o h ctx inp s r w).2.published =
            w.published ++ [publishingOf h r body]) := by
  have h12 : statusOf o ctx r w = 1 ∨ statusOf o ctx r w = 2 := by
    unfold statusOf
    split
    · exact Or.inl rfl
    · exact Or.inr rfl
  rcases processMessage_cases o h ctx inp s r w with hs | ⟨t, ht, hp, _, _⟩
  · exact ⟨builtMessage inp (statusOf o ctx r w) s r 0, rfl, h12, Or.inl hs.2.1,
      Or.inl hs.2.2.1⟩
  · exact ⟨builtMessage inp (statusOf o ctx r w) s r t, rfl, h12, ht, hp⟩

/-- A message `createMessage` returns is the literal of lines 200-207: its
`file_path` is empty and its content is the content of the frame, whatever the
upload block did before. -/
theorem createMessage_file_path_empty (o : Oracle) (h : Handler) (inp : DirectMessageInput)
    (st : Int) (s r : String) (w : World) (m : DirectMessage)
    (hret : (createMessage o h inp st s r w).1 = Outcome.ret (Except.ok m)) :
    m.FilePath = "" ∧ m.Content = inp.Content := by
  rcases createMessage_cases o h inp st s r w with
    ⟨e, w1, hc, _⟩ | ⟨p, w1, hc, _⟩ | ⟨t, w1, hc, _⟩
  · rw [hc] at hret; cases hret
  · rw [hc] at hret; cases hret
  · rw [hc] at hret
    simp only [Outcome.ret.injEq, Except.ok.injEq] at hret
    subst hret
    exact ⟨rfl, rfl⟩

/-- With the Go semantics of a method reading a field of its nil receiver,
`createMessage` returns no message for a frame of type `files`: the upload ends
in an error (the file is not opened or not read) or in the panic of
`c.Get("Authorization")`, before any request is sent, and the stores are as
they were. -/
theorem createMessage_files_nil_context (o : Oracle) (h : Handler) (inp : DirectMessageInput)
    (st : Int) (s r : String) (w : World)
    (hgo : ∃ p, o.ctxGetNil "Authorization" = Outcome.panicked p)
    (hfiles : inp.ContentType = "files") :
    ((∃ e, (createMessage o h inp st s r w).1 = Outcome.ret (Except.error e)) ∨
      ∃ p, (createMessage o h inp st s r w).1 = Outcome.panicked p) ∧
    (createMessage o h inp st s r w).2 = w.log (Event.osOpen inp.Content) := by
  obtain ⟨p, hp⟩ := hgo
  simp only [createMessage, createMessageUpload, hfiles, if_true, bind_run, AgentSendFile,
    ctxGet, hp]
  cases o.file w.time inp.Content with
  | openError e => exact ⟨Or.inl ⟨_, rfl⟩, rfl⟩
  | readError e => exact ⟨Or.inl ⟨_, rfl⟩, rfl⟩
  | content bytes => exact ⟨Or.inr ⟨_, rfl⟩, rfl⟩


/-- C4. The upload of the ingress pipeline is made with a nil `*fiber.Ctx`.
With an openable file and the Go semantics of a nil receiver, `AgentSendFile`
and with it `processMessage` panic after opening the file, before any request
is sent.  Given a context holding the credential, `AgentSendFile` sends it in
the one part named `file`.  For every behaviour of the collaborators, the call
with the nil context sends no request or one whose `Authorization` is what the
library returns for a nil context. -/
theorem C4_upload_nil_context :
    AgentSendFile Oracle.uploadNil none "/upload" "/tmp/x.png" World.empty =
      (Outcome.panicked "runtime error: invalid memory address or nil pointer dereference",
        World.empty.log (Event.osOpen "/tmp/x.png")) ∧
    processMessage Oracle.uploadNil sampleHandler (Context.mk false)
        (DirectMessageInput.mk "files" "/tmp/x.png") "A" "B" World.empty =
      (Outcome.panicked "runtime error: invalid memory address or nil pointer dereference",
        (World.empty.log (Event.redisGet "user:B")).log (Event.osOpen "/tmp/x.png")) ∧
    (AgentSendFile Oracle.uploadNil (some (FiberCtx.mk [("Authorization", "Bearer tok")]))
        "/upload" "/tmp/x.png" World.empty).2.trace =
      [Event.osOpen "/tmp/x.png",
       Event.httpSend (uploadRequest "/upload" "/tmp/x.png" "Bearer tok" "boundary" "PNG")] ∧
    (∀ (o : Oracle) (url p : String) (w : World),
      (AgentSendFile o none url p w).2.trace = w.trace ++ [Event.osOpen p] ∨
      ∃ a bytes, o.ctxGetNil "Authorization" = Outcome.ret a ∧
        (AgentSendFile o none url p w).2.trace =
          w.trace ++ [Event.osOpen p,
            Event.httpSend (uploadRequest url p a (o.boundary w.time) bytes)]) := by
  refine ⟨rfl, rfl, rfl, ?_⟩
  intro o url p w
  unfold AgentSendFile
  simp only [ctxGet]
  cases o.file w.time p with
  | openError e => exact Or.inl rfl
  | readError e => exact Or.inl rfl
  | content bytes =>
    cases hg : o.ctxGetNil "Authorization" with
    | panicked m => exact Or.inl rfl
    | ret a =>
      simp only
      split
      · exact Or.inr ⟨a, bytes, rfl, by simp [World.log_trace]⟩
      · exact Or.inr ⟨a, bytes, rfl, by simp [World.log_trace]⟩


/-- C5. Sender and receiver are fixed by the session: a row `processMessage`
adds has the sender and the receiver the worker was started with, the content
type of the frame and, for a frame that is not of type `files`, the content of
the frame and an empty `file_path`; for such a frame, when insert and commit
succeed, exactly that row is added; every row a worker adds while draining its
jobs has that sender and that receiver; and the workers of a session are all
started with the user id and the `receiver_id` of the session. -/
theorem C5_session_addressing (o : Oracle) (h : Handler) (ctx : Context)
    (inp : DirectMessageInput) (s r : String) (w : World) :
    ((processMessage o h ctx inp s r w).2.table = w.table ∨
      ∃ m, (processMessage o h ctx inp s r w).2.table = w.table ++ [m] ∧
        m.SenderID = s ∧ m.ReceiverID = r ∧ m.ContentType = inp.ContentType ∧
        (inp.ContentType ≠ "files" → m.Content = inp.Content ∧ m.FilePath = "")) ∧
    (inp.ContentType ≠ "files" →
      o.dbInsert (w.time + 2)
        (builtMessage inp (statusOf o ctx r w) s r (o.now (w.time + 1))) = InsertResult.ok →
      o.dbCommitFault (w.time + 3) = none →
      (processMessage o h ctx inp s r w).2.table =
        w.table ++ [{ SenderID := s, ReceiverID := r, Content := inp.Content,
                      ContentType := inp.ContentType, FilePath := "",
                      Status := statusOf o ctx r w, CreatedAt := o.now (w.time + 1) }]) ∧
    (∀ jobs : List DirectMessageInput,
      ∃ added, (worker o h ctx jobs s r w).2.table = w.table ++ added ∧
        ∀ m ∈ added, m.SenderID = s ∧ m.ReceiverID = r) ∧
    (∀ c : Conn, (startWorkers c s r h.MaxWorkers w).2.trace =
      w.trace ++ List.replicate h.MaxWorkers (Event.goWorker c.id s r)) := by
  refine ⟨?_, ?_, fun jobs => worker_rows o h ctx s r jobs w,
    fun c => startWorkers_trace c s r h.MaxWorkers w⟩
  · rcases processMessage_cases o h ctx inp s r w with hs | ⟨t, ht, _, _, _⟩
    · exact Or.inl hs.2.1
    · rcases ht with ht | ht
      · exact Or.inl ht
      · exact Or.inr ⟨_, ht, rfl, rfl, rfl, fun _ => ⟨rfl, rfl⟩⟩
  · intro hnf hins hcom
    obtain ⟨w1, hc, ht, hp⟩ := createMessage_text o h inp (statusOf o ctx r w) s r
      (w.log (Event.redisGet ("user:" ++ r))) hnf
      (by rw [World.log_time]; exact hins) (by rw [World.log_time]; exact hcom)
    rw [processMessage_unfold, hc]
    simp only [World.log_time] at ht
    have hpub : ∀ b, (PublishMessage o ctx r b h.EnvManger w1).2.table = w1.table := by
      intro b
      rcases PublishMessage_cases o h ctx r b w1 with hp | ⟨_, p2, _, _⟩
      · exact hp.2.1
      · exact p2
    simp only
    cases o.encodeDirectMessage (builtMessage inp (statusOf o ctx r w) s r
        (o.now (w.log (Event.redisGet ("user:" ++ r))).time)) with
    | error e => simp only [ht, World.log_time]; rfl
    | ok b => simp only [hpub, ht, World.log_time]; rfl


/-- C5, run: user A sends the text `hi` to B. -/
theorem C5_session_addressing_witness :
    (DirectMessageInput.mk "text" "hi").ContentType ≠ "files" ∧
    (Oracle.goNil [] (Except.error "connection refused") []).dbInsert (World.empty.time + 2)
      (builtMessage (DirectMessageInput.mk "text" "hi")
        (statusOf (Oracle.goNil [] (Except.error "connection refused") [])
          (Context.mk false) "B" World.empty) "A" "B"
        ((Oracle.goNil [] (Except.error "connection refused") []).now
          (World.empty.time + 1))) = InsertResult.ok ∧
    (Oracle.goNil [] (Except.error "connection refused") []).dbCommitFault
      (World.empty.time + 3) = none ∧
    (processMessage (Oracle.goNil [] (Except.error "connection refused") []) sampleHandler
        (Context.mk false) (DirectMessageInput.mk "text" "hi") "A" "B" World.empty).2.table =
      World.empty.table ++
        [DirectMessage.mk "A" "B" "hi" "text" ""
          (statusOf (Oracle.goNil [] (Except.error "connection refused") [])
            (Context.mk false) "B" World.empty)
          ((Oracle.goNil [] (Except.error "connection refused") []).now
            (World.empty.time + 1))] :=
  ⟨by decide, rfl, rfl,
   (C5_session_addressing (Oracle.goNil [] (Except.error "connection refused") [])
      sampleHandler (Context.mk false) (DirectMessageInput.mk "text" "hi") "A" "B"
      World.empty).2.1 (by decide) rfl rfl⟩

/-- C6. Upload failure drops the message: for a `files` input whose upload
ends in an error of `AgentSendFile`, a status other than 200 or a body that
does not decode, `createMessage` returns an error and `processMessage` returns
with the registry, the table and the broker as they were, having made no call
after the upload: no transaction is begun and nothing is published. -/
theorem C6_upload_failure_drops (o : Oracle) (h : Handler) (ctx : Context)
    (inp : DirectMessageInput) (s r : String) (w : World)
    (hfiles : inp.ContentType = "files")
    (hfail : uploadFails o h inp (IsClientConnected o ctx r w).2) :
    (∃ e w1, createMessage o h inp (statusOf o ctx r w) s r (IsClientConnected o ctx r w).2 =
        (Outcome.ret (Except.error e), w1)) ∧
    (processMessage o h ctx inp s r w).1 = Outcome.ret () ∧
    SameStores w (processMessage o h ctx inp s r w).2 ∧
    ((processMessage o h ctx inp s r w).2.trace =
        w.trace ++ [Event.redisGet ("user:" ++ r), Event.osOpen inp.Content] ∨
      ∃ req, (processMessage o h ctx inp s r w).2.trace =
        w.trace ++ [Event.redisGet ("user:" ++ r), Event.osOpen inp.Content,
          Event.httpSend req]) := by
  rw [IsClientConnected_eq] at hfail ⊢
  simp only at hfail ⊢
  obtain ⟨e, hc⟩ := createMessage_upload_failed o h inp (statusOf o ctx r w) s r
    (w.log (Event.redisGet ("user:" ++ r))) hfiles hfail
  refine ⟨⟨e, _, hc⟩, ?_⟩
  rw [processMessage_unfold, hc]
  refine ⟨rfl, ?_, ?_⟩
  · exact (SameStores.log _ _).trans (AgentSendFile_stores _ _ _ _ _)
  · rcases AgentSendFile_trace o none (h.EnvManger.FilesServiceUrl ++ "/upload") inp.Content
      (w.log (Event.redisGet ("user:" ++ r))) with ht | ⟨req, ht⟩
    · exact Or.inl (by simp [ht, World.log_trace])
    · exact Or.inr ⟨req, by simp [ht, World.log_trace]⟩


/-- C6, run: the path of the frame names no file the service can open. -/
theorem C6_upload_failure_drops_witness :
    (DirectMessageInput.mk "files" "/tmp/nope.png").ContentType = "files" ∧
      uploadFails (Oracle.goNil [] (Except.error "connection refused") []) sampleHandler
        (DirectMessageInput.mk "files" "/tmp/nope.png")
        (IsClientConnected (Oracle.goNil [] (Except.error "connection refused") [])
          (Context.mk false) "B" World.empty).2 ∧
      SameStores World.empty
        (processMessage (Oracle.goNil [] (Except.error "connection refused") []) sampleHandler
          (Context.mk false) (DirectMessageInput.mk "files" "/tmp/nope.png") "A" "B"
          World.empty).2 :=
  ⟨rfl, trivial,
    (C6_upload_failure_drops (Oracle.goNil [] (Except.error "connection refused") [])
      sampleHandler (Context.mk false) (DirectMessageInput.mk "files" "/tmp/nope.png")
      "A" "B" World.empty rfl trivial).2.2.1⟩

/-- C7. Persistence failure drops the message.  `CreateNewMsg` returns an
error exactly when the insert or the commit returned one; then the table is as
before and the last call is the rollback.  When the upload block of
`createMessage` has passed and the insert or the commit of the built message
fails, `processMessage` ends in the world the rollback leaves: it makes no
further call, so nothing is published, and the table has no new row. -/
theorem C7_persistence_failure_drops (o : Oracle) (h : Handler) (ctx : Context)
    (inp : DirectMessageInput) (s r : String) (w : World)
    (m0 : DirectMessage) (w2 : World)
    (hup : createMessageUpload o h inp DirectMessage.zero (IsClientConnected o ctx r w).2 =
      (Outcome.ret (Except.ok m0), w2))
    (hdb : persistFails o (builtMessage inp (statusOf o ctx r w) s r (o.now w2.time)) w2) :
    (∀ msg w0, (∃ e, (CreateNewMsg o msg w0).1 = Outcome.ret (Except.error e)) ↔
      persistFails o msg w0) ∧
    (∀ msg w0, persistFails o msg w0 →
      (CreateNewMsg o msg w0).2.table = w0.table ∧
      (CreateNewMsg o msg w0).2.trace.getLast? = some Event.dbRollback) ∧
    processMessage o h ctx inp s r w =
      (Outcome.ret (),
        (CreateNewMsg o (builtMessage inp (statusOf o ctx r w) s r (o.now w2.time)) w2).2) ∧
    (processMessage o h ctx inp s r w).2.table = w.table ∧
    (processMessage o h ctx inp s r w).2.published = w.published := by
  refine ⟨fun msg w0 => CreateNewMsg_error_iff o msg w0,
    fun msg w0 hf => ⟨(CreateNewMsg_rollback o msg w0 hf).1.2.1,
      (CreateNewMsg_rollback o msg w0 hf).2⟩, ?_⟩
  obtain ⟨e, he⟩ := (CreateNewMsg_error_iff o _ w2).mpr hdb
  have hs1 := createMessageUpload_stores o h inp DirectMessage.zero (IsClientConnected o ctx r w).2
  rw [hup] at hs1
  have hs2 := (CreateNewMsg_rollback o _ w2 hdb).1
  rw [IsClientConnected_eq] at hup hs1
  simp only at hup hs1
  have hpm : processMessage o h ctx inp s r w =
      (Outcome.ret (),
        (CreateNewMsg o (builtMessage inp (statusOf o ctx r w) s r (o.now w2.time)) w2).2) := by
    rw [processMessage_unfold]
    rcases hc : CreateNewMsg o (builtMessage inp (statusOf o ctx r w) s r (o.now w2.time)) w2
      with ⟨r3, w3⟩
    rw [hc] at he
    simp only at he
    subst he
    simp only [createMessage, bind_run, hup]
    simp only [builtMessage] at hc
    simp only [hc]
  rw [hpm]
  have hs := ((SameStores.log w (Event.redisGet ("user:" ++ r))).trans hs1).trans hs2
  exact ⟨rfl, hs.2.1, hs.2.2.1⟩


/-- C7, run: a text frame while MySQL refuses the insert. -/
theorem C7_persistence_failure_drops_witness :
    createMessageUpload Oracle.insertRefused sampleHandler (DirectMessageInput.mk "text" "hi")
        DirectMessage.zero
        (IsClientConnected Oracle.insertRefused (Context.mk false) "B" World.empty).2 =
      (Outcome.ret (Except.ok DirectMessage.zero),
        World.empty.log (Event.redisGet "user:B")) ∧
    persistFails Oracle.insertRefused
      (builtMessage (DirectMessageInput.mk "text" "hi")
        (statusOf Oracle.insertRefused (Context.mk false) "B" World.empty) "A" "B"
        (Oracle.insertRefused.now (World.empty.log (Event.redisGet "user:B")).time))
      (World.empty.log (Event.redisGet "user:B")) ∧
    (processMessage Oracle.insertRefused sampleHandler (Context.mk false)
        (DirectMessageInput.mk "text" "hi") "A" "B" World.empty).2.table = World.empty.table ∧
    (processMessage Oracle.insertRefused sampleHandler (Context.mk false)
        (DirectMessageInput.mk "text" "hi") "A" "B" World.empty).2.published =
      World.empty.published :=
  ⟨rfl, Or.inl ⟨"Error 1205: Lock wait timeout exceeded", rfl⟩,
   (C7_persistence_failure_drops Oracle.insertRefused sampleHandler (Context.mk false)
      (DirectMessageInput.mk "text" "hi") "A" "B" World.empty DirectMessage.zero
      (World.empty.log (Event.redisGet "user:B")) rfl
      (Or.inl ⟨"Error 1205: Lock wait timeout exceeded", rfl⟩)).2.2.2⟩

/-! ## Egress filtering -/

/-- C2. Egress filtering: for a session of user `u` on socket `c`, a delivery
whose body parses as a `DirectMessage` with a receiver other than `u` leaves
the world as it was: the egress handler issues no call at all, in particular no
write on the socket; pumped through the subscription, the only call it causes
is its acknowledgement. -/
theorem C2_egress_filtering (o : Oracle) (c : Conn) (u message : String)
    (msg : DirectMessage) (w : World)
    (hparse : o.decodeDirectMessage message = Except.ok msg)
    (hne : msg.ReceiverID ≠ u) :
    (egressHandler o c u message w).2 = w ∧
    (deliveryPump (egressHandler o c u) [message] w).2.trace =
      w.trace ++ [Event.brokerAck message] := by
  have hh : egressHandler o c u message w = (Outcome.ret (Except.ok ()), w) := by
    unfold egressHandler
    simp only [hparse, hne, if_false, pure_run]
  refine ⟨by rw [hh], ?_⟩
  simp only [deliveryPump, bind_run, hh, acknowledge, pure_run, World.log_trace]

/-- C2, run: a delivery addressed to B arrives at the session of user C. -/
theorem C2_egress_filtering_witness :
    (Oracle.goNil [] (Except.error "connection refused") [sampleMessage]).decodeDirectMessage
        (renderDirectMessage sampleMessage) = Except.ok sampleMessage ∧
      sampleMessage.ReceiverID ≠ "C" ∧
      (egressHandler (Oracle.goNil [] (Except.error "connection refused") [sampleMessage])
        (connOfA 1 "B" []) "C" (renderDirectMessage sampleMessage) World.empty).2 =
        World.empty :=
  ⟨rfl, by decide,
    (C2_egress_filtering (Oracle.goNil [] (Except.error "connection refused") [sampleMessage])
      (connOfA 1 "B" []) "C" (renderDirectMessage sampleMessage) sampleMessage World.empty
      rfl (by decide)).1⟩

/-! ## Session open -/

/-- C8. Missing receiver: for an authenticated connection whose `receiver_id`
is empty, the handler returns after exactly two calls, the write of the frame
with the single key `error` and value `Receiver ID is required`, then the close
of the socket; the presence registry, the table and the broker are untouched
and no call to them is made. -/
theorem C8_missing_receiver (o : Oracle) (h : Handler) (c : Conn)
    (info : ClientsLoginResponse) (w : World)
    (hauth : c.userJwtInfo = some info) (hrecv : c.receiver_id = "") :
    WebSocketHandler o h c w =
      (Outcome.ret (),
        { w with trace := w.trace ++
            [Event.wsWriteJSON c.id [("error", "Receiver ID is required")],
             Event.wsClose c.id] }) := by
  unfold WebSocketHandler Go.defer
  simp only [hauth, hrecv, if_true, bind_run, HandleWebSocketError, wsWriteJSON, wsClose]
  cases o.wsWriteFault w.time c.id <;> simp [pure_run, World.log]

/-- C8, run: user A connects on socket 1 without `receiver_id`. -/
theorem C8_missing_receiver_witness :
    (connOfA 1 "" []).userJwtInfo = some { Uid := "A", Username := "alice" } ∧
      (connOfA 1 "" []).receiver_id = "" ∧
      WebSocketHandler (Oracle.goNil [] (Except.error "connection refused") [])
          sampleHandler (connOfA 1 "" []) World.empty =
        (Outcome.ret (),
          { World.empty with trace := World.empty.trace ++
              [Event.wsWriteJSON (connOfA 1 "" []).id [("error", "Receiver ID is required")],
               Event.wsClose (connOfA 1 "" []).id] }) :=
  ⟨rfl, rfl,
    C8_missing_receiver (Oracle.goNil [] (Except.error "connection refused") [])
      sampleHandler (connOfA 1 "" []) { Uid := "A", Username := "alice" } World.empty rfl rfl⟩

/-- C9. Takeover ordering: the calls of the open phase (lines 58-85) are, in
this order, the presence query for `u`; the cancel of the consumer tagged `u`,
present exactly when the query returned `true`; the presence write for `u`,
always issued whatever the cancel returned; and then only calls of the history
phase (the history query and writes on the socket), among which there is no
cancel. -/
theorem C9_takeover_ordering (o : Oracle) (c : Conn) (ctx : Context) (u r : String)
    (w : World) :
    ∃ connId tail,
      (sessionOpen o c ctx u r w).2.trace =
        w.trace ++ [Event.redisGet ("user:" ++ u)] ++
          (if (IsClientConnected o ctx u w).1 = Outcome.ret true
            then [Event.brokerCancel u] else []) ++
          [Event.redisSet ("user:" ++ u) connId 0] ++ tail ∧
      ∀ e ∈ tail, Event.isHistoryStep c.id e = true := by
  have hstep : ∃ w2, takeoverCheck o ctx u w = (Outcome.ret (), w2) ∧
      w2.trace = w.trace ++ [Event.redisGet ("user:" ++ u)] ++
          (if (IsClientConnected o ctx u w).1 = Outcome.ret true
            then [Event.brokerCancel u] else []) := by
    simp only [takeoverCheck, bind_run, IsClientConnected_eq]
    cases hb : (match o.redisFault w.time ctx.cancelled with
          | some _ => false
          | none => (w.redis.lookup ("user:" ++ u)).isSome) with
    | true =>
      obtain ⟨res, w2, hc, ht⟩ := CancelConsume_run o u (w.log (Event.redisGet ("user:" ++ u)))
      refine ⟨w2, ?_, ?_⟩
      · simp only [if_true, bind_run, hc, pure_run]
      · simp [ht, World.log_trace]
    | false =>
      refine ⟨w.log (Event.redisGet ("user:" ++ u)), ?_, ?_⟩
      · simp [pure_run]
      · simp [World.log_trace]
  obtain ⟨w2, hk, ht2⟩ := hstep
  obtain ⟨connId, res, w3, ha, ht3⟩ := AddClient_run o ctx u w2
  refine ⟨connId, ?_⟩
  have hso : sessionOpen o c ctx u r w =
      (match res with
        | Except.error _ => (do
          let _ ← HandleWebSocketError o c "Failed to add client"
          pure false : Go Bool)
        | Except.ok _ => do
          let q ← GetMessageByReceiverId o u r
          match q with
          | Except.error _ => do
            let _ ← HandleWebSocketError o c "Failed to retrieve message history"
            pure false
          | Except.ok messages => historyFlush o c messages) w3 := by
    unfold sessionOpen
    simp only [bind_run, hk, ha]
  rw [hso]
  cases res with
  | error e =>
    obtain ⟨res2, hj⟩ := wsWriteJSON_run o c.id [("error", "Failed to add client")] w3
    simp only [bind_run, HandleWebSocketError, hj, pure_run]
    refine ⟨[Event.wsWriteJSON c.id [("error", "Failed to add client")]], ?_, ?_⟩
    · simp [World.log_trace, ht3, ht2]
    · simp [Event.isHistoryStep]
  | ok v =>
    obtain ⟨q, hq⟩ := GetMessageByReceiverId_run o u r w3
    simp only [bind_run, hq]
    cases q with
    | error e =>
      obtain ⟨res2, hj⟩ := wsWriteJSON_run o c.id
        [("error", "Failed to retrieve message history")] (w3.log (Event.dbSelect u r))
      simp only [HandleWebSocketError, bind_run, hj, pure_run]
      refine ⟨[Event.dbSelect u r,
        Event.wsWriteJSON c.id [("error", "Failed to retrieve message history")]], ?_, ?_⟩
      · simp [World.log_trace, ht3, ht2]
      · simp [Event.isHistoryStep]
    | ok messages =>
      obtain ⟨tail, b, w4, h1, h2, h3⟩ := historyFlush_trace o c messages
        (w3.log (Event.dbSelect u r))
      simp only [h1]
      refine ⟨Event.dbSelect u r :: tail, ?_, ?_⟩
      · simp [h2, World.log_trace, ht3, ht2]
      · intro e he
        rcases List.mem_cons.mp he with rfl | he
        · simp [Event.isHistoryStep]
        · exact h3 e he


/-! ## Takeover and the teardown of the displaced session -/

/-- C10. Takeover is undone by the displaced session.  On one engine user A
opens a first session, then a second one that takes over: the consumer tagged
A is the one of the second socket and A is marked present.  When the deferred
teardown of the first session then runs, the consumer of the second session is
cancelled, whether Redis honours the cancelled context (the mark stays) or not
(the mark is deleted as well, and A is reported absent). -/
theorem C10_takeover_undone :
    ((takeoverSchedule Oracle.ctxAware sampleHandler (connOfA 1 "B" []) (connOfA 2 "B" []) "A"
        World.empty).2.consumers = [Consumer.mk "A" 2] ∧
      (IsClientConnected Oracle.ctxAware (Context.mk false) "A"
        (takeoverSchedule Oracle.ctxAware sampleHandler (connOfA 1 "B" []) (connOfA 2 "B" [])
          "A" World.empty).2).1 = Outcome.ret true) ∧
    (teardown Oracle.ctxAware "A"
        (takeoverSchedule Oracle.ctxAware sampleHandler (connOfA 1 "B" []) (connOfA 2 "B" []) "A"
          World.empty).2).2.consumers = [] ∧
    ((teardown (Oracle.goNil [] (Except.error "connection refused") []) "A"
        (takeoverSchedule (Oracle.goNil [] (Except.error "connection refused") [])
          sampleHandler (connOfA 1 "B" []) (connOfA 2 "B" []) "A" World.empty).2).2.consumers = [] ∧
     (IsClientConnected (Oracle.goNil [] (Except.error "connection refused") [])
        (Context.mk false) "A"
        (teardown (Oracle.goNil [] (Except.error "connection refused") []) "A"
          (takeoverSchedule (Oracle.goNil [] (Except.error "connection refused") [])
            sampleHandler (connOfA 1 "B" []) (connOfA 2 "B" []) "A" World.empty).2).2).1 =
        Outcome.ret false) := by
  refine ⟨⟨rfl, rfl⟩, rfl, rfl, rfl⟩

/-! ## Facts about the delivery pump and the handler goroutine -/

theorem deliveryPump_step (handler : String → Go (Except String Unit))
    (body : String) (msgs : List String) (w : World) :
    deliveryPump handler (body :: msgs) w =
      match handler body w with
      | (Outcome.ret (Except.ok _), w1) =>
        deliveryPump handler msgs (w1.log (Event.brokerAck body))
      | (Outcome.ret (Except.error _), w1) =>
        deliveryPump handler msgs (w1.log (Event.brokerNack body true))
      | (Outcome.panicked m, w1) => (Outcome.panicked m, w1) := by
  simp only [deliveryPump, bind_run]
  rcases handler body w with ⟨r, w1⟩
  cases r with
  | panicked m => rfl
  | ret a =>
    cases a with
    | error e => rfl
    | ok v => rfl

theorem deliveryPump_acks (handler : String → Go (Except String Unit))
    (hq : QuietHandler handler) :
    ∀ (msgs : List String) (w : World), ∃ w1 evs,
      deliveryPump handler msgs w = (Outcome.ret (), w1) ∧
      w1.trace = w.trace ++ evs ∧ evs.filterMap Event.ackedBody = msgs := by
  intro msgs
  induction msgs with
  | nil => intro w; exact ⟨w, [], rfl, by simp, rfl⟩
  | cons body msgs ih =>
    intro w
    obtain ⟨r, w1, evs, hh, ht, hn⟩ := hq body w
    have hfm : evs.filterMap Event.ackedBody = [] := by
      rw [List.filterMap_eq_nil_iff]
      exact hn
    rw [deliveryPump_step, hh]
    cases r with
    | error e =>
      obtain ⟨w2, evs2, h2, ht2, hf2⟩ := ih (w1.log (Event.brokerNack body true))
      refine ⟨w2, evs ++ Event.brokerNack body true :: evs2, h2, ?_, ?_⟩
      · simp [ht2, World.log_trace, ht]
      · simp [List.filterMap_append, hfm, List.filterMap_cons, Event.ackedBody, hf2]
    | ok v =>
      obtain ⟨w2, evs2, h2, ht2, hf2⟩ := ih (w1.log (Event.brokerAck body))
      refine ⟨w2, evs ++ Event.brokerAck body :: evs2, h2, ?_, ?_⟩
      · simp [ht2, World.log_trace, ht]
      · simp [List.filterMap_append, hfm, List.filterMap_cons, Event.ackedBody, hf2]

theorem egressHandler_quiet (o : Oracle) (c : Conn) (u : String) :
    QuietHandler (egressHandler o c u) := by
  intro body w
  unfold egressHandler
  cases o.decodeDirectMessage body with
  | error e => exact ⟨_, w, [], rfl, by simp, by simp⟩
  | ok msg =>
    simp only
    by_cases hr : msg.ReceiverID = u
    · simp only [hr, if_true, bind_run]
      obtain ⟨res, hw⟩ := wsWriteMessage_run o c.id body w
      rw [hw]
      cases res with
      | error e =>
        exact ⟨_, _, [Event.wsWriteMessage c.id body], rfl, rfl, by simp [Event.ackedBody]⟩
      | ok v =>
        exact ⟨_, _, [Event.wsWriteMessage c.id body], rfl, rfl, by simp [Event.ackedBody]⟩
    · simp only [hr, if_false]
      exact ⟨_, w, [], rfl, by simp, by simp⟩


theorem takeoverCheck_run (o : Oracle) (ctx : Context) (u : String) (w : World) :
    ∃ w2, takeoverCheck o ctx u w = (Outcome.ret (), w2) ∧
      w2.table = w.table ∧
      (w2.trace = w.trace ++ [Event.redisGet ("user:" ++ u)] ∨
       w2.trace = w.trace ++ [Event.redisGet ("user:" ++ u), Event.brokerCancel u]) := by
  simp only [takeoverCheck, bind_run, IsClientConnected_eq]
  cases hb : (match o.redisFault w.time ctx.cancelled with
        | some _ => false
        | none => (w.redis.lookup ("user:" ++ u)).isSome) with
  | true =>
    simp only [if_true, bind_run, CancelConsume]
    cases o.brokerFault (w.log (Event.redisGet ("user:" ++ u))).time with
    | some e => exact ⟨_, rfl, rfl, Or.inr (by simp [World.log_trace])⟩
    | none => exact ⟨_, rfl, rfl, Or.inr (by simp [World.log_trace])⟩
  | false =>
    exact ⟨_, rfl, rfl, Or.inl rfl⟩

theorem sessionOpen_run (o : Oracle) (c : Conn) (ctx : Context) (u r : String) (w : World) :
    ∃ b w1 evs, sessionOpen o c ctx u r w = (Outcome.ret b, w1) ∧
      w1.trace = w.trace ++ evs ∧ ∀ e ∈ evs, Event.isOpenStep c.id e = true := by
  obtain ⟨w2, hk, _, ht2⟩ := takeoverCheck_run o ctx u w
  obtain ⟨connId, res, w3, ha, ht3⟩ := AddClient_run o ctx u w2
  have hpre : ∃ pre, w3.trace = w.trace ++ pre ∧ ∀ e ∈ pre, Event.isOpenStep c.id e = true := by
    rcases ht2 with ht2 | ht2
    · exact ⟨[Event.redisGet ("user:" ++ u), Event.redisSet ("user:" ++ u) connId 0],
        by simp [ht3, ht2], by simp [Event.isOpenStep]⟩
    · exact ⟨[Event.redisGet ("user:" ++ u), Event.brokerCancel u,
        Event.redisSet ("user:" ++ u) connId 0],
        by simp [ht3, ht2], by simp [Event.isOpenStep]⟩
  obtain ⟨pre, hpre, hpo⟩ := hpre
  simp only [sessionOpen, bind_run, hk, ha]
  cases res with
  | error e =>
    obtain ⟨res2, hj⟩ := wsWriteJSON_run o c.id [("error", "Failed to add client")] w3
    simp only [bind_run, HandleWebSocketError, hj, pure_run]
    refine ⟨false, _, pre ++ [Event.wsWriteJSON c.id [("error", "Failed to add client")]],
      rfl, by simp [World.log_trace, hpre], ?_⟩
    intro e he
    rcases List.mem_append.mp he with he | he
    · exact hpo e he
    · simp only [List.mem_singleton] at he; subst he; simp [Event.isOpenStep]
  | ok v =>
    obtain ⟨q, hq⟩ := GetMessageByReceiverId_run o u r w3
    simp only [bind_run, hq]
    cases q with
    | error e =>
      obtain ⟨res2, hj⟩ := wsWriteJSON_run o c.id
        [("error", "Failed to retrieve message history")] (w3.log (Event.dbSelect u r))
      simp only [HandleWebSocketError, bind_run, hj, pure_run]
      refine ⟨false, _, pre ++ [Event.dbSelect u r,
        Event.wsWriteJSON c.id [("error", "Failed to retrieve message history")]],
        rfl, by simp [World.log_trace, hpre], ?_⟩
      intro e he
      rcases List.mem_append.mp he with he | he
      · exact hpo e he
      · simp only [List.mem_cons, List.mem_singleton, List.not_mem_nil, or_false] at he
        rcases he with he | he <;> subst he <;> simp [Event.isOpenStep]
    | ok messages =>
      obtain ⟨tail, b, w4, h1, h2, h3⟩ := historyFlush_trace o c messages
        (w3.log (Event.dbSelect u r))
      simp only [h1]
      refine ⟨b, w4, pre ++ Event.dbSelect u r :: tail, rfl,
        by simp [h2, World.log_trace, hpre], ?_⟩
      intro e he
      rcases List.mem_append.mp he with he | he
      · exact hpo e he
      · rcases List.mem_cons.mp he with rfl | he
        · simp [Event.isOpenStep]
        · have := h3 e he
          cases e <;> simp_all [Event.isOpenStep, Event.isHistoryStep]

theorem startWorkers_run (c : Conn) (u r : String) :
    ∀ (n : Nat) (w : World), ∃ w1, startWorkers c u r n w = (Outcome.ret (), w1) ∧
      w1.trace = w.trace ++ List.replicate n (Event.goWorker c.id u r) := by
  intro n
  induction n with
  | zero => intro w; exact ⟨w, rfl, by simp⟩
  | succ k ih =>
    intro w
    obtain ⟨w1, h1, h2⟩ := ih (w.log (Event.goWorker c.id u r))
    refine ⟨w1, ?_, ?_⟩
    · simp only [startWorkers, bind_run, h1]
    · simp [h2, World.log_trace, List.replicate_succ]

theorem readLoop_run (c : Conn) :
    ∀ (frames : List DirectMessageInput) (w : World), ∃ w1,
      readLoop c frames w = (Outcome.ret (), w1) ∧
      w1.trace = w.trace ++ readEvents c frames := by
  intro frames
  induction frames with
  | nil => intro w; exact ⟨_, rfl, rfl⟩
  | cons f frames ih =>
    intro w
    obtain ⟨w1, h1, h2⟩ := ih ((w.log (Event.wsReadJSON c.id)).log (Event.jobsSend c.id f))
    refine ⟨w1, ?_, ?_⟩
    · simp only [readLoop, bind_run, h1]
    · simp [h2, World.log_trace, readEvents]

theorem sessionSteady_run (h : Handler) (c : Conn) (u r : String) (w : World) :
    ∃ w1, sessionSteady h c u r w = (Outcome.ret (), w1) ∧
      w1.trace = w.trace ++ (List.replicate h.MaxWorkers (Event.goWorker c.id u r) ++
        Event.goListen c.id u :: readEvents c c.incoming) := by
  obtain ⟨w1, h1, h2⟩ := startWorkers_run c u r h.MaxWorkers w
  obtain ⟨w2, h3, h4⟩ := readLoop_run c c.incoming (w1.log (Event.goListen c.id u))
  refine ⟨w2, ?_, ?_⟩
  · simp only [sessionSteady, bind_run, h1, h3]
  · simp [h4, World.log_trace, h2]

theorem teardown_run (o : Oracle) (u : String) (w : World) :
    ∃ w1, teardown o u w = (Outcome.ret (), w1) ∧
      w1.trace = w.trace ++ [Event.redisDel ("user:" ++ u), Event.brokerCancel u] ∧
      w1.table = w.table ∧ w1.published = w.published ∧
      w1.redis = (match o.redisFault w.time true with
        | some _ => w.redis
        | none => w.redis.filter (fun kv => kv.1 ≠ "user:" ++ u)) ∧
      w1.consumers = (match o.brokerFault (w.time + 1) with
        | some _ => w.consumers
        | none => w.consumers.filter (fun k => k.tag ≠ u)) := by
  simp only [teardown, bind_run, RemoveClient, redisDel, CancelConsume, pure_run]
  cases o.redisFault w.time true with
  | some e =>
    simp only [World.log_time]
    cases o.brokerFault (w.time + 1) with
    | some e2 => exact ⟨_, rfl, by simp [World.log_trace], rfl, rfl, rfl, rfl⟩
    | none => exact ⟨_, rfl, by simp [World.log_trace], rfl, rfl, rfl, rfl⟩
  | none =>
    simp only
    have ht : ({ w.log (Event.redisDel ("user:" ++ u)) with
          redis := w.redis.filter (fun kv => kv.1 ≠ "user:" ++ u) } : World).time =
        w.time + 1 := by simp [World.time, World.log]
    rw [ht]
    cases o.brokerFault (w.time + 1) with
    | some e2 => exact ⟨_, rfl, by simp [World.log_trace, World.log], rfl, rfl, rfl, rfl⟩
    | none => exact ⟨_, rfl, by simp [World.log_trace, World.log], rfl, rfl, rfl, rfl⟩

theorem defer_run {α : Type} (cleanup : Go Unit) (body : Go α) (w : World) :
    Go.defer cleanup body w =
      match cleanup (body w).2 with
      | (Outcome.ret _, w2) => ((body w).1, w2)
      | (Outcome.panicked m, w2) => (Outcome.panicked m, w2) := rfl

theorem WebSocketHandler_run (o : Oracle) (h : Handler) (c : Conn)
    (info : ClientsLoginResponse) (w : World)
    (hauth : c.userJwtInfo = some info) (hrecv : c.receiver_id ≠ "") :
    ∃ openEvs steady w1,
      WebSocketHandler o h c w = (Outcome.ret (), w1) ∧
      w1.trace = w.trace ++ openEvs ++ steady ++
        [Event.redisDel ("user:" ++ info.Uid), Event.brokerCancel info.Uid,
         Event.wsClose c.id] ∧
      (∀ e ∈ openEvs, Event.isOpenStep c.id e = true) ∧
      (steady = [] ∨
        steady = List.replicate h.MaxWorkers (Event.goWorker c.id info.Uid c.receiver_id) ++
          Event.goListen c.id info.Uid :: readEvents c c.incoming) := by
  obtain ⟨b, w1, evs, ho, ht1, hev⟩ := sessionOpen_run o c (Context.mk false) info.Uid
    c.receiver_id w
  have hbody : ∃ steady w2,
      (sessionOpen o c (Context.mk false) info.Uid c.receiver_id >>= fun proceed =>
        if proceed = true then sessionSteady h c info.Uid c.receiver_id else pure ()) w =
        (Outcome.ret (), w2) ∧
      w2.trace = w.trace ++ evs ++ steady ∧
      (steady = [] ∨
        steady = List.replicate h.MaxWorkers (Event.goWorker c.id info.Uid c.receiver_id) ++
          Event.goListen c.id info.Uid :: readEvents c c.incoming) := by
    simp only [bind_run, ho]
    cases b with
    | false => exact ⟨[], w1, rfl, by simp [ht1], Or.inl rfl⟩
    | true =>
      obtain ⟨w2, h2, ht2⟩ := sessionSteady_run h c info.Uid c.receiver_id w1
      exact ⟨_, w2, by simp [h2], by simp [ht2, ht1], Or.inr rfl⟩
  obtain ⟨steady, w2, hb, ht2, hst⟩ := hbody
  obtain ⟨w3, h3, ht3, _⟩ := teardown_run o info.Uid w2
  refine ⟨evs, steady, w3.log (Event.wsClose c.id), ?_, ?_, hev, hst⟩
  · unfold WebSocketHandler
    simp only [hauth, hrecv, if_false]
    rw [defer_run, defer_run, hb]
    simp only [h3, wsClose]
  · simp [World.log_trace, ht3, ht2]


/-! ## Facts about the history query, the egress goroutine and the teardown -/

theorem GetMessageByReceiverId_ok (o : Oracle) (a b : String) (w : World)
    (hq : o.dbSelectFault w.time = none) :
    GetMessageByReceiverId o a b w =
      (Outcome.ret (Except.ok
        ((historyRows w.table a b).insertionSort (fun x y => x.CreatedAt ≤ y.CreatedAt))),
        w.log (Event.dbSelect a b)) := by
  unfold GetMessageByReceiverId historyRows
  simp only [hq]

theorem historyRows_symm (table : List DirectMessage) (a b : String) :
    historyRows table b a = historyRows table a b := by
  unfold historyRows
  congr 1
  funext m
  simp only [decide_eq_decide]
  exact or_comm

theorem historyFlush_ok (o : Oracle) (c : Conn) (hws : ∀ t, o.wsWriteFault t c.id = none) :
    ∀ (msgs : List DirectMessage) (w : World), ∃ w1,
      historyFlush o c msgs w = (Outcome.ret true, w1) ∧
      w1.trace = w.trace ++
        msgs.map (fun m => Event.wsWriteMessage c.id (historyPayload o m)) := by
  intro msgs
  induction msgs with
  | nil => intro w; exact ⟨w, rfl, by simp⟩
  | cons m ms ih =>
    intro w
    obtain ⟨w1, h1, h2⟩ := ih (w.log (Event.wsWriteMessage c.id (historyPayload o m)))
    refine ⟨w1, ?_, ?_⟩
    · simp only [historyFlush, bind_run, wsWriteMessage, hws]
      exact h1
    · simp [h2, World.log_trace]

theorem takeoverCheck_table (o : Oracle) (ctx : Context) (u : String) (w : World) :
    (takeoverCheck o ctx u w).2.table = w.table := by
  obtain ⟨w2, hk, ht, _⟩ := takeoverCheck_run o ctx u w
  rw [hk]; exact ht

theorem AddClient_table (o : Oracle) (ctx : Context) (u : String) (w : World) :
    (AddClient o ctx u w).2.table = w.table := by
  obtain ⟨connId, hid⟩ := GenerateConnId_ret o w.time
  unfold AddClient
  simp only [hid, redisSet]
  cases o.redisFault w.time ctx.cancelled <;> rfl

theorem deliveryPump_events (handler : String → Go (Except String Unit)) (P : Event → Prop)
    (hh : ∀ (body : String) (w : World), ∃ r w1 evs,
      handler body w = (Outcome.ret r, w1) ∧ w1.trace = w.trace ++ evs ∧ ∀ e ∈ evs, P e)
    (hack : ∀ b, P (Event.brokerAck b)) (hnack : ∀ b, P (Event.brokerNack b true)) :
    ∀ (msgs : List String) (w : World), ∃ w1 evs,
      deliveryPump handler msgs w = (Outcome.ret (), w1) ∧
      w1.trace = w.trace ++ evs ∧ ∀ e ∈ evs, P e := by
  intro msgs
  induction msgs with
  | nil => intro w; exact ⟨w, [], rfl, by simp, by simp⟩
  | cons body msgs ih =>
    intro w
    obtain ⟨r, w1, evs, hr, ht, hp⟩ := hh body w
    rw [deliveryPump_step, hr]
    cases r with
    | error e =>
      obtain ⟨w2, evs2, h2, ht2, hp2⟩ := ih (w1.log (Event.brokerNack body true))
      refine ⟨w2, evs ++ Event.brokerNack body true :: evs2, h2,
        by simp [ht2, World.log_trace, ht], ?_⟩
      intro e he
      rcases List.mem_append.mp he with he | he
      · exact hp e he
      · rcases List.mem_cons.mp he with rfl | he
        · exact hnack body
        · exact hp2 e he
    | ok v =>
      obtain ⟨w2, evs2, h2, ht2, hp2⟩ := ih (w1.log (Event.brokerAck body))
      refine ⟨w2, evs ++ Event.brokerAck body :: evs2, h2,
        by simp [ht2, World.log_trace, ht], ?_⟩
      intro e he
      rcases List.mem_append.mp he with he | he
      · exact hp e he
      · rcases List.mem_cons.mp he with rfl | he
        · exact hack body
        · exact hp2 e he

theorem egressHandler_events (o : Oracle) (c : Conn) (u : String) (body : String)
    (w : World) : ∃ r w1 evs,
      egressHandler o c u body w = (Outcome.ret r, w1) ∧ w1.trace = w.trace ++ evs ∧
      ∀ e ∈ evs, Event.isPumpStep c.id e = true := by
  unfold egressHandler
  cases o.decodeDirectMessage body with
  | error e => exact ⟨_, w, [], rfl, by simp, by simp⟩
  | ok msg =>
    simp only
    by_cases hr : msg.ReceiverID = u
    · simp only [hr, if_true, bind_run]
      obtain ⟨res, hw⟩ := wsWriteMessage_run o c.id body w
      rw [hw]
      cases res with
      | error e =>
        exact ⟨_, _, [Event.wsWriteMessage c.id body], rfl, rfl, by simp [Event.isPumpStep]⟩
      | ok v =>
        exact ⟨_, _, [Event.wsWriteMessage c.id body], rfl, rfl, by simp [Event.isPumpStep]⟩
    · simp only [hr, if_false]
      exact ⟨_, w, [], rfl, by simp, by simp⟩

theorem egressSubscriber_run (o : Oracle) (h : Handler) (ctx : Context) (c : Conn)
    (u : String) (ds : List String) (w : World) : ∃ w1 evs,
      egressSubscriber o h ctx c u ds w = (Outcome.ret (), w1) ∧
      w1.trace = w.trace ++ Event.brokerConsume h.EnvManger.RabbitMQQueueName u :: evs ∧
      ∀ e ∈ evs, Event.isPumpStep c.id e = true := by
  simp only [egressSubscriber, bind_run, ListenForMessages]
  cases o.brokerFault w.time with
  | some e => exact ⟨_, [], rfl, rfl, by simp⟩
  | none =>
    simp only [if_true]
    obtain ⟨w1, evs, h1, h2, h3⟩ := deliveryPump_events (egressHandler o c u)
      (fun e => Event.isPumpStep c.id e = true) (egressHandler_events o c u)
      (fun b => rfl) (fun b => rfl) ds
      { w.log (Event.brokerConsume h.EnvManger.RabbitMQQueueName u) with
        consumers := w.consumers ++ [{ tag := u, conn := c.id }] }
    exact ⟨w1, evs, h1, by simp [h2, World.log_trace, World.log], h3⟩

theorem egressSubscriber_fault (o : Oracle) (h : Handler) (ctx : Context) (c : Conn)
    (u : String) (ds : List String) (w : World) (e : String)
    (hf : o.brokerFault w.time = some e) :
    egressSubscriber o h ctx c u ds w =
      (Outcome.ret (), w.log (Event.brokerConsume h.EnvManger.RabbitMQQueueName u)) := by
  simp only [egressSubscriber, bind_run, ListenForMessages, hf]
  rfl

/-! ## Teardown -/

/-- C11. Teardown does not clear presence.  A session of user A that ends
issues, as its last calls, the delete of `user:A`, the cancel of the consumer
tagged A and the close; but the delete is issued with the context the deferred
function has just cancelled, and with a Redis client that refuses a command on
a cancelled context the mark stays and A is still reported present.  For every
behaviour of the collaborators, the registry after the teardown is the one
before it when the delete made with the cancelled context fails, and without
the key otherwise; every session past the receiver check ends with these three
calls. -/
theorem C11_presence_mark_survives :
    (IsClientConnected Oracle.ctxAware (Context.mk false) "A"
        (WebSocketHandler Oracle.ctxAware sampleHandler (connOfA 1 "B" []) World.empty).2).1 =
      Outcome.ret true ∧
    (WebSocketHandler Oracle.ctxAware sampleHandler (connOfA 1 "B" []) World.empty).2.redis =
      [("user:A", "7it4fq1cny9kv6")] ∧
    (∀ (o : Oracle) (u : String) (w : World),
      (teardown o u w).2.trace =
        w.trace ++ [Event.redisDel ("user:" ++ u), Event.brokerCancel u] ∧
      (teardown o u w).2.redis =
        (match o.redisFault w.time true with
          | some _ => w.redis
          | none => w.redis.filter (fun kv => kv.1 ≠ "user:" ++ u)) ∧
      (teardown o u w).2.consumers =
        (match o.brokerFault (w.time + 1) with
          | some _ => w.consumers
          | none => w.consumers.filter (fun k => k.tag ≠ u))) ∧
    (∀ (o : Oracle) (h : Handler) (c : Conn) (w : World),
      match c.userJwtInfo with
      | none => True
      | some info =>
        c.receiver_id = "" ∨
        ∃ pre, (WebSocketHandler o h c w).2.trace =
          w.trace ++ pre ++ [Event.redisDel ("user:" ++ info.Uid),
            Event.brokerCancel info.Uid, Event.wsClose c.id]) := by
  refine ⟨rfl, rfl, ?_, ?_⟩
  · intro o u w
    obtain ⟨w1, e1, t1, _, _, r1, c1⟩ := teardown_run o u w
    rw [e1]
    exact ⟨t1, r1, c1⟩
  · intro o h c w
    cases hinfo : c.userJwtInfo with
    | none => trivial
    | some info =>
      simp only
      by_cases hrecv : c.receiver_id = ""
      · exact Or.inl hrecv
      · obtain ⟨openEvs, steady, w1, e1, t1, _, _⟩ := WebSocketHandler_run o h c info w hinfo hrecv
        refine Or.inr ⟨openEvs ++ steady, ?_⟩
        rw [e1]
        simp [t1]

/-- C12. Teardown idempotence: running the teardown of user `u` a second time
leaves the presence registry, the broker's consumers, the table and the
published messages as the first run left them, provided a call (delete, cancel)
that failed in the first run is not carried out in the second. -/
theorem C12_teardown_idempotent (o : Oracle) (u : String) (w : World)
    (h1 : o.redisFault w.time true ≠ none → o.redisFault (w.time + 2) true ≠ none)
    (h2 : o.brokerFault (w.time + 1) ≠ none → o.brokerFault (w.time + 3) ≠ none) :
    (teardown o u (teardown o u w).2).1 = Outcome.ret () ∧
    SameStores (teardown o u w).2 (teardown o u (teardown o u w).2).2 := by
  obtain ⟨w1, e1, t1, tb1, p1, r1, c1⟩ := teardown_run o u w
  obtain ⟨w2, e2, t2, tb2, p2, r2, c2⟩ := teardown_run o u w1
  have htime : w1.time = w.time + 2 := by simp [World.time, t1]
  rw [htime] at r2 c2
  rw [e1]
  simp only
  rw [e2]
  refine ⟨rfl, ?_, by simp only; rw [tb2], by simp only; rw [p2], ?_⟩
  · simp only
    rw [r2, r1]
    cases hf1 : o.redisFault w.time true with
    | some a =>
      cases hf2 : o.redisFault (w.time + 2) true with
      | some b => rfl
      | none => exact absurd hf2 (h1 (by simp [hf1]))
    | none =>
      cases hf2 : o.redisFault (w.time + 2) true with
      | some b => rfl
      | none => simp [List.filter_filter]
  · simp only
    rw [c2, c1]
    cases hf1 : o.brokerFault (w.time + 1) with
    | some a =>
      cases hf2 : o.brokerFault (w.time + 2 + 1) with
      | some b => rfl
      | none => exact absurd hf2 (h2 (by simp [hf1]))
    | none =>
      cases hf2 : o.brokerFault (w.time + 2 + 1) with
      | some b => rfl
      | none => simp [List.filter_filter]

/-- C12, run: the teardown of A twice, from a world where A is marked present
and has a consumer, with collaborators that never fail. -/
theorem C12_teardown_idempotent_witness :
    ((Oracle.goNil [] (Except.error "connection refused") []).redisFault
        World.withSessionOfA.time true ≠ none →
      (Oracle.goNil [] (Except.error "connection refused") []).redisFault
        (World.withSessionOfA.time + 2) true ≠ none) ∧
    ((Oracle.goNil [] (Except.error "connection refused") []).brokerFault
        (World.withSessionOfA.time + 1) ≠ none →
      (Oracle.goNil [] (Except.error "connection refused") []).brokerFault
        (World.withSessionOfA.time + 3) ≠ none) ∧
    SameStores
      (teardown (Oracle.goNil [] (Except.error "connection refused") []) "A"
        World.withSessionOfA).2
      (teardown (Oracle.goNil [] (Except.error "connection refused") []) "A"
        (teardown (Oracle.goNil [] (Except.error "connection refused") []) "A"
          World.withSessionOfA).2).2 :=
  ⟨fun hne => absurd rfl hne, fun hne => absurd rfl hne,
   (C12_teardown_idempotent (Oracle.goNil [] (Except.error "connection refused") []) "A"
      World.withSessionOfA (fun hne => absurd rfl hne) (fun hne => absurd rfl hne)).2⟩

/-- C13. Inputs waiting at teardown are processed, not discarded.  The client
of A sends one text frame and disconnects; the handler goroutine reads it,
sends it on the jobs channel and tears the session down with nothing stored.
A worker of the session, which ranges over a channel that is never closed,
then receives the frame with the cancelled context: it persists the row and
publishes it, after the close of the socket. -/
theorem C13_queued_inputs_processed :
    (WebSocketHandler Oracle.ctxAware sampleHandler
        (connOfA 1 "B" [DirectMessageInput.mk "text" "late"]) World.empty).2.table = [] ∧
    (drainAfterTeardown Oracle.ctxAware sampleHandler
        (connOfA 1 "B" [DirectMessageInput.mk "text" "late"]) "A" World.empty).2.table =
      [DirectMessage.mk "A" "B" "late" "text" "" 2 1700000021] ∧
    (drainAfterTeardown Oracle.ctxAware sampleHandler
        (connOfA 1 "B" [DirectMessageInput.mk "text" "late"]) "A" World.empty).2.published =
      [publishingOf sampleHandler "B"
        (renderDirectMessage (DirectMessage.mk "A" "B" "late" "text" "" 2 1700000021))] ∧
    (drainAfterTeardown Oracle.ctxAware sampleHandler
        (connOfA 1 "B" [DirectMessageInput.mk "text" "late"]) "A" World.empty).2.trace =
      (WebSocketHandler Oracle.ctxAware sampleHandler
        (connOfA 1 "B" [DirectMessageInput.mk "text" "late"]) World.empty).2.trace ++
      [Event.redisGet "user:B", Event.dbBegin,
       Event.dbInsert (DirectMessage.mk "A" "B" "late" "text" "" 2 1700000021),
       Event.dbCommit,
       Event.brokerPublish (publishingOf sampleHandler "B"
        (renderDirectMessage (DirectMessage.mk "A" "B" "late" "text" "" 2 1700000021)))] := by
  refine ⟨rfl, rfl, rfl, rfl⟩

/-! ## Egress subscription and acknowledgements -/

/-- C14, as stated, fails: with an unreachable broker the subscription of the
session of A does not start (the egress goroutine only issues the failed
consume), yet the handler goroutine then reads the client frame and sends it
to the workers; the teardown and the close come only after the read that
fails. -/
theorem C14_consume_fault_session_continues :
    (sessionWithEgress Oracle.brokerDown sampleHandler
        (connOfA 1 "B" [DirectMessageInput.mk "text" "hi"]) "A" [] World.empty).2.trace =
      [Event.redisGet "user:A", Event.redisSet "user:A" "7it4fq1cny9kv6" 0,
       Event.dbSelect "A" "B"] ++
      List.replicate 10 (Event.goWorker 1 "A" "B") ++
      [Event.goListen 1 "A", Event.brokerConsume "messages" "A",
       Event.wsReadJSON 1, Event.jobsSend 1 (DirectMessageInput.mk "text" "hi"),
       Event.wsReadJSON 1,
       Event.redisDel "user:A", Event.brokerCancel "A", Event.wsClose 1] ∧
    (egressSubscriber Oracle.brokerDown sampleHandler (Context.mk false)
        (connOfA 1 "B" [DirectMessageInput.mk "text" "hi"]) "A" [] World.empty).2 =
      World.empty.log (Event.brokerConsume "messages" "A") := by
  refine ⟨rfl, rfl⟩

/-- C14, amended.  When the subscription of a session fails to start, the
egress goroutine returns after the failed consume and makes no other call; in
every run the calls of the egress goroutine after the consume are only writes
of frames and acknowledgements, never a close or a teardown call; and the
handler goroutine, whatever the broker answers, reads every frame of the
client and ends with the teardown and the close after the read that fails. -/
theorem C14_consume_fault_logged_only (o : Oracle) (h : Handler) (ctx : Context) (c : Conn)
    (info : ClientsLoginResponse) (ds : List String) (w w0 : World) (e : String)
    (hauth : c.userJwtInfo = some info) (hrecv : c.receiver_id ≠ "")
    (hf : o.brokerFault w.time = some e) :
    egressSubscriber o h ctx c info.Uid ds w =
      (Outcome.ret (), w.log (Event.brokerConsume h.EnvManger.RabbitMQQueueName info.Uid)) ∧
    (∀ (ds1 : List String) (w1 : World), ∃ evs,
      (egressSubscriber o h ctx c info.Uid ds1 w1).2.trace =
        w1.trace ++ Event.brokerConsume h.EnvManger.RabbitMQQueueName info.Uid :: evs ∧
      ∀ e ∈ evs, Event.isPumpStep c.id e = true) ∧
    (∃ openEvs steady,
      (WebSocketHandler o h c w0).2.trace = w0.trace ++ openEvs ++ steady ++
        [Event.redisDel ("user:" ++ info.Uid), Event.brokerCancel info.Uid,
         Event.wsClose c.id] ∧
      (∀ e ∈ openEvs, Event.isOpenStep c.id e = true) ∧
      (steady = [] ∨
        steady = List.replicate h.MaxWorkers (Event.goWorker c.id info.Uid c.receiver_id) ++
          Event.goListen c.id info.Uid :: readEvents c c.incoming)) := by
  refine ⟨egressSubscriber_fault o h ctx c info.Uid ds w e hf, ?_, ?_⟩
  · intro ds1 w1
    obtain ⟨w2, evs, h1, h2, h3⟩ := egressSubscriber_run o h ctx c info.Uid ds1 w1
    exact ⟨evs, by rw [h1]; exact h2, h3⟩
  · obtain ⟨openEvs, steady, w1, e1, t1, hop, hst⟩ :=
      WebSocketHandler_run o h c info w0 hauth hrecv
    exact ⟨openEvs, steady, by rw [e1]; exact t1, hop, hst⟩

/-- C14 amended, run: the session of A with an unreachable broker. -/
theorem C14_consume_fault_logged_only_witness :
    (connOfA 1 "B" [DirectMessageInput.mk "text" "hi"]).userJwtInfo =
      some (ClientsLoginResponse.mk "A" "alice") ∧
    (connOfA 1 "B" [DirectMessageInput.mk "text" "hi"]).receiver_id ≠ "" ∧
    Oracle.brokerDown.brokerFault World.empty.time =
      some "Exception (504) Reason: \"channel/connection is not open\"" ∧
    egressSubscriber Oracle.brokerDown sampleHandler (Context.mk false)
        (connOfA 1 "B" [DirectMessageInput.mk "text" "hi"])
        (ClientsLoginResponse.mk "A" "alice").Uid [] World.empty =
      (Outcome.ret (), World.empty.log
        (Event.brokerConsume sampleHandler.EnvManger.RabbitMQQueueName
          (ClientsLoginResponse.mk "A" "alice").Uid)) :=
  ⟨rfl, by decide, rfl,
   (C14_consume_fault_logged_only Oracle.brokerDown sampleHandler (Context.mk false)
      (connOfA 1 "B" [DirectMessageInput.mk "text" "hi"]) (ClientsLoginResponse.mk "A" "alice")
      [] World.empty World.empty _ rfl (by decide) rfl).1⟩

/-- C15, as stated, fails: a delivery whose body does not parse is answered by
a negative acknowledgement with requeue, not by a positive one. -/
theorem C15_unparseable_delivery_not_acked :
    (Oracle.goNil [] (Except.error "connection refused") []).decodeDirectMessage "not json" =
      Except.error "invalid character" ∧
    (deliveryPump (egressHandler (Oracle.goNil [] (Except.error "connection refused") [])
        (connOfA 1 "B" []) "A") ["not json"] World.empty).2.trace =
      [Event.brokerNack "not json" true] ∧
    Event.brokerAck "not json" ∉
      (deliveryPump (egressHandler (Oracle.goNil [] (Except.error "connection refused") [])
        (connOfA 1 "B" []) "A") ["not json"] World.empty).2.trace := by
  refine ⟨rfl, rfl, ?_⟩
  have ht : (deliveryPump (egressHandler (Oracle.goNil [] (Except.error "connection refused") [])
        (connOfA 1 "B" []) "A") ["not json"] World.empty).2.trace =
      [Event.brokerNack "not json" true] := rfl
  rw [ht]
  simp

/-- C15, amended.  Unparseable broker delivery: for a delivery whose body does
not parse as a `DirectMessage`, the egress handler issues no call (nothing is
written to the socket) and returns the error, the pump negatively acknowledges
the delivery with requeue, and goes on with the next delivery. -/
theorem C15_unparseable_delivery_requeued (o : Oracle) (c : Conn) (u message : String)
    (rest : List String) (w : World) (e : String)
    (hparse : o.decodeDirectMessage message = Except.error e) :
    egressHandler o c u message w = (Outcome.ret (Except.error e), w) ∧
    deliveryPump (egressHandler o c u) (message :: rest) w =
      deliveryPump (egressHandler o c u) rest (w.log (Event.brokerNack message true)) := by
  have hh : egressHandler o c u message w = (Outcome.ret (Except.error e), w) := by
    unfold egressHandler
    simp only [hparse, pure_run]
  refine ⟨hh, ?_⟩
  rw [deliveryPump_step, hh]

/-- C15 amended, run: the delivery `not json` at the session of A. -/
theorem C15_unparseable_delivery_requeued_witness :
    (Oracle.goNil [] (Except.error "connection refused") []).decodeDirectMessage "not json" =
      Except.error "invalid character" ∧
    deliveryPump (egressHandler (Oracle.goNil [] (Except.error "connection refused") [])
        (connOfA 1 "B" []) "A") ("not json" :: []) World.empty =
      deliveryPump (egressHandler (Oracle.goNil [] (Except.error "connection refused") [])
        (connOfA 1 "B" []) "A") [] (World.empty.log (Event.brokerNack "not json" true)) :=
  ⟨rfl, (C15_unparseable_delivery_requeued
      (Oracle.goNil [] (Except.error "connection refused") []) (connOfA 1 "B" []) "A"
      "not json" [] World.empty "invalid character" rfl).2⟩

/-- C16. Acknowledgement discipline: for each delivery the pump applies the
handler to the body once and then issues one acknowledgement action, a positive
ack when the handler returned no error and a nack with requeue otherwise, before
going on with the next delivery; for a handler that issues no acknowledgement
itself, the acknowledgement actions of a run are, in order, one per delivery. -/
theorem C16_ack_discipline (handler : String → Go (Except String Unit))
    (hq : QuietHandler handler) (body : String) (msgs : List String) (w : World) :
    (deliveryPump handler (body :: msgs) w =
      match handler body w with
      | (Outcome.ret (Except.ok _), w1) =>
        deliveryPump handler msgs (w1.log (Event.brokerAck body))
      | (Outcome.ret (Except.error _), w1) =>
        deliveryPump handler msgs (w1.log (Event.brokerNack body true))
      | (Outcome.panicked m, w1) => (Outcome.panicked m, w1)) ∧
    (∃ w1 evs, deliveryPump handler (body :: msgs) w = (Outcome.ret (), w1) ∧
      w1.trace = w.trace ++ evs ∧ evs.filterMap Event.ackedBody = body :: msgs) := by
  refine ⟨deliveryPump_step handler body msgs w, ?_⟩
  exact deliveryPump_acks handler hq (body :: msgs) w

/-- C16, run: the egress handler of user B on a delivery for B and on one that
does not parse. -/
theorem C16_ack_discipline_witness :
    QuietHandler (egressHandler (Oracle.goNil [] (Except.error "connection refused")
      [sampleMessage]) (connOfA 1 "A" []) "B") ∧
    ∃ w1 evs,
      deliveryPump (egressHandler (Oracle.goNil [] (Except.error "connection refused")
          [sampleMessage]) (connOfA 1 "A" []) "B")
        (renderDirectMessage sampleMessage :: ["not json"]) World.empty =
        (Outcome.ret (), w1) ∧
      w1.trace = World.empty.trace ++ evs ∧
      evs.filterMap Event.ackedBody = renderDirectMessage sampleMessage :: ["not json"] :=
  ⟨egressHandler_quiet _ _ _,
   (C16_ack_discipline _ (egressHandler_quiet
      (Oracle.goNil [] (Except.error "connection refused") [sampleMessage])
      (connOfA 1 "A" []) "B") (renderDirectMessage sampleMessage) ["not json"]
      World.empty).2⟩

/-- C17. Deliveries for other users are acknowledged: for a session of `u` and
a delivery that parses with a receiver other than `u`, the egress handler
returns success without any call and the pump positively acknowledges the
delivery and goes on. -/
theorem C17_foreign_delivery_acked (o : Oracle) (c : Conn) (u message : String)
    (msg : DirectMessage) (rest : List String) (w : World)
    (hparse : o.decodeDirectMessage message = Except.ok msg)
    (hne : msg.ReceiverID ≠ u) :
    egressHandler o c u message w = (Outcome.ret (Except.ok ()), w) ∧
    deliveryPump (egressHandler o c u) (message :: rest) w =
      deliveryPump (egressHandler o c u) rest (w.log (Event.brokerAck message)) := by
  have hh : egressHandler o c u message w = (Outcome.ret (Except.ok ()), w) := by
    unfold egressHandler
    simp only [hparse, hne, if_false, pure_run]
  refine ⟨hh, ?_⟩
  rw [deliveryPump_step, hh]

/-- C17, run: a delivery for B at the session of user C. -/
theorem C17_foreign_delivery_acked_witness :
    (Oracle.goNil [] (Except.error "connection refused") [sampleMessage]).decodeDirectMessage
        (renderDirectMessage sampleMessage) = Except.ok sampleMessage ∧
    sampleMessage.ReceiverID ≠ "C" ∧
    (deliveryPump (egressHandler (Oracle.goNil [] (Except.error "connection refused")
        [sampleMessage]) (connOfA 1 "B" []) "C") (renderDirectMessage sampleMessage :: [])
        World.empty).2.trace = [Event.brokerAck (renderDirectMessage sampleMessage)] := by
  refine ⟨rfl, by decide, ?_⟩
  rw [(C17_foreign_delivery_acked
      (Oracle.goNil [] (Except.error "connection refused") [sampleMessage])
      (connOfA 1 "B" []) "C" (renderDirectMessage sampleMessage) sampleMessage []
      World.empty rfl (by decide)).2]
  rfl

/-! ## History -/

/-- C18. History query: when the query does not fail, `history(a, b)` returns
the rows of the table sent by `a` to `b` or by `b` to `a`, each as often as it
is in the table, in non-decreasing `created_at` order; `history(b, a)` returns
the same rows. -/
theorem C18_history_query (o : Oracle) (a b : String) (w : World)
    (hq : o.dbSelectFault w.time = none) :
    ∃ rows rows',
      GetMessageByReceiverId o a b w =
        (Outcome.ret (Except.ok rows), w.log (Event.dbSelect a b)) ∧
      GetMessageByReceiverId o b a w =
        (Outcome.ret (Except.ok rows'), w.log (Event.dbSelect b a)) ∧
      rows.Perm (historyRows w.table a b) ∧
      (∀ m, m ∈ rows ↔ m ∈ w.table ∧
        ((m.SenderID = a ∧ m.ReceiverID = b) ∨ (m.SenderID = b ∧ m.ReceiverID = a))) ∧
      (∀ m, rows.count m = (historyRows w.table a b).count m) ∧
      rows.Sorted (fun x y => x.CreatedAt ≤ y.CreatedAt) ∧
      rows'.Perm rows := by
  haveI : IsTotal DirectMessage (fun x y => x.CreatedAt ≤ y.CreatedAt) :=
    ⟨fun x y => le_total x.CreatedAt y.CreatedAt⟩
  haveI : IsTrans DirectMessage (fun x y => x.CreatedAt ≤ y.CreatedAt) :=
    ⟨fun x y z hxy hyz => le_trans hxy hyz⟩
  have hperm := List.perm_insertionSort (fun x y : DirectMessage => x.CreatedAt ≤ y.CreatedAt)
    (historyRows w.table a b)
  refine ⟨_, _, GetMessageByReceiverId_ok o a b w hq, GetMessageByReceiverId_ok o b a w hq,
    hperm, ?_, ?_, ?_, ?_⟩
  · intro m
    rw [hperm.mem_iff]
    simp [historyRows, List.mem_filter]
  · intro m
    exact hperm.count_eq m
  · exact List.sorted_insertionSort _ _
  · rw [historyRows_symm]

/-- C18, run: the history of A and B over a table of three rows. -/
theorem C18_history_query_witness :
    (Oracle.goNil [] (Except.error "connection refused") []).dbSelectFault World.chat.time =
      none ∧
    GetMessageByReceiverId (Oracle.goNil [] (Except.error "connection refused") [])
        "A" "B" World.chat =
      (Outcome.ret (Except.ok [DirectMessage.mk "B" "A" "hi" "text" "" 2 1,
          DirectMessage.mk "A" "B" "hello" "text" "" 2 3]),
        World.chat.log (Event.dbSelect "A" "B")) ∧
    ∃ rows rows',
      GetMessageByReceiverId (Oracle.goNil [] (Except.error "connection refused") [])
        "A" "B" World.chat =
        (Outcome.ret (Except.ok rows), World.chat.log (Event.dbSelect "A" "B")) ∧
      GetMessageByReceiverId (Oracle.goNil [] (Except.error "connection refused") [])
        "B" "A" World.chat =
        (Outcome.ret (Except.ok rows'), World.chat.log (Event.dbSelect "B" "A")) ∧
      rows.Sorted (fun x y => x.CreatedAt ≤ y.CreatedAt) ∧ rows'.Perm rows := by
  refine ⟨rfl, rfl, ?_⟩
  obtain ⟨rows, rows', h1, h2, _, _, _, h6, h7⟩ :=
    C18_history_query (Oracle.goNil [] (Except.error "connection refused") [])
      "A" "B" World.chat rfl
  exact ⟨rows, rows', h1, h2, h6, h7⟩

/-- C19. History flush order: when the presence write and the history query
succeed and no write on the socket fails, the open phase returns `true` and,
after the history query, issues exactly one text frame per row returned, in the
order returned, each carrying the encoding of its row; the rows are those of
`history(self, peer)` in non-decreasing `created_at` order. -/
theorem C19_history_flush_order (o : Oracle) (c : Conn) (ctx : Context) (u r : String)
    (w : World)
    (hadd : (AddClient o ctx u (takeoverCheck o ctx u w).2).1 = Outcome.ret (Except.ok ()))
    (hsel : o.dbSelectFault (AddClient o ctx u (takeoverCheck o ctx u w).2).2.time = none)
    (hws : ∀ t, o.wsWriteFault t c.id = none) :
    ∃ rows,
      GetMessageByReceiverId o u r (AddClient o ctx u (takeoverCheck o ctx u w).2).2 =
        (Outcome.ret (Except.ok rows),
          (AddClient o ctx u (takeoverCheck o ctx u w).2).2.log (Event.dbSelect u r)) ∧
      rows.Perm (historyRows w.table u r) ∧
      rows.Sorted (fun x y => x.CreatedAt ≤ y.CreatedAt) ∧
      (sessionOpen o c ctx u r w).1 = Outcome.ret true ∧
      (sessionOpen o c ctx u r w).2.trace =
        (AddClient o ctx u (takeoverCheck o ctx u w).2).2.trace ++
          Event.dbSelect u r ::
            rows.map (fun m => Event.wsWriteMessage c.id (historyPayload o m)) ∧
      (∀ m data, o.encodeDirectMessage m = Except.ok data → historyPayload o m = data) := by
  haveI : IsTotal DirectMessage (fun x y => x.CreatedAt ≤ y.CreatedAt) :=
    ⟨fun x y => le_total x.CreatedAt y.CreatedAt⟩
  haveI : IsTrans DirectMessage (fun x y => x.CreatedAt ≤ y.CreatedAt) :=
    ⟨fun x y z hxy hyz => le_trans hxy hyz⟩
  obtain ⟨w2, hk, _, _⟩ := takeoverCheck_run o ctx u w
  have htab : (AddClient o ctx u (takeoverCheck o ctx u w).2).2.table = w.table := by
    rw [AddClient_table, takeoverCheck_table]
  rw [hk] at hadd hsel htab ⊢
  simp only at hadd hsel htab ⊢
  rcases ha : AddClient o ctx u w2 with ⟨res, w3⟩
  rw [ha] at hadd hsel htab
  simp only at hadd hsel htab
  subst hadd
  have hq := GetMessageByReceiverId_ok o u r w3 hsel
  obtain ⟨w4, hf, hft⟩ := historyFlush_ok o c hws
    ((historyRows w3.table u r).insertionSort (fun x y => x.CreatedAt ≤ y.CreatedAt))
    (w3.log (Event.dbSelect u r))
  refine ⟨_, hq, ?_, List.sorted_insertionSort _ _, ?_, ?_, ?_⟩
  · rw [htab]
    exact List.perm_insertionSort _ _
  · simp only [sessionOpen, bind_run, hk, ha, hq, hf]
  · simp only [sessionOpen, bind_run, hk, ha, hq, hf, hft, World.log_trace]
    simp
  · intro m data hm
    simp only [historyPayload, hm]

/-- C19, run: user A opens a session to B over a table of three rows. -/
theorem C19_history_flush_order_witness :
    (AddClient (Oracle.goNil [] (Except.error "connection refused") []) (Context.mk false) "A"
        (takeoverCheck (Oracle.goNil [] (Except.error "connection refused") [])
          (Context.mk false) "A" World.chat).2).1 = Outcome.ret (Except.ok ()) ∧
    (Oracle.goNil [] (Except.error "connection refused") []).dbSelectFault
        (AddClient (Oracle.goNil [] (Except.error "connection refused") []) (Context.mk false)
          "A" (takeoverCheck (Oracle.goNil [] (Except.error "connection refused") [])
            (Context.mk false) "A" World.chat).2).2.time = none ∧
    (∀ t, (Oracle.goNil [] (Except.error "connection refused") []).wsWriteFault t
        (connOfA 1 "B" []).id = none) ∧
    (sessionOpen (Oracle.goNil [] (Except.error "connection refused") []) (connOfA 1 "B" [])
        (Context.mk false) "A" "B" World.chat).1 = Outcome.ret true ∧
    (sessionOpen (Oracle.goNil [] (Except.error "connection refused") []) (connOfA 1 "B" [])
        (Context.mk false) "A" "B" World.chat).2.trace =
      [Event.redisGet "user:A", Event.redisSet "user:A" "7it4fq1cny9kv6" 0,
       Event.dbSelect "A" "B",
       Event.wsWriteMessage 1 (renderDirectMessage (DirectMessage.mk "B" "A" "hi" "text" "" 2 1)),
       Event.wsWriteMessage 1
        (renderDirectMessage (DirectMessage.mk "A" "B" "hello" "text" "" 2 3))] := by
  refine ⟨rfl, rfl, fun _ => rfl, ?_, rfl⟩
  obtain ⟨rows, _, _, _, h4, _⟩ :=
    C19_history_flush_order (Oracle.goNil [] (Except.error "connection refused") [])
      (connOfA 1 "B" []) (Context.mk false) "A" "B" World.chat rfl rfl (fun _ => rfl)
  exact h4

/-- C20. History precedes live traffic: in every run of the handler goroutine
its calls split into a first part without the `go` statement of the egress
subscriber (and without any subscription call) and a second part without any
write of a frame on the socket, so every history frame is written before the
subscriber is started; and the egress goroutine begins with its subscription
call, so its writes come after it. -/
theorem C20_history_precedes_live (o : Oracle) (h : Handler) (c : Conn) (w : World) :
    (∃ pre post,
      (WebSocketHandler o h c w).2.trace = w.trace ++ pre ++ post ∧
      (∀ e ∈ pre, Event.startsEgress c.id e = false) ∧
      (∀ e ∈ post, Event.isFrameWrite c.id e = false)) ∧
    (∀ (ctx : Context) (u : String) (ds : List String) (w1 : World), ∃ evs,
      (egressSubscriber o h ctx c u ds w1).2.trace =
        w1.trace ++ Event.brokerConsume h.EnvManger.RabbitMQQueueName u :: evs) := by
  constructor
  · cases hinfo : c.userJwtInfo with
    | none =>
      refine ⟨[], [Event.wsClose c.id], ?_, by simp, by simp [Event.isFrameWrite]⟩
      unfold WebSocketHandler
      simp only [hinfo]
      rw [defer_run]
      simp [wsClose, World.log_trace]
    | some info =>
      by_cases hrecv : c.receiver_id = ""
      · obtain ⟨res, hj⟩ := wsWriteJSON_run o c.id [("error", "Receiver ID is required")] w
        refine ⟨[Event.wsWriteJSON c.id [("error", "Receiver ID is required")]],
          [Event.wsClose c.id], ?_, by simp [Event.startsEgress], by simp [Event.isFrameWrite]⟩
        unfold WebSocketHandler
        simp only [hinfo, hrecv, if_true]
        rw [defer_run]
        simp only [bind_run, HandleWebSocketError, hj, pure_run, wsClose, World.log_trace]
      · obtain ⟨openEvs, steady, w1, e1, t1, hop, hst⟩ :=
          WebSocketHandler_run o h c info w hinfo hrecv
        refine ⟨openEvs, steady ++ [Event.redisDel ("user:" ++ info.Uid),
          Event.brokerCancel info.Uid, Event.wsClose c.id], ?_, ?_, ?_⟩
        · rw [e1]; simp [t1]
        · intro e he
          have := hop e he
          cases e <;> simp_all [Event.isOpenStep, Event.startsEgress]
        · have hread : ∀ frames, ∀ e ∈ readEvents c frames, Event.isFrameWrite c.id e = false := by
            intro frames
            induction frames with
            | nil => simp [readEvents, Event.isFrameWrite]
            | cons f fs ih =>
              intro e he
              simp only [readEvents, List.mem_cons] at he
              rcases he with rfl | rfl | he
              · rfl
              · rfl
              · exact ih e he
          intro e he
          rcases List.mem_append.mp he with he | he
          · rcases hst with hst | hst
            · rw [hst] at he; simp at he
            · rw [hst] at he
              rcases List.mem_append.mp he with he | he
              · rw [List.eq_of_mem_replicate he]; rfl
              · rcases List.mem_cons.mp he with rfl | he
                · rfl
                · exact hread _ e he
          · simp only [List.mem_cons, List.mem_singleton, List.not_mem_nil, or_false] at he
            rcases he with rfl | rfl | rfl <;> rfl
  · intro ctx u ds w1
    obtain ⟨w2, evs, h1, h2, _⟩ := egressSubscriber_run o h ctx c u ds w1
    exact ⟨evs, by rw [h1]; exact h2⟩

theorem generateRandomStringLoop_spec (o : Oracle) (t : Nat) (chars : String)
    (hc : chars.length ≠ 0) :
    ∀ (n i : Nat) (result : String),
      ∃ s, generateRandomStringLoop o t chars n i result = Outcome.ret s ∧
        s.length = result.length + n ∧
        ∀ ch ∈ s.toList, ch ∈ result.toList ∨ ch ∈ chars.toList := by
  intro n
  induction n with
  | zero => intro i result; exact ⟨result, rfl, rfl, fun ch h => Or.inl h⟩
  | succ k ih =>
    intro i result
    unfold generateRandomStringLoop
    simp only [hc, if_false]
    obtain ⟨s, hs, hl, hm⟩ := ih (i + 1)
      (result ++ String.singleton (chars.toList.getD (o.rand t i % chars.length) ' '))
    refine ⟨s, hs, ?_, ?_⟩
    · rw [hl, String.length_append, String.length_singleton]; omega
    · intro ch hch
      rcases hm ch hch with h | h
      · have hd : (result ++ String.singleton
            (chars.toList.getD (o.rand t i % chars.length) ' ')).toList =
            result.toList ++ [chars.toList.getD (o.rand t i % chars.length) ' '] := by
          show (result ++ String.singleton _).data = _
          rw [String.data_append]
          rfl
        rw [hd, List.mem_append, List.mem_singleton] at h
        rcases h with h | h
        · exact Or.inl h
        · right
          rw [h]
          have hlt : o.rand t i % chars.length < chars.toList.length :=
            Nat.mod_lt _ (Nat.pos_of_ne_zero hc)
          rw [List.getD_eq_getElem _ _ hlt]
          exact List.getElem_mem _
      · exact Or.inr h

theorem append_left_cancel_string (p a b : String) (h : p ++ a = p ++ b) : a = b := by
  have hd := congrArg String.data h
  simp only [String.data_append] at hd
  exact String.ext (List.append_cancel_left hd)

theorem lookup_cons_ne (k xk xv : String) (l : List (String × String)) (h : k ≠ xk) :
    List.lookup k ((xk, xv) :: l) = List.lookup k l := by
  have hne : (k == xk) = false := by simp [h]
  show (match k == xk with
    | true => some xv
    | false => List.lookup k l) = _
  rw [hne]

theorem lookup_cons_self (k xv : String) (l : List (String × String)) :
    List.lookup k ((k, xv) :: l) = some xv := by
  have he : (k == k) = true := by simp
  show (match k == k with
    | true => some xv
    | false => List.lookup k l) = _
  rw [he]

theorem lookup_filter_self (k : String) (l : List (String × String)) :
    (l.filter (fun kv => kv.1 ≠ k)).lookup k = none := by
  induction l with
  | nil => rfl
  | cons x xs ih =>
    obtain ⟨xk, xv⟩ := x
    by_cases hx : xk = k
    · rw [List.filter_cons_of_neg (by simp [hx])]
      exact ih
    · rw [List.filter_cons_of_pos (by simp [hx]), lookup_cons_ne _ _ _ _ (Ne.symm hx)]
      exact ih

theorem lookup_filter_other (k k1 : String) (hk : k1 ≠ k) (l : List (String × String)) :
    (l.filter (fun kv => kv.1 ≠ k)).lookup k1 = l.lookup k1 := by
  induction l with
  | nil => rfl
  | cons x xs ih =>
    obtain ⟨xk, xv⟩ := x
    by_cases hx : xk = k
    · rw [List.filter_cons_of_neg (by simp [hx]), ih,
        lookup_cons_ne _ _ _ _ (by rw [hx]; exact hk)]
    · rw [List.filter_cons_of_pos (by simp [hx])]
      by_cases h1 : k1 = xk
      · subst h1
        rw [lookup_cons_self, lookup_cons_self]
      · rw [lookup_cons_ne _ _ _ _ h1, lookup_cons_ne _ _ _ _ h1, ih]

theorem lookup_isSome_iff (k : String) (l : List (String × String)) :
    (l.lookup k).isSome = true ↔ ∃ v, (k, v) ∈ l := by
  induction l with
  | nil => simp
  | cons x xs ih =>
    obtain ⟨xk, xv⟩ := x
    by_cases h1 : k = xk
    · subst h1
      rw [lookup_cons_self]
      simp
    · rw [lookup_cons_ne _ _ _ _ h1, ih]
      constructor
      · rintro ⟨v, hv⟩
        exact ⟨v, List.mem_cons_of_mem _ hv⟩
      · rintro ⟨v, hv⟩
        rcases List.mem_cons.mp hv with h | h
        · exact absurd (congrArg Prod.fst h) h1
        · exact ⟨v, h⟩


theorem numericChars_alphabet :
    ∀ ch ∈ numericChars.toList, ('0' ≤ ch ∧ ch ≤ '9') ∨ ('a' ≤ ch ∧ ch ≤ 'z') := by
  decide

theorem GenerateConnId_spec (o : Oracle) (t : Nat) :
    ∃ connId, GenerateConnId o t = Outcome.ret connId ∧ connId.length = 14 ∧
      ∀ ch ∈ connId.toList, ch ∈ numericChars.toList := by
  obtain ⟨s, hs, hl, hm⟩ :=
    generateRandomStringLoop_spec o t numericChars (by decide) 14 0 ""
  refine ⟨s, hs, ?_, ?_⟩
  · rw [hl]; rfl
  · intro ch hch
    rcases hm ch hch with h | h
    · exact absurd h (by simp)
    · exact h

/-! ## Presence registry -/

/-- C25. Whatever the random source draws, `GenerateConnId` returns a string of
exactly 14 characters, each one of the 36 characters `0`-`9`, `a`-`z`;
`AddClient` issues one `Set` of that value under the key `user:<u>` with
expiration 0 (no expiry), and when Redis accepts the command the key holds
exactly that value. -/
theorem C25_session_id_format (o : Oracle) (ctx : Context) (u : String) (w : World) :
    numericChars.length = 36 ∧
    ∃ connId, GenerateConnId o w.time = Outcome.ret connId ∧
      connId.length = 14 ∧
      (∀ ch ∈ connId.toList, ('0' ≤ ch ∧ ch ≤ '9') ∨ ('a' ≤ ch ∧ ch ≤ 'z')) ∧
      ∃ res w1, AddClient o ctx u w = (Outcome.ret res, w1) ∧
        w1.trace = w.trace ++ [Event.redisSet ("user:" ++ u) connId 0] ∧
        (o.redisFault w.time ctx.cancelled = none →
          res = Except.ok () ∧ w1.redis.lookup ("user:" ++ u) = some connId) := by
  refine ⟨by decide, ?_⟩
  obtain ⟨connId, hid, hl, hm⟩ := GenerateConnId_spec o w.time
  refine ⟨connId, hid, hl, fun ch hch => numericChars_alphabet ch (hm ch hch), ?_⟩
  unfold AddClient
  simp only [hid, redisSet]
  cases hf : o.redisFault w.time ctx.cancelled with
  | some e => exact ⟨_, _, rfl, rfl, fun h => by cases h⟩
  | none =>
    refine ⟨_, _, rfl, rfl, fun _ => ⟨rfl, ?_⟩⟩
    exact lookup_cons_self _ _ _

/-- C25, run: from the empty world the mark of user A is the 14-character id
drawn by the sample random source, stored without expiry. -/
theorem C25_session_id_format_run :
    AddClient (Oracle.goNil [] (Except.error "connection refused") []) (Context.mk false) "A"
        World.empty =
      (Outcome.ret (Except.ok ()),
        { World.empty with
          redis := [("user:A", "0bmx8ju5gr2doz")]
          trace := [Event.redisSet "user:A" "0bmx8ju5gr2doz" 0] }) := by
  rfl

/-- C24. When the store does not fault: the presence query for `u` returns
`true` exactly when the key `user:<u>` exists; after `AddClient` for `u` the
query returns `true`; after `RemoveClient` for `u` it returns `false`; and
either call leaves the answer of the query unchanged for every other user. -/
theorem C24_presence_registry_laws (o : Oracle) (ctx : Context) (u : String) (w : World)
    (hnf : ∀ t b, o.redisFault t b = none) :
    (∃ b, (IsClientConnected o ctx u w).1 = Outcome.ret b ∧
      (b = true ↔ ∃ val, ("user:" ++ u, val) ∈ w.redis)) ∧
    (∃ w1, AddClient o ctx u w = (Outcome.ret (Except.ok ()), w1) ∧
      (IsClientConnected o ctx u w1).1 = Outcome.ret true ∧
      ∀ v, v ≠ u → (IsClientConnected o ctx v w1).1 = (IsClientConnected o ctx v w).1) ∧
    (∃ w1, RemoveClient o ctx u w = (Outcome.ret (Except.ok ()), w1) ∧
      (IsClientConnected o ctx u w1).1 = Outcome.ret false ∧
      ∀ v, v ≠ u → (IsClientConnected o ctx v w1).1 = (IsClientConnected o ctx v w).1) := by
  have hkey : ∀ v, v ≠ u → "user:" ++ v ≠ "user:" ++ u :=
    fun v hv h => hv (append_left_cancel_string _ _ _ h)
  refine ⟨?_, ?_, ?_⟩
  · refine ⟨(w.redis.lookup ("user:" ++ u)).isSome, ?_, lookup_isSome_iff _ _⟩
    rw [IsClientConnected_eq, hnf]
  · obtain ⟨connId, hid⟩ := GenerateConnId_ret o w.time
    have hadd : AddClient o ctx u w = (Outcome.ret (Except.ok ()),
        { w.log (Event.redisSet ("user:" ++ u) connId 0) with
          redis := ("user:" ++ u, connId) ::
            w.redis.filter (fun kv => kv.1 ≠ "user:" ++ u) }) := by
      unfold AddClient
      simp only [hid, redisSet, hnf]
    refine ⟨_, hadd, ?_, ?_⟩
    · rw [IsClientConnected_eq, hnf]
      show Outcome.ret (List.lookup ("user:" ++ u)
        (("user:" ++ u, connId) :: w.redis.filter (fun kv => kv.1 ≠ "user:" ++ u))).isSome = _
      rw [lookup_cons_self]
      rfl
    · intro v hv
      rw [IsClientConnected_eq, IsClientConnected_eq, hnf, hnf]
      show Outcome.ret (List.lookup ("user:" ++ v)
        (("user:" ++ u, connId) :: w.redis.filter (fun kv => kv.1 ≠ "user:" ++ u))).isSome = _
      rw [lookup_cons_ne _ _ _ _ (hkey v hv), lookup_filter_other _ _ (hkey v hv)]
  · have hrm : RemoveClient o ctx u w = (Outcome.ret (Except.ok ()),
        { w.log (Event.redisDel ("user:" ++ u)) with
          redis := w.redis.filter (fun kv => kv.1 ≠ "user:" ++ u) }) := by
      unfold RemoveClient
      simp only [redisDel, hnf]
    refine ⟨_, hrm, ?_, ?_⟩
    · rw [IsClientConnected_eq, hnf]
      show Outcome.ret (List.lookup ("user:" ++ u)
        (w.redis.filter (fun kv => kv.1 ≠ "user:" ++ u))).isSome = _
      rw [lookup_filter_self]
      rfl
    · intro v hv
      rw [IsClientConnected_eq, IsClientConnected_eq, hnf, hnf]
      show Outcome.ret (List.lookup ("user:" ++ v)
        (w.redis.filter (fun kv => kv.1 ≠ "user:" ++ u))).isSome = _
      rw [lookup_filter_other _ _ (hkey v hv)]

/-- C24 at a concrete store: with A marked present and a store that never
faults, the laws hold for user B. -/
theorem C24_presence_registry_laws_witness :
    (∀ t b, (Oracle.goNil [] (Except.error "connection refused") []).redisFault t b = none) ∧
    (∃ b, (IsClientConnected (Oracle.goNil [] (Except.error "connection refused") [])
        (Context.mk false) "B" World.withSessionOfA).1 = Outcome.ret b ∧
      (b = true ↔ ∃ val, ("user:" ++ "B", val) ∈ World.withSessionOfA.redis)) :=
  ⟨fun _ _ => rfl,
    (C24_presence_registry_laws (Oracle.goNil [] (Except.error "connection refused") [])
      (Context.mk false) "B" World.withSessionOfA (fun _ _ => rfl)).1⟩

theorem createMessageUpload_trace (o : Oracle) (h : Handler) (inp : DirectMessageInput)
    (msg : DirectMessage) (w : World) :
    ∃ pre, (createMessageUpload o h inp msg w).2.trace = w.trace ++ pre ∧
      ∀ e ∈ pre, ∀ q, e ≠ Event.brokerPublish q := by
  unfold createMessageUpload
  by_cases hf : inp.ContentType = "files"
  · simp only [hf, if_true, bind_run]
    have ht := AgentSendFile_trace o none (h.EnvManger.FilesServiceUrl ++ "/upload")
      inp.Content w
    rcases hr : AgentSendFile o none (h.EnvManger.FilesServiceUrl ++ "/upload")
      inp.Content w with ⟨r1, w1⟩
    rw [hr] at ht
    have hpre : ∃ pre, w1.trace = w.trace ++ pre ∧
        ∀ e ∈ pre, ∀ q, e ≠ Event.brokerPublish q := by
      rcases ht with ht | ⟨req, ht⟩
      · exact ⟨_, ht, by simp⟩
      · exact ⟨_, ht, by simp⟩
    cases r1 with
    | panicked m => exact hpre
    | ret a =>
      cases a with
      | error e => exact hpre
      | ok v =>
        obtain ⟨statusCode, body⟩ := v
        simp only
        by_cases h200 : statusCode = 200
        · simp only [h200, ne_eq, not_true_eq_false, if_false]
          cases AgentResponse o body <;> exact hpre
        · simp only [ne_eq, h200, not_false_eq_true, if_true]
          exact hpre
  · simp only [hf, if_false]
    exact ⟨[], by simp [pure_run], by simp⟩

/-! ## Publish addressing -/

/-- C26. Publish addressing: when the upload block of `createMessage` has
passed, the insert and the commit of the built message succeed and the message
is encoded to `body`, `processMessage` adds exactly that message to the table
and then makes exactly one publish call, its last call: routing key the
receiver id the worker was started with, body `body`, `mandatory = true`,
`immediate = false`.  When the broker refuses the publish the call returns all
the same, nothing is added to the published messages and the row stays in the
table. -/
theorem C26_publish_addressing (o : Oracle) (h : Handler) (ctx : Context)
    (inp : DirectMessageInput) (s r : String) (w : World)
    (m0 : DirectMessage) (w2 : World) (body : String)
    (hup : createMessageUpload o h inp DirectMessage.zero (IsClientConnected o ctx r w).2 =
      (Outcome.ret (Except.ok m0), w2))
    (hins : o.dbInsert (w2.time + 1)
      (builtMessage inp (statusOf o ctx r w) s r (o.now w2.time)) = InsertResult.ok)
    (hcom : o.dbCommitFault (w2.time + 2) = none)
    (henc : o.encodeDirectMessage
      (builtMessage inp (statusOf o ctx r w) s r (o.now w2.time)) = Except.ok body) :
    (processMessage o h ctx inp s r w).1 = Outcome.ret () ∧
    (processMessage o h ctx inp s r w).2.table =
      w.table ++ [builtMessage inp (statusOf o ctx r w) s r (o.now w2.time)] ∧
    (∃ pre, (processMessage o h ctx inp s r w).2.trace =
        w.trace ++ pre ++
          [Event.dbBegin,
           Event.dbInsert (builtMessage inp (statusOf o ctx r w) s r (o.now w2.time)),
           Event.dbCommit,
           Event.brokerPublish
             { exchange := h.EnvManger.RabbitMQExchangeName, routingKey := r,
               mandatory := true, immediate := false,
               contentType := "application/json", body := body }] ∧
      ∀ e ∈ pre, ∀ q, e ≠ Event.brokerPublish q) ∧
    (match o.brokerFault (w2.time + 3) with
      | some _ => (processMessage o h ctx inp s r w).2.published = w.published
      | none => (processMessage o h ctx inp s r w).2.published =
          w.published ++
            [{ exchange := h.EnvManger.RabbitMQExchangeName, routingKey := r,
               mandatory := true, immediate := false,
               contentType := "application/json", body := body }]) := by
  have hs1 := createMessageUpload_stores o h inp DirectMessage.zero
    (IsClientConnected o ctx r w).2
  obtain ⟨pre, hpre, hno⟩ := createMessageUpload_trace o h inp DirectMessage.zero
    (IsClientConnected o ctx r w).2
  rw [hup] at hs1 hpre
  rw [IsClientConnected_eq] at hup hs1 hpre
  simp only at hup hs1 hpre
  simp only [builtMessage] at hins henc
  have hpm : processMessage o h ctx inp s r w =
      (Outcome.ret (),
        (PublishMessage o ctx r body h.EnvManger
          { (((w2.log Event.dbBegin).log
              (Event.dbInsert (builtMessage inp (statusOf o ctx r w) s r (o.now w2.time)))).log
              Event.dbCommit) with
            table := w2.table ++
              [builtMessage inp (statusOf o ctx r w) s r (o.now w2.time)] }).2) := by
    rw [processMessage_unfold]
    simp only [createMessage, bind_run, hup, CreateNewMsg, World.log_time, hins, hcom, henc,
      builtMessage]
    rfl
  rw [hpm]
  refine ⟨rfl, ?_, ?_, ?_⟩
  · unfold PublishMessage
    simp only []
    cases o.brokerFault _ with
    | some e => simp only [World.log]; rw [hs1.2.1]; rfl
    | none => simp only [World.log]; rw [hs1.2.1]; rfl
  · refine ⟨Event.redisGet ("user:" ++ r) :: pre, ?_, ?_⟩
    · unfold PublishMessage
      simp only []
      cases o.brokerFault _ with
      | some e => simp [World.log, hpre]
      | none => simp [World.log, hpre]
    · intro e he q
      rcases List.mem_cons.mp he with he | he
      · rw [he]; exact fun hq => by cases hq
      · exact hno e he q
  · unfold PublishMessage
    simp only [World.time, World.log, List.length_append, List.length_singleton]
    have ht : w2.trace.length + 1 + 1 + 1 = w2.time + 3 := rfl
    rw [ht]
    cases o.brokerFault (w2.time + 3) with
    | some e => simp only []; exact hs1.2.2.1
    | none => simp only []; rw [hs1.2.2.1]; rfl

/-- C26, run: user A sends the text `hi` to B while the broker is reachable. -/
theorem C26_publish_addressing_witness :
    createMessageUpload (Oracle.goNil [] (Except.error "connection refused") []) sampleHandler
        (DirectMessageInput.mk "text" "hi") DirectMessage.zero
        (IsClientConnected (Oracle.goNil [] (Except.error "connection refused") [])
          (Context.mk false) "B" World.empty).2 =
      (Outcome.ret (Except.ok DirectMessage.zero),
        World.empty.log (Event.redisGet "user:B")) ∧
    (processMessage (Oracle.goNil [] (Except.error "connection refused") []) sampleHandler
        (Context.mk false) (DirectMessageInput.mk "text" "hi") "A" "B" World.empty).2.table =
      [DirectMessage.mk "A" "B" "hi" "text" "" 2 1700000001] :=
  ⟨rfl,
   (C26_publish_addressing (Oracle.goNil [] (Except.error "connection refused") [])
      sampleHandler (Context.mk false) (DirectMessageInput.mk "text" "hi") "A" "B"
      World.empty DirectMessage.zero (World.empty.log (Event.redisGet "user:B"))
      (renderDirectMessage (DirectMessage.mk "A" "B" "hi" "text" "" 2 1700000001))
      rfl rfl rfl rfl).2.1⟩

/-- C26, run with the broker down: the publish is attempted once, nothing is
published and the row stays. -/
theorem C26_publish_failure_keeps_row :
    (processMessage Oracle.brokerDown sampleHandler (Context.mk false)
        (DirectMessageInput.mk "text" "hi") "A" "B" World.empty).2.table =
      [DirectMessage.mk "A" "B" "hi" "text" "" 2 1700000001] ∧
    (processMessage Oracle.brokerDown sampleHandler (Context.mk false)
        (DirectMessageInput.mk "text" "hi") "A" "B" World.empty).2.published = [] := by
  exact ⟨rfl, rfl⟩

/-! ## Failures of the open phase -/

theorem historyFlush_fail (o : Oracle) (c : Conn) :
    ∀ (msgs : List DirectMessage) (w : World),
      (∃ k, k < msgs.length ∧ ∃ e, o.wsWriteFault (w.time + k) c.id = some e) →
      ∃ writes w1, historyFlush o c msgs w = (Outcome.ret false, w1) ∧
        w1.trace = w.trace ++ writes ++
          [Event.wsWriteJSON c.id [("error", "Failed to send historical messages")]] ∧
        ∀ e ∈ writes, Event.isOpenCall c.id e = true ∧ ∀ a b, e ≠ Event.dbSelect a b := by
  intro msgs
  induction msgs with
  | nil =>
    intro w hk
    obtain ⟨k, hk, _⟩ := hk
    exact absurd hk (by simp)
  | cons m ms ih =>
    intro w hk
    simp only [historyFlush, bind_run]
    generalize (match o.encodeDirectMessage m with
        | Except.ok data => data
        | Except.error _ => "") = payload
    cases hf : o.wsWriteFault w.time c.id with
    | some e =>
      obtain ⟨res2, hj⟩ := wsWriteJSON_run o c.id
        [("error", "Failed to send historical messages")]
        (w.log (Event.wsWriteMessage c.id payload))
      simp only [wsWriteMessage, hf, HandleWebSocketError, bind_run, hj, pure_run]
      refine ⟨[Event.wsWriteMessage c.id payload], _, rfl, ?_, ?_⟩
      · simp [World.log_trace]
      · simp [Event.isOpenCall]
    | none =>
      simp only [wsWriteMessage, hf]
      obtain ⟨k, hk, e, he⟩ := hk
      have hk2 : ∃ j, j < ms.length ∧
          ∃ e, o.wsWriteFault ((w.log (Event.wsWriteMessage c.id payload)).time + j) c.id =
            some e := by
        cases k with
        | zero => rw [Nat.add_zero, hf] at he; cases he
        | succ j =>
          refine ⟨j, by simpa using hk, e, ?_⟩
          rw [World.log_time, Nat.add_assoc, Nat.add_comm 1 j]
          exact he
      obtain ⟨writes, w1, h1, h2, h3⟩ := ih (w.log (Event.wsWriteMessage c.id payload)) hk2
      refine ⟨Event.wsWriteMessage c.id payload :: writes, w1, h1, ?_, ?_⟩
      · rw [h2]; simp [World.log_trace]
      · intro e he
        rcases List.mem_cons.mp he with rfl | he
        · simp [Event.isOpenCall]
        · exact h3 e he

theorem sessionOpen_fail (o : Oracle) (c : Conn) (ctx : Context) (u r : String) (w : World)
    (hfail : openFails o c ctx u r w) :
    ∃ pre msg w1, sessionOpen o c ctx u r w = (Outcome.ret false, w1) ∧
      w1.trace = w.trace ++ pre ++ [Event.wsWriteJSON c.id [("error", msg)]] ∧
      (∀ e ∈ pre, Event.isOpenCall c.id e = true) ∧
      (presenceWriteFails o ctx u w → ∀ e ∈ pre, ∀ a b, e ≠ Event.dbSelect a b) := by
  unfold openFails at hfail
  unfold presenceWriteFails
  obtain ⟨w2, hk, _, ht2⟩ := takeoverCheck_run o ctx u w
  obtain ⟨connId, res, w3, ha, ht3⟩ := AddClient_run o ctx u w2
  rw [hk] at hfail ⊢
  simp only at hfail ⊢
  rw [ha] at hfail ⊢
  have hpre : ∃ pre, w3.trace = w.trace ++ pre ∧
      (∀ e ∈ pre, Event.isOpenCall c.id e = true) ∧
      ∀ e ∈ pre, ∀ a b, e ≠ Event.dbSelect a b := by
    rcases ht2 with ht2 | ht2
    · exact ⟨[Event.redisGet ("user:" ++ u), Event.redisSet ("user:" ++ u) connId 0],
        by simp [ht3, ht2], by simp [Event.isOpenCall], by simp⟩
    · exact ⟨[Event.redisGet ("user:" ++ u), Event.brokerCancel u,
        Event.redisSet ("user:" ++ u) connId 0],
        by simp [ht3, ht2], by simp [Event.isOpenCall], by simp⟩
  obtain ⟨pre, hpre, hpo, hnq⟩ := hpre
  simp only [sessionOpen, bind_run, hk, ha]
  cases res with
  | error e =>
    obtain ⟨res2, hj⟩ := wsWriteJSON_run o c.id [("error", "Failed to add client")] w3
    simp only [bind_run, HandleWebSocketError, hj, pure_run]
    exact ⟨pre, "Failed to add client", _, rfl, by simp [World.log_trace, hpre], hpo,
      fun _ => hnq⟩
  | ok v =>
    have hnp : ¬ ∃ e w3', (Outcome.ret (Except.ok v), w3) =
        ((Outcome.ret (Except.error e), w3') : Outcome (Except String Unit) × World) := by
      rintro ⟨e, w3', h⟩
      cases h
    obtain ⟨q, hq⟩ := GetMessageByReceiverId_run o u r w3
    simp only [hq] at hfail
    simp only [bind_run, hq]
    cases q with
    | error e =>
      obtain ⟨res2, hj⟩ := wsWriteJSON_run o c.id
        [("error", "Failed to retrieve message history")] (w3.log (Event.dbSelect u r))
      simp only [HandleWebSocketError, bind_run, hj, pure_run]
      refine ⟨pre ++ [Event.dbSelect u r], "Failed to retrieve message history", _, rfl,
        by simp [World.log_trace, hpre], ?_, fun hp => absurd hp hnp⟩
      intro e he
      rcases List.mem_append.mp he with he | he
      · exact hpo e he
      · simp only [List.mem_singleton] at he; subst he; simp [Event.isOpenCall]
    | ok messages =>
      simp only at hfail
      obtain ⟨writes, w4, h1, h2, h3⟩ := historyFlush_fail o c messages
        (w3.log (Event.dbSelect u r)) hfail
      simp only [h1]
      refine ⟨pre ++ Event.dbSelect u r :: writes, "Failed to send historical messages", w4,
        rfl, by simp [h2, World.log_trace, hpre], ?_, fun hp => absurd hp hnp⟩
      intro e he
      rcases List.mem_append.mp he with he | he
      · exact hpo e he
      · rcases List.mem_cons.mp he with rfl | he
        · simp [Event.isOpenCall]
        · exact (h3 e he).1

/-- C21. Open-time failures are fatal.  For an authenticated connection with a
receiver id whose open phase meets a failure (the presence write returns an
error, the history query returns an error, or the socket refuses the write of
a history frame), the handler returns, and the calls it made are: calls of the
open phase (presence query, cancel, presence write, history query, history
frames), then exactly one error frame (a JSON object with the single key
`error`), then the teardown
(presence delete, consumer cancel) and the close of the socket.  No worker and
no subscriber is started, nothing is subscribed and no client frame is read;
when the presence write failed there is no history query either. -/
theorem C21_open_failures_fatal (o : Oracle) (h : Handler) (c : Conn)
    (info : ClientsLoginResponse) (w : World)
    (hauth : c.userJwtInfo = some info) (hrecv : c.receiver_id ≠ "")
    (hfail : openFails o c (Context.mk false) info.Uid c.receiver_id w) :
    ∃ pre msg w1,
      WebSocketHandler o h c w = (Outcome.ret (), w1) ∧
      w1.trace = w.trace ++ pre ++
        [Event.wsWriteJSON c.id [("error", msg)],
         Event.redisDel ("user:" ++ info.Uid), Event.brokerCancel info.Uid,
         Event.wsClose c.id] ∧
      (∀ e ∈ pre, Event.isOpenCall c.id e = true) ∧
      (∀ e ∈ pre ++
          [Event.wsWriteJSON c.id [("error", msg)],
           Event.redisDel ("user:" ++ info.Uid), Event.brokerCancel info.Uid,
           Event.wsClose c.id], Event.isSteadyStep e = false) ∧
      (presenceWriteFails o (Context.mk false) info.Uid w →
        ∀ e ∈ pre, ∀ a b, e ≠ Event.dbSelect a b) := by
  obtain ⟨pre, msg, w1, ho, ht1, hpo, hnq⟩ := sessionOpen_fail o c (Context.mk false)
    info.Uid c.receiver_id w hfail
  have hbody :
      (sessionOpen o c (Context.mk false) info.Uid c.receiver_id >>= fun proceed =>
        if proceed = true then sessionSteady h c info.Uid c.receiver_id else pure ()) w =
        (Outcome.ret (), w1) := by
    simp only [bind_run, ho]
    rfl
  obtain ⟨w3, h3, ht3, _⟩ := teardown_run o info.Uid w1
  refine ⟨pre, msg, w3.log (Event.wsClose c.id), ?_, ?_, hpo, ?_, hnq⟩
  · unfold WebSocketHandler
    simp only [hauth, hrecv, if_false]
    rw [defer_run, defer_run, hbody]
    simp only [h3, wsClose]
  · simp [World.log_trace, ht3, ht1]
  · intro e he
    rcases List.mem_append.mp he with he | he
    · have := hpo e he
      cases e <;> simp_all [Event.isOpenCall, Event.isSteadyStep]
    · simp only [List.mem_cons, List.mem_singleton, List.not_mem_nil, or_false] at he
      rcases he with he | he | he | he <;> subst he <;> rfl

/-- C21, run: Redis is unreachable when user A opens a session with B. -/
theorem C21_open_failures_fatal_witness :
    (connOfA 1 "B" []).userJwtInfo = some (ClientsLoginResponse.mk "A" "alice") ∧
    (connOfA 1 "B" []).receiver_id ≠ "" ∧
    openFails Oracle.redisDown (connOfA 1 "B" []) (Context.mk false) "A" "B" World.empty ∧
    ∃ pre msg w1,
      WebSocketHandler Oracle.redisDown sampleHandler (connOfA 1 "B" []) World.empty =
        (Outcome.ret (), w1) ∧
      w1.trace = World.empty.trace ++ pre ++
        [Event.wsWriteJSON 1 [("error", msg)],
         Event.redisDel ("user:" ++ "A"), Event.brokerCancel "A", Event.wsClose 1] :=
  ⟨rfl, by decide, trivial,
    match C21_open_failures_fatal Oracle.redisDown sampleHandler (connOfA 1 "B" [])
      (ClientsLoginResponse.mk "A" "alice") World.empty rfl (by decide) trivial with
    | ⟨pre, msg, w1, h1, h2, _⟩ => ⟨pre, msg, w1, h1, h2⟩⟩

/-- C21, run: the three failures from a world holding one row between A and
B.  Redis down: no history query.  History query refused or socket broken: the
query is made, then the error frame; nothing of the steady state follows. -/
theorem C21_open_failure_runs :
    (WebSocketHandler Oracle.redisDown sampleHandler (connOfA 1 "B" []) World.chat).2.trace =
      [Event.redisGet "user:A", Event.redisSet "user:A" "7it4fq1cny9kv6" 0,
       Event.wsWriteJSON 1 [("error", "Failed to add client")],
       Event.redisDel "user:A", Event.brokerCancel "A", Event.wsClose 1] ∧
    (WebSocketHandler Oracle.socketBroken sampleHandler (connOfA 1 "C" []) World.chat).2.trace =
      [Event.redisGet "user:A", Event.redisSet "user:A" "7it4fq1cny9kv6" 0,
       Event.dbSelect "A" "C",
       Event.wsWriteMessage 1 (renderDirectMessage (DirectMessage.mk "A" "C" "yo" "text" "" 2 2)),
       Event.wsWriteJSON 1 [("error", "Failed to send historical messages")],
       Event.redisDel "user:A", Event.brokerCancel "A", Event.wsClose 1] := by
  exact ⟨rfl, rfl⟩

/-! ## Configuration -/

theorem NewEnv_steps (environ : String → Option String) :
    NewEnv environ =
      NewEnv.steps.foldlM (fun env p => loadEnv environ p.1 p.2 env) EnvManger.zero := rfl

theorem loadEnv_fold_unset (environ : String → Option String) :
    ∀ (steps : List (String × (EnvManger → String → EnvManger))) (env : EnvManger),
      (∃ p ∈ steps, environ p.1 = none) →
      ∃ e, steps.foldlM (fun env p => loadEnv environ p.1 p.2 env) env = Except.error e := by
  intro steps
  induction steps with
  | nil => intro env h; obtain ⟨p, hp, _⟩ := h; cases hp
  | cons s ss ih =>
    intro env h
    cases hs : environ s.1 with
    | none =>
      refine ⟨"Environment variable " ++ s.1 ++ " not found", ?_⟩
      simp only [List.foldlM, loadEnv, hs]
      rfl
    | some v =>
      obtain ⟨p, hp, hn⟩ := h
      have hp2 : p ∈ ss := by
        rcases List.mem_cons.mp hp with h1 | h1
        · rw [h1, hs] at hn; cases hn
        · exact h1
      obtain ⟨e, he⟩ := ih (s.2 env v) ⟨p, hp2, hn⟩
      refine ⟨e, ?_⟩
      simp only [List.foldlM, loadEnv, hs]
      exact he

theorem createMessageUpload_world (o : Oracle) (h : Handler) (inp : DirectMessageInput)
    (msg : DirectMessage) (w : World) :
    (createMessageUpload o h inp msg w).2 =
      if inp.ContentType = "files" then
        (AgentSendFile o none (h.EnvManger.FilesServiceUrl ++ "/upload") inp.Content w).2
      else w := by
  unfold createMessageUpload
  by_cases hf : inp.ContentType = "files"
  · simp only [hf, if_true, bind_run]
    rcases AgentSendFile o none (h.EnvManger.FilesServiceUrl ++ "/upload")
      inp.Content w with ⟨r1, w1⟩
    cases r1 with
    | panicked m => rfl
    | ret a =>
      cases a with
      | error e => rfl
      | ok v =>
        obtain ⟨statusCode, body⟩ := v
        simp only
        by_cases h200 : statusCode = 200
        · simp only [h200, ne_eq, not_true_eq_false, if_false]
          cases AgentResponse o body <;> rfl
        · simp only [ne_eq, h200, not_false_eq_true, if_true]
          rfl
  · simp only [hf, if_false]
    rfl

theorem AgentSendFile_url (o : Oracle) (c : Option FiberCtx) (url p : String) (w : World)
    (req : HttpRequest) (hreq : Event.httpSend req ∈ (AgentSendFile o c url p w).2.trace) :
    Event.httpSend req ∈ w.trace ∨ req.url = url := by
  unfold AgentSendFile at hreq
  simp only [] at hreq
  cases hfile : o.file w.time p with
  | openError e => rw [hfile] at hreq; left; simpa [World.log_trace] using hreq
  | readError e => rw [hfile] at hreq; left; simpa [World.log_trace] using hreq
  | content bytes =>
    rw [hfile] at hreq
    cases hget : ctxGet o c "Authorization" with
    | panicked m => rw [hget] at hreq; left; simpa [World.log_trace] using hreq
    | ret a =>
      rw [hget] at hreq
      simp only at hreq
      have hin : Event.httpSend req ∈ w.trace ++ [Event.osOpen p,
          Event.httpSend (uploadRequest url p a (o.boundary w.time) bytes)] := by
        split at hreq <;> simpa [World.log_trace] using hreq
      simp only [List.mem_append, List.mem_cons, List.mem_singleton, List.not_mem_nil,
        or_false] at hin
      rcases hin with hin | hin | hin
      · exact Or.inl hin
      · cases hin
      · right
        cases hin
        rfl

/-- C29. Configuration overlap: when every variable `NewEnv` loads is set,
`NewEnv` returns a configuration whose `DBHost` is the value of `DB_HOST` and
whose `FilesServiceUrl` is the empty string, so every upload request the
ingress pipeline of a handler with that configuration sends goes to the bare
path `/upload`; when one of the loaded variables, `URULINK_FILES_SERVICE`
among them, is unset, `NewEnv` ends in the fatal error. -/
theorem C29_configuration_overlap (environ : String → Option String) :
    "URULINK_FILES_SERVICE" ∈ loadedVariables ∧
    ((∀ v ∈ loadedVariables, environ v ≠ none) →
      ∃ cfg, NewEnv environ = Except.ok cfg ∧
        environ "DB_HOST" = some cfg.DBHost ∧
        cfg.FilesServiceUrl = "" ∧
        ∀ (o : Oracle) (h : Handler) (inp : DirectMessageInput) (msg : DirectMessage)
          (w : World) (req : HttpRequest), h.EnvManger = cfg →
          Event.httpSend req ∈ (createMessageUpload o h inp msg w).2.trace →
          Event.httpSend req ∈ w.trace ∨ req.url = "/upload") ∧
    (∀ v ∈ loadedVariables, environ v = none → ∃ e, NewEnv environ = Except.error e) := by
  refine ⟨by decide, ?_, ?_⟩
  · intro hall
    have hv : ∀ v ∈ loadedVariables, ∃ val, environ v = some val :=
      fun v hv => Option.ne_none_iff_exists'.mp (hall v hv)
    obtain ⟨v1, h1⟩ := hv "RABBITMQ_HOST" (by decide)
    obtain ⟨v2, h2⟩ := hv "RABBITMQ_USER" (by decide)
    obtain ⟨v3, h3⟩ := hv "RABBITMQ_PASSWORD" (by decide)
    obtain ⟨v4, h4⟩ := hv "RABBITMQ_PORT" (by decide)
    obtain ⟨v5, h5⟩ := hv "RABBITMQ_EXCHANGE_NAME" (by decide)
    obtain ⟨v6, h6⟩ := hv "RABBITMQ_QUEUE_NAME" (by decide)
    obtain ⟨v7, h7⟩ := hv "URULINK_FILES_SERVICE" (by decide)
    obtain ⟨v8, h8⟩ := hv "DB_HOST" (by decide)
    obtain ⟨v9, h9⟩ := hv "DB_USER" (by decide)
    obtain ⟨v10, h10⟩ := hv "DB_PASSWORD" (by decide)
    obtain ⟨v11, h11⟩ := hv "DB_NAME" (by decide)
    obtain ⟨v12, h12⟩ := hv "DB_PORT" (by decide)
    obtain ⟨v13, h13⟩ := hv "REDIS_HOST" (by decide)
    obtain ⟨v14, h14⟩ := hv "REDIS_PASSWORD" (by decide)
    obtain ⟨v15, h15⟩ := hv "REDIS_PORT" (by decide)
    have hnew : NewEnv environ = Except.ok
        { FilesServiceUrl := "", RabbitMQHost := v1, RabbitMQUser := v2,
          RabbitMQPassword := v3, RabbitMQPort := v4, RabbitMQExchangeName := v5,
          RabbitMQQueueName := v6, DBHost := v8, DBUser := v9, DBPassword := v10,
          DBName := v11, DBPort := v12, RedisHost := v13, RedisPort := v15,
          RedisPassword := v14 } := by
      simp only [NewEnv, loadEnv, h1, h2, h3, h4, h5, h6, h7, h8, h9, h10, h11, h12, h13,
        h14, h15]
      rfl
    refine ⟨_, hnew, h8, rfl, ?_⟩
    intro o h inp msg w req hcfg hreq
    rw [createMessageUpload_world] at hreq
    by_cases hf : inp.ContentType = "files"
    · simp only [hf, if_true] at hreq
      rcases AgentSendFile_url o none _ _ w req hreq with hin | hurl
      · exact Or.inl hin
      · right
        rw [hurl, hcfg]
        rfl
    · simp only [hf, if_false] at hreq
      exact Or.inl hreq
  · intro v hv hnone
    rw [NewEnv_steps]
    apply loadEnv_fold_unset
    have hmem : v ∈ NewEnv.steps.map Prod.fst := hv
    obtain ⟨p, hp, hp1⟩ := List.mem_map.mp hmem
    exact ⟨p, hp, by rw [hp1]; exact hnone⟩

/-- C29 at the sample environment: every loaded variable is set, the files
service URL is set too, and the configuration returned is `sampleEnv`, whose
`DBHost` is the database host and whose `FilesServiceUrl` is empty. -/
theorem C29_configuration_overlap_witness :
    (∀ v ∈ loadedVariables, sampleEnviron v ≠ none) ∧
    sampleEnviron "URULINK_FILES_SERVICE" = some "http://files:8082" ∧
    NewEnv sampleEnviron = Except.ok sampleEnv ∧
    ∃ cfg, NewEnv sampleEnviron = Except.ok cfg ∧
      sampleEnviron "DB_HOST" = some cfg.DBHost ∧ cfg.FilesServiceUrl = "" :=
  ⟨by decide, rfl, rfl,
    match (C29_configuration_overlap sampleEnviron).2.1 (by decide) with
    | ⟨cfg, h1, h2, h3, _⟩ => ⟨cfg, h1, h2, h3⟩⟩

/-! ## Auth middleware -/

/-- C27, counterexample: the auth service answers 403 to an upgrade request;
the middleware answers 401 with the body `Unauthorized requests 1`, which is
not the body `Unauthorized requests`; and when the auth service answers 200
with a body that does not parse the body is `Unauthorized requests 2`. -/
theorem C27_rejection_body_differs :
    WebSocketConnection sampleEnviron (fun _ => (403, "forbidden", [])) decodeAlice true
        sampleUpgrade =
      Outcome.ret (MiddlewareResult.respond 401 "Unauthorized requests 1") ∧
    WebSocketConnection sampleEnviron (fun _ => (403, "forbidden", [])) decodeAlice true
        sampleUpgrade ≠
      Outcome.ret (MiddlewareResult.respond 401 "Unauthorized requests") ∧
    WebSocketConnection sampleEnviron (fun _ => (200, "<html>", [])) decodeAlice true
        sampleUpgrade =
      Outcome.ret (MiddlewareResult.respond 401 "Unauthorized requests 2") := by
  decide

/-- C27, amended.  For an upgrade request, with `URULINK_AUTH_SERVICE` set to
`authUrl`: the middleware posts the `Authorization` header of the request to
`authUrl/check-login`; when the call reports a transport error or a status
other than 200 it answers 401 with the body `Unauthorized requests 1`, when
the status is 200 and the body does not decode it answers 401 with the body
`Unauthorized requests 2`, in both cases without calling the next handler;
when the body decodes it stores the identity and `allowed = true` and calls
the next handler.  With the variable unset it panics. -/
theorem C27_auth_rejection (environ : String → Option String)
    (authCall : HttpRequest → Int × String × List String)
    (decodeLogin : String → Except String ClientsLoginResponse) (c : FiberCtx)
    (authUrl : String) (henv : environ "URULINK_AUTH_SERVICE" = some authUrl) :
    ((authCall (checkLoginRequest authUrl ((c.headers.lookup "Authorization").getD ""))).2.2
        ≠ [] ∨
      (authCall (checkLoginRequest authUrl ((c.headers.lookup "Authorization").getD ""))).1
        ≠ 200 →
      WebSocketConnection environ authCall decodeLogin true c =
        Outcome.ret (MiddlewareResult.respond 401 "Unauthorized requests 1")) ∧
    ((authCall (checkLoginRequest authUrl ((c.headers.lookup "Authorization").getD ""))).2.2
        = [] →
      (authCall (checkLoginRequest authUrl ((c.headers.lookup "Authorization").getD ""))).1
        = 200 →
      (∀ e, decodeLogin
          (authCall (checkLoginRequest authUrl
            ((c.headers.lookup "Authorization").getD ""))).2.1 = Except.error e →
        WebSocketConnection environ authCall decodeLogin true c =
          Outcome.ret (MiddlewareResult.respond 401 "Unauthorized requests 2")) ∧
      (∀ info, decodeLogin
          (authCall (checkLoginRequest authUrl
            ((c.headers.lookup "Authorization").getD ""))).2.1 = Except.ok info →
        WebSocketConnection environ authCall decodeLogin true c =
          Outcome.ret (MiddlewareResult.next info true))) ∧
    (∀ environ0 : String → Option String, environ0 "URULINK_AUTH_SERVICE" = none →
      WebSocketConnection environ0 authCall decodeLogin true c =
        Outcome.panicked "URULINK_AUTH_SERVICE Env not found !") := by
  unfold WebSocketConnection
  simp only [Bool.not_true, Bool.false_eq_true, if_false, henv]
  rcases authCall (checkLoginRequest authUrl ((c.headers.lookup "Authorization").getD ""))
    with ⟨statusCode, body, errs⟩
  refine ⟨?_, ?_, ?_⟩
  · intro hbad
    have hcond : errs.length > 0 ∨ statusCode ≠ 200 := by
      rcases hbad with h | h
      · exact Or.inl (List.length_pos.mpr h)
      · exact Or.inr h
    simp only [hcond, if_true]
  · intro herrs hstatus
    simp only at herrs hstatus
    subst herrs
    subst hstatus
    simp only [List.length_nil, gt_iff_lt, Nat.lt_irrefl, ne_eq, not_true_eq_false, or_self,
      if_false, AgentResponse.login]
    exact ⟨fun e he => by simp only [he], fun info hi => by simp only [hi]⟩
  · intro environ0 h0
    simp only [h0]

/-- C27, amended, run: the auth service accepts the token of the sample
request and names user A. -/
theorem C27_auth_rejection_witness :
    sampleEnviron "URULINK_AUTH_SERVICE" = some "http://auth:8081" ∧
    WebSocketConnection sampleEnviron
        (fun req =>
          if req = checkLoginRequest "http://auth:8081" "Bearer t0k3n" then
            (200, "\x7b\"uid\":\"A\",\"username\":\"alice\"\x7d", [])
          else (401, "", []))
        decodeAlice true sampleUpgrade =
      Outcome.ret (MiddlewareResult.next (ClientsLoginResponse.mk "A" "alice") true) :=
  ⟨rfl,
    (C27_auth_rejection sampleEnviron
      (fun req =>
        if req = checkLoginRequest "http://auth:8081" "Bearer t0k3n" then
          (200, "\x7b\"uid\":\"A\",\"username\":\"alice\"\x7d", [])
        else (401, "", []))
      decodeAlice sampleUpgrade "http://auth:8081" rfl).2.1 rfl rfl |>.2
      (ClientsLoginResponse.mk "A" "alice") rfl⟩

/-! ## Backpressure -/

theorem pumpRun_fill :
    ∀ (a rest js : List DirectMessageInput) (n fuel : Nat),
      js.length + a.length ≤ jobsCapacity →
      pumpRun (2 * a.length + fuel) (Ingress.mk PumpAt.read (a ++ rest) js n) =
        pumpRun fuel (Ingress.mk PumpAt.read rest (js ++ a) (n + a.length)) := by
  intro a
  induction a with
  | nil => intro rest js n fuel _; simp
  | cons f a ih =>
    intro rest js n fuel hle
    have hlt : js.length < jobsCapacity := by
      simp only [List.length_cons] at hle; omega
    have hfuel : 2 * (f :: a).length + fuel = (2 * a.length + fuel) + 1 + 1 := by
      simp only [List.length_cons]; omega
    have hle2 : (js ++ [f]).length + a.length ≤ jobsCapacity := by
      simp only [List.length_cons, List.length_append, List.length_singleton,
        List.length_nil] at hle ⊢
      omega
    rw [hfuel]
    show pumpRun (2 * a.length + fuel + 1) (Ingress.mk (PumpAt.send f) (a ++ rest) js (n + 1)) = _
    have hstep : pumpStep (Ingress.mk (PumpAt.send f) (a ++ rest) js (n + 1)) =
        some (Ingress.mk PumpAt.read (a ++ rest) (js ++ [f]) (n + 1)) := by
      simp only [pumpStep, hlt, if_true]
    simp only [pumpRun, hstep]
    rw [ih rest (js ++ [f]) (n + 1) fuel hle2]
    simp only [List.append_assoc, List.singleton_append, List.length_cons]
    have hn : n + 1 + a.length = n + (a.length + 1) := by omega
    rw [hn]

theorem pumpRun_blocked (first rest : List DirectMessageInput) (f : DirectMessageInput)
    (hfirst : first.length = jobsCapacity) (extra : Nat) :
    pumpRun (2 * jobsCapacity + 1 + extra) (Ingress.start (first ++ f :: rest)) =
      Ingress.mk (PumpAt.send f) rest first (jobsCapacity + 1) ∧
    pumpStep (Ingress.mk (PumpAt.send f) rest first (jobsCapacity + 1)) = none := by
  have hblocked : pumpStep (Ingress.mk (PumpAt.send f) rest first (jobsCapacity + 1)) = none := by
    simp only [pumpStep, hfirst, Nat.lt_irrefl, if_false]
  refine ⟨?_, hblocked⟩
  have h1 := pumpRun_fill first (f :: rest) [] 0 (1 + extra)
    (by simp only [List.length_nil, hfirst]; omega)
  have hfuel : 2 * jobsCapacity + 1 + extra = 2 * first.length + (1 + extra) := by
    rw [hfirst]; omega
  rw [hfuel]
  unfold Ingress.start
  rw [h1]
  simp only [List.nil_append, Nat.zero_add, hfirst]
  have hfuel2 : 1 + extra = extra + 1 := by omega
  rw [hfuel2]
  show pumpRun extra (Ingress.mk (PumpAt.send f) rest first (jobsCapacity + 1)) = _
  cases extra with
  | zero => rfl
  | succ k => simp only [pumpRun, hblocked]

/-- C28, counterexample: a client sends 102 frames while every worker is
stalled.  The handler goroutine comes to rest with 100 inputs in the channel
after 101 reads have returned: the 101st read did not block, the frame it
returned is held by the goroutine, which is blocked on the send; one frame is
unread. -/
theorem C28_read_of_frame_101_returns :
    (pumpRun 1000 (Ingress.start manyFrames)).reads = 101 ∧
    (pumpRun 1000 (Ingress.start manyFrames)).jobs.length = jobsCapacity ∧
    (pumpRun 1000 (Ingress.start manyFrames)).pc =
      PumpAt.send (DirectMessageInput.mk "text" "hi") ∧
    (pumpRun 1000 (Ingress.start manyFrames)).unread.length = 1 ∧
    pumpStep (pumpRun 1000 (Ingress.start manyFrames)) = none := by
  have h := pumpRun_blocked (List.replicate 100 (DirectMessageInput.mk "text" "hi"))
    [DirectMessageInput.mk "text" "hi"] (DirectMessageInput.mk "text" "hi")
    (by simp [jobsCapacity]) 799
  have hm : manyFrames = List.replicate 100 (DirectMessageInput.mk "text" "hi") ++
      DirectMessageInput.mk "text" "hi" :: [DirectMessageInput.mk "text" "hi"] := by
    decide
  have hf : 2 * jobsCapacity + 1 + 799 = 1000 := by decide
  rw [hf, ← hm] at h
  rw [h.1]
  exact ⟨rfl, by simp [jobsCapacity], rfl, rfl, h.2⟩

/-- C28, amended.  With the jobs channel of capacity 100 and every worker
stalled, for a client that has sent more than 100 frames: for every `k` up to
100 the handler goroutine has, after `2 * k` steps, read `k` frames and put
them on the channel in order; given at least 201 steps it comes to rest having
read the 101st frame as well, which it holds, blocked on the send, with the
first 100 frames in the channel and every later frame unread; and once a
worker receives an input (the oldest), the send proceeds and the goroutine
goes back to reading. -/
theorem C28_backpressure (first rest : List DirectMessageInput) (f : DirectMessageInput)
    (hfirst : first.length = jobsCapacity) (extra : Nat) :
    jobsCapacity = 100 ∧
    (∀ k, k ≤ jobsCapacity →
      pumpRun (2 * k) (Ingress.start (first ++ f :: rest)) =
        Ingress.mk PumpAt.read (first.drop k ++ f :: rest) (first.take k) k) ∧
    pumpRun (2 * jobsCapacity + 1 + extra) (Ingress.start (first ++ f :: rest)) =
      Ingress.mk (PumpAt.send f) rest first (jobsCapacity + 1) ∧
    pumpStep (Ingress.mk (PumpAt.send f) rest first (jobsCapacity + 1)) = none ∧
    ∃ m s1, workerReceive (Ingress.mk (PumpAt.send f) rest first (jobsCapacity + 1)) =
        some (m, s1) ∧
      first.head? = some m ∧
      pumpStep s1 =
        some (Ingress.mk PumpAt.read rest (first.tail ++ [f]) (jobsCapacity + 1)) := by
  refine ⟨rfl, ?_, (pumpRun_blocked first rest f hfirst extra).1,
    (pumpRun_blocked first rest f hfirst extra).2, ?_⟩
  · intro k hk
    have hlen : (first.take k).length = k := by
      rw [List.length_take, hfirst]; omega
    have h1 := pumpRun_fill (first.take k) (first.drop k ++ f :: rest) [] 0 0
      (by simp only [List.length_nil, hlen]; omega)
    rw [hlen] at h1
    have hsplit : first.take k ++ (first.drop k ++ f :: rest) = first ++ f :: rest := by
      rw [← List.append_assoc, List.take_append_drop]
    rw [hsplit] at h1
    simp only [Nat.add_zero, List.nil_append, Nat.zero_add] at h1
    exact h1
  · cases first with
    | nil => simp [jobsCapacity] at hfirst
    | cons m ms =>
      refine ⟨m, Ingress.mk (PumpAt.send f) rest ms (jobsCapacity + 1), rfl, rfl, ?_⟩
      have hlt : ms.length < jobsCapacity := by
        simp only [List.length_cons] at hfirst; omega
      simp only [pumpStep, hlt, if_true, List.tail_cons]

/-- C28, amended, run: 100 frames `hi`, then the frames `a`, `b`. -/
theorem C28_backpressure_witness :
    (List.replicate 100 (DirectMessageInput.mk "text" "hi")).length = jobsCapacity ∧
    pumpRun (2 * jobsCapacity + 1 + 0)
        (Ingress.start (List.replicate 100 (DirectMessageInput.mk "text" "hi") ++
          DirectMessageInput.mk "text" "a" :: [DirectMessageInput.mk "text" "b"])) =
      Ingress.mk (PumpAt.send (DirectMessageInput.mk "text" "a"))
        [DirectMessageInput.mk "text" "b"]
        (List.replicate 100 (DirectMessageInput.mk "text" "hi")) (jobsCapacity + 1) :=
  ⟨by simp [jobsCapacity],
    (C28_backpressure (List.replicate 100 (DirectMessageInput.mk "text" "hi"))
      [DirectMessageInput.mk "text" "b"] (DirectMessageInput.mk "text" "a")
      (by simp [jobsCapacity]) 0).2.2.1⟩

/-! ## File service: validation -/

theorem FileService.ValidateFile_lookup (f : FileService.FileHeader) :
    FileService.ValidateFile f =
      match FileService.fileTypeMap.lookup (FileService.filepathExt f.Filename) with
      | none => Except.error "file type is unsupported"
      | some fileConfig =>
        if f.Size > fileConfig.MaxSize then
          Except.error "file size exceeds the allowed limit"
        else Except.ok () := rfl

/-- C23. File validation: `ValidateFile` returns nil exactly when the
extension of the file name is one of `.jpeg`, `.jpg`, `.png` and the size is at
most 20 MiB, or it is `.mp4` and the size is at most 100 MiB, or it is one of
`.pdf`, `.txt`, `.zip` and the size is at most 50 MiB; a size equal to the
limit is accepted, the next size is refused; and a file whose extension is none
of the seven is reported as unsupported whatever its size. -/
theorem C23_validate_file (f : FileService.FileHeader) :
    (FileService.ValidateFile f = Except.ok () ↔
      (FileService.filepathExt f.Filename ∈ [".jpeg", ".jpg", ".png"] ∧
        f.Size ≤ 20 * 1024 * 1024) ∨
      (FileService.filepathExt f.Filename = ".mp4" ∧ f.Size ≤ 100 * 1024 * 1024) ∨
      (FileService.filepathExt f.Filename ∈ [".pdf", ".txt", ".zip"] ∧
        f.Size ≤ 50 * 1024 * 1024)) ∧
    (FileService.filepathExt f.Filename ∉
        [".jpeg", ".jpg", ".png", ".mp4", ".pdf", ".txt", ".zip"] →
      FileService.ValidateFile f = Except.error "file type is unsupported") ∧
    (∀ (name : String) (content : Except String String),
      FileService.filepathExt name = ".png" →
      FileService.ValidateFile ⟨name, 20 * 1024 * 1024, content⟩ = Except.ok () ∧
      FileService.ValidateFile ⟨name, 20 * 1024 * 1024 + 1, content⟩ =
        Except.error "file size exceeds the allowed limit") := by
  have key : ∀ (g : FileService.FileHeader),
      (FileService.ValidateFile g = Except.ok () ↔
        (FileService.filepathExt g.Filename ∈ [".jpeg", ".jpg", ".png"] ∧
          g.Size ≤ 20 * 1024 * 1024) ∨
        (FileService.filepathExt g.Filename = ".mp4" ∧ g.Size ≤ 100 * 1024 * 1024) ∨
        (FileService.filepathExt g.Filename ∈ [".pdf", ".txt", ".zip"] ∧
          g.Size ≤ 50 * 1024 * 1024)) ∧
      (FileService.filepathExt g.Filename ∉
          [".jpeg", ".jpg", ".png", ".mp4", ".pdf", ".txt", ".zip"] →
        FileService.ValidateFile g = Except.error "file type is unsupported") := by
    intro g
    rw [FileService.ValidateFile_lookup]
    generalize FileService.filepathExt g.Filename = ext
    by_cases h1 : ext = ".jpeg"
    · subst h1
      simp [FileService.fileTypeMap, List.lookup, FileService.ImageLimit]
    by_cases h2 : ext = ".jpg"
    · subst h2
      simp [FileService.fileTypeMap, List.lookup, FileService.ImageLimit]
    by_cases h3 : ext = ".png"
    · subst h3
      simp [FileService.fileTypeMap, List.lookup, FileService.ImageLimit]
    by_cases h4 : ext = ".mp4"
    · subst h4
      simp [FileService.fileTypeMap, List.lookup, FileService.VideoLimit]
    by_cases h5 : ext = ".pdf"
    · subst h5
      simp [FileService.fileTypeMap, List.lookup, FileService.FileLimit]
    by_cases h6 : ext = ".txt"
    · subst h6
      simp [FileService.fileTypeMap, List.lookup, FileService.FileLimit]
    by_cases h7 : ext = ".zip"
    · subst h7
      simp [FileService.fileTypeMap, List.lookup, FileService.FileLimit]
    have b1 : (ext == ".jpeg") = false := beq_eq_false_iff_ne.mpr h1
    have b2 : (ext == ".jpg") = false := beq_eq_false_iff_ne.mpr h2
    have b3 : (ext == ".png") = false := beq_eq_false_iff_ne.mpr h3
    have b4 : (ext == ".mp4") = false := beq_eq_false_iff_ne.mpr h4
    have b5 : (ext == ".pdf") = false := beq_eq_false_iff_ne.mpr h5
    have b6 : (ext == ".txt") = false := beq_eq_false_iff_ne.mpr h6
    have b7 : (ext == ".zip") = false := beq_eq_false_iff_ne.mpr h7
    have hnone : FileService.fileTypeMap.lookup ext = none := by
      simp only [FileService.fileTypeMap, List.lookup, b1, b2, b3, b4, b5, b6, b7]
    rw [hnone]
    simp [h1, h2, h3, h4, h5, h6, h7]
  refine ⟨(key f).1, (key f).2, ?_⟩
  intro name content hext
  constructor
  · exact (key ⟨name, 20 * 1024 * 1024, content⟩).1.mpr
      (Or.inl ⟨by simp [hext], le_refl _⟩)
  · rw [FileService.ValidateFile_lookup]
    simp only [hext]
    rfl

/-- C23, runs: a PNG of exactly 20 MiB in a directory whose name has a dot is
accepted, one byte more is refused; the extension is compared as written, so
`.PNG` is unsupported; a name without extension is unsupported. -/
theorem C23_validate_file_runs :
    FileService.filepathExt "up.loads/photo.v2.png" = ".png" ∧
    FileService.ValidateFile ⟨"up.loads/photo.v2.png", 20971520, Except.ok ""⟩ = Except.ok () ∧
    FileService.ValidateFile ⟨"up.loads/photo.v2.png", 20971521, Except.ok ""⟩ =
      Except.error "file size exceeds the allowed limit" ∧
    FileService.ValidateFile ⟨"photo.PNG", 1, Except.ok ""⟩ =
      Except.error "file type is unsupported" ∧
    FileService.ValidateFile ⟨"up.loads/README", 1, Except.ok ""⟩ =
      Except.error "file type is unsupported" := by
  exact ⟨rfl, rfl, rfl, rfl, rfl⟩

/-! ## File service: upload -/

theorem FileService.filesNameLoop_spec (rand : Nat → Nat) (chars : String)
    (hc : chars.length ≠ 0) :
    ∀ (n i : Nat) (result : String),
      ∃ s, FileService.generateRandomStringLoop rand chars n i result = Outcome.ret s ∧
        s.length = result.length + n ∧
        ∀ ch ∈ s.toList, ch ∈ result.toList ∨ ch ∈ chars.toList := by
  intro n
  induction n with
  | zero => intro i result; exact ⟨result, rfl, rfl, fun ch h => Or.inl h⟩
  | succ k ih =>
    intro i result
    unfold FileService.generateRandomStringLoop
    simp only [hc, if_false]
    obtain ⟨s, hs, hl, hm⟩ := ih (i + 1)
      (result ++ String.singleton (chars.toList.getD (rand i % chars.length) ' '))
    refine ⟨s, hs, ?_, ?_⟩
    · rw [hl, String.length_append, String.length_singleton]; omega
    · intro ch hch
      rcases hm ch hch with h | h
      · have hd : (result ++ String.singleton
            (chars.toList.getD (rand i % chars.length) ' ')).toList =
            result.toList ++ [chars.toList.getD (rand i % chars.length) ' '] := by
          show (result ++ String.singleton _).data = _
          rw [String.data_append]
          rfl
        rw [hd, List.mem_append, List.mem_singleton] at h
        rcases h with h | h
        · exact Or.inl h
        · right
          rw [h]
          have hlt : rand i % chars.length < chars.toList.length :=
            Nat.mod_lt _ (Nat.pos_of_ne_zero hc)
          rw [List.getD_eq_getElem _ _ hlt]
          exact List.getElem_mem _
      · exact Or.inr h

theorem FileService.GenerateFilesName_spec (rand : Nat → Nat) :
    ∃ name, FileService.GenerateFilesName rand = Outcome.ret name ∧ name.length = 20 ∧
      ∀ ch ∈ name.toList, ch ∈ FileService.number.toList := by
  obtain ⟨s, hs, hl, hm⟩ :=
    FileService.filesNameLoop_spec rand FileService.number (by decide) 20 0 ""
  refine ⟨s, hs, ?_, ?_⟩
  · rw [hl]; rfl
  · intro ch hch
    rcases hm ch hch with h | h
    · exact absurd h (by simp)
    · exact h

theorem FileService.UploadFile_calls (b : FileService.Behaviour) (data name : String)
    (size : Int) (s : FileService.Store) :
    (FileService.MinioStorage.UploadFile b data name size s).2.calls =
      s.calls ++ [FileService.StorageCall.putObject name size] := by
  unfold FileService.MinioStorage.UploadFile
  cases b.putFault s.time name <;> rfl

theorem FileService.GeneratePresignedURL_run (b : FileService.Behaviour) (name : String)
    (expiry : Nat) (s : FileService.Store) :
    FileService.MinioStorage.GeneratePresignedURL b name expiry s =
      (b.presign s.time name expiry,
        { s with calls := s.calls ++ [FileService.StorageCall.presignedGetObject name expiry] }) := by
  unfold FileService.MinioStorage.GeneratePresignedURL
  cases b.presign s.time name expiry <;> rfl

theorem FileService.uploadLoop_ok (b : FileService.Behaviour) :
    ∀ (files : List FileService.FileHeader) (acc : List FileService.FileSender)
      (s : FileService.Store) (resp : FileService.Response) (s1 : FileService.Store),
      FileService.uploadLoop b files acc s = (Outcome.ret resp, s1) →
      resp.status = 200 →
      ∃ entries, resp.body = FileService.Body.json (acc ++ entries) ∧
        List.Forall₂ FileService.EntryFor files entries ∧
        s1.calls = s.calls ++
          FileService.callsForAll files entries (48 * FileService.timeHour) ∧
        ∀ e ∈ entries, ∃ t,
          b.presign t e.FileName (48 * FileService.timeHour) = Except.ok e.FileUrl := by
  intro files
  induction files with
  | nil =>
    intro acc s resp s1 h hs
    simp only [FileService.uploadLoop, Prod.mk.injEq, Outcome.ret.injEq] at h
    obtain ⟨h1, h2⟩ := h
    subst h1 h2
    exact ⟨[], by simp [FileService.HandleInformation], List.Forall₂.nil,
      by simp [FileService.callsForAll], by simp⟩
  | cons file files ih =>
    intro acc s resp s1 h hs
    unfold FileService.uploadLoop at h
    obtain ⟨name, hname, hlen, hmem⟩ := FileService.GenerateFilesName_spec (b.rand s.time)
    cases hv : FileService.ValidateFile file with
    | error e =>
      simp only [hv, Prod.mk.injEq, Outcome.ret.injEq] at h
      obtain ⟨h1, _⟩ := h
      subst h1
      exact absurd hs (by simp)
    | ok u =>
      simp only [hv, hname] at h
      cases hcont : file.content with
      | error e =>
        simp only [hcont, Prod.mk.injEq, Outcome.ret.injEq] at h
        obtain ⟨h1, _⟩ := h
        subst h1
        exact absurd hs (by simp)
      | ok fileData =>
        simp only [hcont] at h
        have hcalls := FileService.UploadFile_calls b fileData
          (name ++ FileService.filepathExt file.Filename) file.Size s
        rcases hput : FileService.MinioStorage.UploadFile b fileData
          (name ++ FileService.filepathExt file.Filename) file.Size s with ⟨r1, s2⟩
        rw [hput] at h hcalls
        cases r1 with
        | error e =>
          simp only [Prod.mk.injEq, Outcome.ret.injEq] at h
          obtain ⟨h1, _⟩ := h
          subst h1
          exact absurd hs (by simp)
        | ok u2 =>
          simp only [FileService.GeneratePresignedURL_run] at h
          cases hsign : b.presign s2.time (name ++ FileService.filepathExt file.Filename)
            (48 * FileService.timeHour) with
          | error e =>
            simp only [hsign, Prod.mk.injEq, Outcome.ret.injEq] at h
            obtain ⟨h1, _⟩ := h
            subst h1
            exact absurd hs (by simp)
          | ok presignedURL =>
            simp only [hsign] at h
            obtain ⟨entries, hb, hf, hc, hu⟩ := ih _ _ _ _ h hs
            refine ⟨⟨name ++ FileService.filepathExt file.Filename, presignedURL⟩ :: entries,
              ?_, ?_, ?_, ?_⟩
            · rw [hb]; simp
            · exact List.Forall₂.cons ⟨name, hlen, hmem, rfl⟩ hf
            · rw [hc]
              simp only at hcalls
              simp only [hcalls, FileService.callsForAll, FileService.callsFor,
                List.append_assoc, List.singleton_append, List.cons_append, List.nil_append]
            · intro e he
              rcases List.mem_cons.mp he with he | he
              · subst he
                exact ⟨s2.time, hsign⟩
              · exact hu e he

/-- C22. File-service upload response: when `UploadFile` answers a parsed
multipart request with status 200, the body is the JSON list of one entry per
file under `files`, in the order of the request; the name of each entry is a
string of 20 characters drawn from the alphabet `number` followed by the
extension of the name of its file; the calls made to the storage are, file by
file in that order, the upload of the object under that name and the request of
a presigned URL for that name with expiry `48 * time.Hour`, that is 172800
seconds; and the URL of each entry is the URL the storage signed for that name
and that expiry. -/
theorem C22_upload_response (b : FileService.Behaviour) (form : FileService.Form)
    (s s1 : FileService.Store) (resp : FileService.Response)
    (hrun : FileService.UploadFile b (Except.ok form) s = (Outcome.ret resp, s1))
    (h200 : resp.status = 200) :
    48 * FileService.timeHour = 172800 * 1000000000 ∧
    ∃ entries, resp.body = FileService.Body.json entries ∧
      List.Forall₂ FileService.EntryFor ((form.File.lookup "files").getD []) entries ∧
      s1.calls = s.calls ++
        FileService.callsForAll ((form.File.lookup "files").getD []) entries
          (48 * FileService.timeHour) ∧
      ∀ e ∈ entries, ∃ t,
        b.presign t e.FileName (48 * FileService.timeHour) = Except.ok e.FileUrl := by
  refine ⟨by decide, ?_⟩
  unfold FileService.UploadFile at hrun
  simp only at hrun
  by_cases hlen : ((form.File.lookup "files").getD []).length = 0
  · simp only [hlen, if_true, Prod.mk.injEq, Outcome.ret.injEq] at hrun
    obtain ⟨h1, _⟩ := hrun
    subst h1
    exact absurd h200 (by simp)
  · simp only [hlen, if_false] at hrun
    obtain ⟨entries, hb, hf, hc, hu⟩ := FileService.uploadLoop_ok b _ _ _ _ _ hrun h200
    exact ⟨entries, by simpa using hb, hf, hc, hu⟩

/-- C22, run: two files, `cat.png` then `notes.txt`, against a storage that
accepts everything. -/
theorem C22_upload_response_witness :
    FileService.UploadFile FileService.Behaviour.calm (Except.ok FileService.sampleForm)
        FileService.Store.empty =
      (Outcome.ret FileService.sampleUploadResponse, FileService.sampleUploadStore) ∧
    FileService.sampleUploadResponse.status = 200 ∧
    ∃ entries, FileService.sampleUploadResponse.body = FileService.Body.json entries ∧
      List.Forall₂ FileService.EntryFor
        ((FileService.sampleForm.File.lookup "files").getD []) entries :=
  have hrun : FileService.UploadFile FileService.Behaviour.calm
      (Except.ok FileService.sampleForm) FileService.Store.empty =
      (Outcome.ret FileService.sampleUploadResponse, FileService.sampleUploadStore) := by
    rfl
  ⟨hrun, rfl,
    match C22_upload_response FileService.Behaviour.calm FileService.sampleForm
      FileService.Store.empty FileService.sampleUploadStore FileService.sampleUploadResponse
      hrun rfl with
    | ⟨_, entries, hb, hf, _⟩ => ⟨entries, hb, hf⟩⟩

/-- C30. The file service reads only the field `files`: for a parsed multipart
request with no file under the field name `files`, `UploadFile` answers 400
with the body `files not found` and leaves the storage as it was, no object
stored and no URL requested; this holds for the request the message service's
uploader builds, whose only part is named `file`. -/
theorem C30_only_field_files (b : FileService.Behaviour) (form : FileService.Form)
    (s : FileService.Store)
    (hno : (form.File.lookup "files").getD [] = []) :
    FileService.UploadFile b (Except.ok form) s =
      (Outcome.ret { status := 400, body := FileService.Body.text "files not found" }, s) ∧
    ∀ (url filePath authorization boundary bytes : String),
      FileService.UploadFile b
        (Except.ok (FileService.formOf
          (uploadRequest url filePath authorization boundary bytes).parts)) s =
      (Outcome.ret { status := 400, body := FileService.Body.text "files not found" }, s) := by
  constructor
  · unfold FileService.UploadFile
    simp only [hno, List.length_nil, if_true]
  · intro url filePath authorization boundary bytes
    rfl

/-- C30, run: the request the message service sends for `/tmp/x.png`. -/
theorem C30_only_field_files_witness :
    ((FileService.formOf (uploadRequest "/upload" "/tmp/x.png" "" "boundary" "PNG").parts).File.lookup
        "files").getD [] = [] ∧
    FileService.UploadFile FileService.Behaviour.calm
        (Except.ok (FileService.formOf
          (uploadRequest "/upload" "/tmp/x.png" "" "boundary" "PNG").parts))
        FileService.Store.empty =
      (Outcome.ret { status := 400, body := FileService.Body.text "files not found" },
        FileService.Store.empty) :=
  ⟨rfl,
    (C30_only_field_files FileService.Behaviour.calm
      (FileService.formOf (uploadRequest "/upload" "/tmp/x.png" "" "boundary" "PNG").parts)
      FileService.Store.empty rfl).1⟩

end Urulink
